import Mathlib

/-!
# Security-group and permitted-network resources of the IBM provider

A shallow embedding of `ibm/resource_ibm_is_security_group.go` and
`ibm/resource_ibm_private_dns_permitted_network.go`.

* Go functions returning `error` become functions returning `Res (Option GoError)`:
  `Res.ret none` is a `nil` error, `Res.ret (some e)` a non-nil error and
  `Res.panic` a run-time panic (nil dereference, failed type assertion, index
  out of range).
* `*schema.ResourceData` becomes the record `ResourceData`, passed through
  every operation together with the log of the calls made to the vendor.
* The vendor SDK is a collaborator: what it answers is a field of `ClientSession`, a
  function of the calls made so far and of the request.
* Go `int64` and `int` are both 64 bits wide on the platforms the provider is
  built for, so `int(*p)` is the identity and integers are modelled by `Int`.
-/

set_option autoImplicit false
set_option linter.dupNamespace false

namespace Ibm

/-! ## Go values -/

/-- Result of running a piece of Go code: it completes with a value or panics. -/
inductive Res (α : Type) where
  | ret (a : α)
  | panic (msg : String)
  deriving Repr, DecidableEq

/-- A Go `interface{}` value, as far as the code inspects it: a string, an
integer, or a value of some other dynamic type. -/
inductive Value where
  | str (s : String)
  | int (n : Int)
  | other (typeName : String)
  deriving Repr, DecidableEq

/-- A Go `map[string]interface{}` built by the code, kept as the list of its
entries in insertion order. -/
abbrev Record := List (String × Value)

/-- The assignment `r[k] = v`. -/
def mapSet : Record → String → Value → Record
  | [], k, v => [(k, v)]
  | (k', v') :: rest, k, v =>
    if k' = k then (k, v) :: rest else (k', v') :: mapSet rest k v

/-- The lookup `r[k]`, `none` when the key is absent. -/
def mapGet : Record → String → Option Value
  | [], _ => none
  | (k', v') :: rest, k => if k' = k then some v' else mapGet rest k

/-- The keys of a map. -/
def mapKeys (r : Record) : List String := r.map Prod.fst

/-- The `interface{}` held in the `Remote` field of a rule. -/
inductive Remote where
  /-- the untyped `nil` interface: `rule.Remote != nil` is false -/
  | nil
  /-- a nil map or nil pointer: `reflect.ValueOf(rule.Remote).IsNil()` is true -/
  | typedNil
  /-- a non-nil `map[string]interface{}`; the entries are listed in the order
  in which the `range` statement visits them -/
  | map (entries : List (String × Value))
  /-- a non-nil value of any other type: `IsNil` or the type assertion panics -/
  | other (typeName : String)
  deriving Repr, DecidableEq

/-! ## Attribute names of a flattened rule -/

/-- Modelled from the spec: the constant `isSecurityGroupRuleCode` is declared in a
file that is not under src/; the spec names the attribute `code`. -/
def isSecurityGroupRuleCode : String := "code"

/-- Modelled from the spec: the constant `isSecurityGroupRuleType` is declared in a
file that is not under src/; the spec names the attribute `type`. -/
def isSecurityGroupRuleType : String := "type"

/-- Modelled from the spec: the constant `isSecurityGroupRuleDirection` is declared
in a file that is not under src/; the spec names the attribute `direction`. -/
def isSecurityGroupRuleDirection : String := "direction"

/-- Modelled from the spec: the constant `isSecurityGroupRuleIPVersion` is declared
in a file that is not under src/; the spec names the attribute `ip_version`. -/
def isSecurityGroupRuleIPVersion : String := "ip_version"

/-- Modelled from the spec: the constant `isSecurityGroupRuleProtocol` is declared
in a file that is not under src/; the spec names the attribute `protocol`. -/
def isSecurityGroupRuleProtocol : String := "protocol"

/-- Modelled from the spec: the constant `isSecurityGroupRuleRemote` is declared in
a file that is not under src/; the spec names the attribute `remote`. -/
def isSecurityGroupRuleRemote : String := "remote"

/-- Modelled from the spec: the constant `isSecurityGroupRulePortMin` is declared
in a file that is not under src/; the spec names the attribute `port_min`. -/
def isSecurityGroupRulePortMin : String := "port_min"

/-- Modelled from the spec: the constant `isSecurityGroupRulePortMax` is declared
in a file that is not under src/; the spec names the attribute `port_max`. -/
def isSecurityGroupRulePortMax : String := "port_max"

/-! ## Decoding the remote of a rule

The six `case` bodies of `sgGet` and `classicSgGet` end with the same
statements on `rule.Remote`, which has the type `interface{}` in both SDKs. -/

/-- The loop
`for k, v := range m { if k == "id" || k == "address" || k == "cidr_block" { r[remote] = v.(string); break } }`
over the entries of `m` in the order the `range` statement yields them. -/
def rangeRemote (r : Record) : List (String × Value) → Res Record
  | [] => .ret r
  | (k, v) :: rest =>
    if k = "id" ∨ k = "address" ∨ k = "cidr_block" then
      match v with
      | .str s => .ret (mapSet r isSecurityGroupRuleRemote (.str s))
      | _ => .panic "interface conversion: interface {} is not string"
    else rangeRemote r rest

/-- The statement
`if rule.Remote != nil && reflect.ValueOf(rule.Remote).IsNil() == false { for ... }`. -/
def setRemote (r : Record) : Remote → Res Record
  | .nil => .ret r
  | .typedNil => .ret r
  | .map entries => rangeRemote r entries
  | .other _ => .panic "interface conversion: interface {} is not map[string]interface {}"

/-- The statement `if p != nil { r[k] = int(*p) }`. -/
def setInt (r : Record) (k : String) : Option Int → Record
  | some n => mapSet r k (.int n)
  | none => r

/-- The statement `if p != nil { r[k] = *p }` for a string pointer. -/
def setStr (r : Record) (k : String) : Option String → Record
  | some s => mapSet r k (.str s)
  | none => r

end Ibm

/-! ## The rule types of the current-generation SDK -/

namespace vpcv1

/-- The struct `vpcv1.SecurityGroupRuleProtocolIcmp`; a nil pointer field is `none`. -/
structure SecurityGroupRuleProtocolIcmp where
  Code : Option Int
  Type_ : Option Int
  Direction : Option String
  IPVersion : Option String
  Protocol : Option String
  Remote : Ibm.Remote
  deriving Repr, DecidableEq

/-- The struct `vpcv1.SecurityGroupRuleProtocolAll`. -/
structure SecurityGroupRuleProtocolAll where
  Direction : Option String
  IPVersion : Option String
  Protocol : Option String
  Remote : Ibm.Remote
  deriving Repr, DecidableEq

/-- The struct `vpcv1.SecurityGroupRuleProtocolTcpudp`. -/
structure SecurityGroupRuleProtocolTcpudp where
  PortMin : Option Int
  PortMax : Option Int
  Direction : Option String
  IPVersion : Option String
  Protocol : Option String
  Remote : Ibm.Remote
  deriving Repr, DecidableEq

/-- An element of `group.Rules`: a value of the interface `SecurityGroupRuleIntf`
with its dynamic type. The last constructor stands for every other type that
implements the interface (the SDK's generic `*vpcv1.SecurityGroupRule`). -/
inductive SecurityGroupRuleIntf where
  | Icmp (rule : SecurityGroupRuleProtocolIcmp)
  | All (rule : SecurityGroupRuleProtocolAll)
  | Tcpudp (rule : SecurityGroupRuleProtocolTcpudp)
  | other (typeName : String)
  deriving Repr, DecidableEq

end vpcv1

/-! ## The rule types of the classic SDK -/

namespace vpcclassicv1

/-- The struct `vpcclassicv1.SecurityGroupRuleProtocolIcmp`. -/
structure SecurityGroupRuleProtocolIcmp where
  Code : Option Int
  Type_ : Option Int
  Direction : Option String
  IPVersion : Option String
  Protocol : Option String
  Remote : Ibm.Remote
  deriving Repr, DecidableEq

/-- The struct `vpcclassicv1.SecurityGroupRuleProtocolAll`. -/
structure SecurityGroupRuleProtocolAll where
  Direction : Option String
  IPVersion : Option String
  Protocol : Option String
  Remote : Ibm.Remote
  deriving Repr, DecidableEq

/-- The struct `vpcclassicv1.SecurityGroupRuleProtocolTcpudp`. -/
structure SecurityGroupRuleProtocolTcpudp where
  PortMin : Option Int
  PortMax : Option Int
  Direction : Option String
  IPVersion : Option String
  Protocol : Option String
  Remote : Ibm.Remote
  deriving Repr, DecidableEq

/-- An element of `group.Rules` in the classic SDK, with its dynamic type. -/
inductive SecurityGroupRuleIntf where
  | Icmp (rule : SecurityGroupRuleProtocolIcmp)
  | All (rule : SecurityGroupRuleProtocolAll)
  | Tcpudp (rule : SecurityGroupRuleProtocolTcpudp)
  | other (typeName : String)
  deriving Repr, DecidableEq

end vpcclassicv1

namespace Ibm

/-! ## The rule loop of `sgGet` -/

/-- The body of `case "*vpcv1.SecurityGroupRuleProtocolIcmp"` up to the `append`. -/
def sgGetIcmp (rule : vpcv1.SecurityGroupRuleProtocolIcmp) : Res Record :=
  let r : Record := []
  let r := setInt r isSecurityGroupRuleCode rule.Code
  let r := setInt r isSecurityGroupRuleType rule.Type_
  match rule.Direction with
  | none => .panic "nil pointer dereference"
  | some direction =>
    let r := mapSet r isSecurityGroupRuleDirection (.str direction)
    match rule.IPVersion with
    | none => .panic "nil pointer dereference"
    | some ipVersion =>
      let r := mapSet r isSecurityGroupRuleIPVersion (.str ipVersion)
      let r := setStr r isSecurityGroupRuleProtocol rule.Protocol
      setRemote r rule.Remote

/-- The body of `case "*vpcv1.SecurityGroupRuleProtocolAll"` up to the `append`. -/
def sgGetAll (rule : vpcv1.SecurityGroupRuleProtocolAll) : Res Record :=
  let r : Record := []
  match rule.Direction with
  | none => .panic "nil pointer dereference"
  | some direction =>
    let r := mapSet r isSecurityGroupRuleDirection (.str direction)
    match rule.IPVersion with
    | none => .panic "nil pointer dereference"
    | some ipVersion =>
      let r := mapSet r isSecurityGroupRuleIPVersion (.str ipVersion)
      let r := setStr r isSecurityGroupRuleProtocol rule.Protocol
      setRemote r rule.Remote

/-- The body of `case "*vpcv1.SecurityGroupRuleProtocolTcpudp"` up to the `append`. -/
def sgGetTcpudp (rule : vpcv1.SecurityGroupRuleProtocolTcpudp) : Res Record :=
  let r : Record := []
  let r := setInt r isSecurityGroupRulePortMin rule.PortMin
  let r := setInt r isSecurityGroupRulePortMax rule.PortMax
  match rule.Direction with
  | none => .panic "nil pointer dereference"
  | some direction =>
    let r := mapSet r isSecurityGroupRuleDirection (.str direction)
    match rule.IPVersion with
    | none => .panic "nil pointer dereference"
    | some ipVersion =>
      let r := mapSet r isSecurityGroupRuleIPVersion (.str ipVersion)
      let r := setStr r isSecurityGroupRuleProtocol rule.Protocol
      setRemote r rule.Remote

/-- The loop `for _, rule := range group.Rules { switch reflect.TypeOf(rule).String() {...} }`
of `sgGet`, started with the slice `rules` built so far. The switch has no
`default` case: a rule of another type leaves `rules` as it is. -/
def sgGetLoop : List vpcv1.SecurityGroupRuleIntf → List Record → Res (List Record)
  | [], rules => .ret rules
  | .Icmp rule :: rest, rules =>
    match sgGetIcmp rule with
    | .ret r => sgGetLoop rest (rules ++ [r])
    | .panic m => .panic m
  | .All rule :: rest, rules =>
    match sgGetAll rule with
    | .ret r => sgGetLoop rest (rules ++ [r])
    | .panic m => .panic m
  | .Tcpudp rule :: rest, rules =>
    match sgGetTcpudp rule with
    | .ret r => sgGetLoop rest (rules ++ [r])
    | .panic m => .panic m
  | .other _ :: rest, rules => sgGetLoop rest rules

/-- The statements `rules := make([]map[string]interface{}, 0); if len(group.Rules) > 0 { for ... }`
of `sgGet`: the value of `rules` that is then stored with `d.Set`. -/
def sgGetRules (groupRules : List vpcv1.SecurityGroupRuleIntf) : Res (List Record) :=
  if groupRules.length > 0 then sgGetLoop groupRules [] else .ret []

/-! ## The rule loop of `classicSgGet` -/

/-- The body of `case "*vpcclassicv1.SecurityGroupRuleProtocolIcmp"` up to the `append`. -/
def classicSgGetIcmp (rule : vpcclassicv1.SecurityGroupRuleProtocolIcmp) : Res Record :=
  let r : Record := []
  let r := setInt r isSecurityGroupRuleCode rule.Code
  let r := setInt r isSecurityGroupRuleType rule.Type_
  match rule.Direction with
  | none => .panic "nil pointer dereference"
  | some direction =>
    let r := mapSet r isSecurityGroupRuleDirection (.str direction)
    match rule.IPVersion with
    | none => .panic "nil pointer dereference"
    | some ipVersion =>
      let r := mapSet r isSecurityGroupRuleIPVersion (.str ipVersion)
      let r := setStr r isSecurityGroupRuleProtocol rule.Protocol
      setRemote r rule.Remote

/-- The body of `case "*vpcclassicv1.SecurityGroupRuleProtocolAll"` up to the `append`. -/
def classicSgGetAll (rule : vpcclassicv1.SecurityGroupRuleProtocolAll) : Res Record :=
  let r : Record := []
  match rule.Direction with
  | none => .panic "nil pointer dereference"
  | some direction =>
    let r := mapSet r isSecurityGroupRuleDirection (.str direction)
    match rule.IPVersion with
    | none => .panic "nil pointer dereference"
    | some ipVersion =>
      let r := mapSet r isSecurityGroupRuleIPVersion (.str ipVersion)
      let r := setStr r isSecurityGroupRuleProtocol rule.Protocol
      setRemote r rule.Remote

/-- The body of `case "*vpcclassicv1.SecurityGroupRuleProtocolTcpudp"` up to the `append`. -/
def classicSgGetTcpudp (rule : vpcclassicv1.SecurityGroupRuleProtocolTcpudp) : Res Record :=
  let r : Record := []
  let r := setInt r isSecurityGroupRulePortMin rule.PortMin
  let r := setInt r isSecurityGroupRulePortMax rule.PortMax
  match rule.Direction with
  | none => .panic "nil pointer dereference"
  | some direction =>
    let r := mapSet r isSecurityGroupRuleDirection (.str direction)
    match rule.IPVersion with
    | none => .panic "nil pointer dereference"
    | some ipVersion =>
      let r := mapSet r isSecurityGroupRuleIPVersion (.str ipVersion)
      let r := setStr r isSecurityGroupRuleProtocol rule.Protocol
      setRemote r rule.Remote

/-- The loop over `group.Rules` of `classicSgGet`, started with the slice
`rules` built so far; a rule of another type leaves `rules` as it is. -/
def classicSgGetLoop : List vpcclassicv1.SecurityGroupRuleIntf → List Record → Res (List Record)
  | [], rules => .ret rules
  | .Icmp rule :: rest, rules =>
    match classicSgGetIcmp rule with
    | .ret r => classicSgGetLoop rest (rules ++ [r])
    | .panic m => .panic m
  | .All rule :: rest, rules =>
    match classicSgGetAll rule with
    | .ret r => classicSgGetLoop rest (rules ++ [r])
    | .panic m => .panic m
  | .Tcpudp rule :: rest, rules =>
    match classicSgGetTcpudp rule with
    | .ret r => classicSgGetLoop rest (rules ++ [r])
    | .panic m => .panic m
  | .other _ :: rest, rules => classicSgGetLoop rest rules

/-- The value of `rules` that `classicSgGet` stores with `d.Set`. -/
def classicSgGetRules (groupRules : List vpcclassicv1.SecurityGroupRuleIntf) : Res (List Record) :=
  if groupRules.length > 0 then classicSgGetLoop groupRules [] else .ret []

/-! ## Errors, vendor replies and the session -/

/-- The SDK's `*core.DetailedResponse`, of which the code reads the status code. -/
structure DetailedResponse where
  StatusCode : Int
  deriving Repr, DecidableEq

/-- A non-nil Go `error`: one handed over by a collaborator, or one built with
`fmt.Errorf(format, args..., err, response)`. -/
inductive GoError where
  | sdk (msg : String)
  | errorf (format : String) (args : List String) (err : GoError)
      (response : Option DetailedResponse)
  deriving Repr, DecidableEq

/-- The condition `response != nil && response.StatusCode == 404`. -/
def isNotFound : Option DetailedResponse → Bool
  | some response => decide (response.StatusCode = 404)
  | none => false

/-- The three values `(result, response, err)` an SDK call returns; a nil
pointer or nil error is `none`. -/
structure SdkReply (α : Type) where
  result : Option α
  response : Option DetailedResponse
  err : Option GoError

/-- A call made to the vendor (or to the resource-group service), with the
content of its request. -/
inductive VendorCall where
  | classicCreateSecurityGroup (vpc : String) (resourceGroup name : Option String)
  | classicGetSecurityGroup (id : String)
  | classicUpdateSecurityGroup (id name : String)
  | classicDeleteSecurityGroup (id : String)
  | createSecurityGroup (vpc : String) (resourceGroup name : Option String)
  | getSecurityGroup (id : String)
  | updateSecurityGroup (id name : String)
  | deleteSecurityGroup (id : String)
  | resourceGroupGet (id : String)
  | createPermittedNetwork (instanceID zoneID permittedNetwork nwType : String)
  | getPermittedNetwork (instanceID zoneID permittedNetworkID : String)
  | deletePermittedNetwork (instanceID zoneID permittedNetworkID : String)
  deriving Repr, DecidableEq

/-- An operation on the named-mutex registry `ibmMutexKV`. -/
inductive LockEvent where
  | lock (key : String)
  | unlock (key : String)
  deriving Repr, DecidableEq

end Ibm

namespace vpcv1

/-- The struct `vpcv1.VPCReference`, of which the code reads `ID`. -/
structure VPCReference where
  ID : Option String

/-- The struct `vpcv1.ResourceGroupReference`. -/
structure ResourceGroupReference where
  ID : Option String
  Name : Option String

/-- The struct `vpcv1.SecurityGroup`, with the fields the code reads. -/
structure SecurityGroup where
  ID : Option String
  CRN : Option String
  Name : Option String
  VPC : Option VPCReference
  Rules : List SecurityGroupRuleIntf
  ResourceGroup : Option ResourceGroupReference

end vpcv1

namespace vpcclassicv1

/-- The struct `vpcclassicv1.VPCReference`, of which the code reads `ID`. -/
structure VPCReference where
  ID : Option String

/-- The struct `vpcclassicv1.ResourceGroupReference`, of which the code reads `ID`. -/
structure ResourceGroupReference where
  ID : Option String

/-- The struct `vpcclassicv1.SecurityGroup`, with the fields the code reads. -/
structure SecurityGroup where
  ID : Option String
  CRN : Option String
  Name : Option String
  VPC : Option VPCReference
  Rules : List SecurityGroupRuleIntf
  ResourceGroup : Option ResourceGroupReference

end vpcclassicv1

namespace Ibm

/-- The value `BluemixUserDetails()` returns, of which the code reads `generation`. -/
structure UserDetails where
  generation : Int

/-- The resource group the resource-management client returns. -/
structure ResourceGroup where
  Name : String

/-- The object the private-DNS SDK holds in the field `PermittedNetwork`; it
carries the CRN of the VPC. -/
structure PermittedNetworkVpc where
  VpcCrn : Option String

/-- The struct the private-DNS SDK returns for a permitted network. -/
structure PermittedNetwork where
  ID : Option String
  CreatedOn : Option String
  ModifiedOn : Option String
  PermittedNetwork : Option PermittedNetworkVpc
  Type_ : Option String
  State : Option String

/-- The argument `meta`: the client session with everything that lies behind
it. The user details, and with them the generation, are fixed for the session:
`BluemixUserDetails()` gives the same answer each time it is called. Obtaining
a client yields an error or a client (`none`); every vendor call answers as a
function of the calls made so far and of its request. -/
structure ClientSession where
  BluemixUserDetails : Except GoError UserDetails
  classicVpcClient : Option GoError
  vpcClient : Option GoError
  ResourceManagementAPIv2 : Option GoError
  getBaseController : Except GoError String
  PrivateDnsClientSession : Option GoError
  NewPermittedNetworkVpc : String → Except GoError String
  classicCreateSecurityGroup :
    List VendorCall → String → Option String → Option String → SdkReply vpcclassicv1.SecurityGroup
  classicGetSecurityGroup : List VendorCall → String → SdkReply vpcclassicv1.SecurityGroup
  classicUpdateSecurityGroup : List VendorCall → String → String → SdkReply Unit
  classicDeleteSecurityGroup : List VendorCall → String → SdkReply Unit
  createSecurityGroup :
    List VendorCall → String → Option String → Option String → SdkReply vpcv1.SecurityGroup
  getSecurityGroup : List VendorCall → String → SdkReply vpcv1.SecurityGroup
  updateSecurityGroup : List VendorCall → String → String → SdkReply Unit
  deleteSecurityGroup : List VendorCall → String → SdkReply Unit
  resourceGroupGet : List VendorCall → String → Except GoError ResourceGroup
  createPermittedNetwork :
    List VendorCall → String → String → String → String → SdkReply PermittedNetwork
  getPermittedNetwork : List VendorCall → String → String → String → SdkReply PermittedNetwork
  deletePermittedNetwork : List VendorCall → String → String → String → SdkReply Unit

/-! ## The resource data -/

/-- The attribute names of the two resource schemas. Each name is a key of a
schema map literal of the source, so the names of one schema are pairwise
distinct. -/
inductive Attr where
  | isSecurityGroupName
  | isSecurityGroupVPC
  | isSecurityGroupRules
  | isSecurityGroupResourceGroup
  | ResourceControllerURL
  | ResourceName
  | ResourceCRN
  | ResourceGroupName
  | pdnsPermittedNetworkID
  | pdnsInstanceID
  | pdnsZoneID
  | pdnsNetworkType
  | pdnsVpcCRN
  | pdnsPermittedNetworkCreatedOn
  | pdnsPermittedNetworkModifiedOn
  | pdnsPermittedNetworkState
  | id
  deriving Repr, DecidableEq

/-- A value handed to `d.Set`: a string, a string pointer, or the list of
flattened rules. -/
inductive AttrVal where
  | str (s : String)
  | strPtr (p : Option String)
  | rules (rs : List Record)
  deriving Repr, DecidableEq

/-- The `*schema.ResourceData` of an operation: the identity `d.Id()`, the
attribute values `d.Get` reads and `d.Set` writes, and the attributes for
which `d.HasChange` is true (a property of the plan, which `d.Set` leaves
alone). -/
structure ResourceData where
  id : String
  attrs : List (Attr × AttrVal)
  changed : List Attr
  deriving Repr, DecidableEq

/-- The state an operation runs in: the resource data, the calls made to the
vendor so far, the operations made on the mutex registry so far, and the number
of times `BluemixUserDetails()` has been asked for the generation. -/
structure St where
  d : ResourceData
  calls : List VendorCall
  locks : List LockEvent
  lookups : Nat
  deriving Repr, DecidableEq

/-- The call `d.SetId(id)`. -/
def St.SetId (s : St) (id : String) : St :=
  { s with d := { s.d with id := id } }

/-- The call `d.Set(k, v)`; the error it returns is discarded by the source. -/
def St.Set (s : St) (k : Attr) (v : AttrVal) : St :=
  { s with d := { s.d with attrs := (k, v) :: s.d.attrs.filter (fun e => e.1 ≠ k) } }

/-- A call `d.Set(k, v)` that the schema refuses: `k` is not a key of the schema,
or `v` is not a value of the type of `k`. The call returns an error, which the
source discards, and writes nothing. -/
def St.SetRefused (s : St) (_k : Attr) : St := s

/-- The record of a call made to the vendor. -/
def St.call (s : St) (c : VendorCall) : St :=
  { s with calls := s.calls ++ [c] }

/-- The record of a call of `meta.(ClientSession).BluemixUserDetails()`. -/
def St.sessionLookup (s : St) : St :=
  { s with lookups := s.lookups + 1 }

/-- The record of an operation on the mutex registry. -/
def St.lockEvent (s : St) (e : LockEvent) : St :=
  { s with locks := s.locks ++ [e] }

/-- The expression `d.Get(k).(string)`: the string stored under `k`, the zero
value when none is stored. -/
def ResourceData.Get (d : ResourceData) (k : Attr) : String :=
  match d.attrs.lookup k with
  | some (.str s) => s
  | some (.strPtr (some s)) => s
  | _ => ""

/-- The call `d.GetOk(k)`: the value when it is set to a non-zero value. -/
def ResourceData.GetOk (d : ResourceData) (k : Attr) : Option String :=
  if d.Get k = "" then none else some (d.Get k)

/-- The call `d.HasChange(k)`. -/
def ResourceData.HasChange (d : ResourceData) (k : Attr) : Bool :=
  decide (k ∈ d.changed)

/-! ## Security group: create -/

/-- The function `classicSgCreate`. -/
def classicSgCreate (m : ClientSession) (s : St) (vpc : String) : St × Res (Option GoError) :=
  match m.classicVpcClient with
  | some err => (s, .ret (some err))
  | none =>
    let rg := s.d.GetOk .isSecurityGroupResourceGroup
    let name := s.d.GetOk .isSecurityGroupName
    let reply := m.classicCreateSecurityGroup s.calls vpc rg name
    let s := s.call (.classicCreateSecurityGroup vpc rg name)
    match reply.err with
    | some err =>
      (s, .ret (some (.errorf "Error while creating Security Group %s\n%s" [] err reply.response)))
    | none =>
      match reply.result with
      | none => (s, .panic "nil pointer dereference")
      | some sg =>
        match sg.ID with
        | none => (s, .panic "nil pointer dereference")
        | some id => (s.SetId id, .ret none)

/-- The function `sgCreate`. -/
def sgCreate (m : ClientSession) (s : St) (vpc : String) : St × Res (Option GoError) :=
  match m.vpcClient with
  | some err => (s, .ret (some err))
  | none =>
    let rg := s.d.GetOk .isSecurityGroupResourceGroup
    let name := s.d.GetOk .isSecurityGroupName
    let reply := m.createSecurityGroup s.calls vpc rg name
    let s := s.call (.createSecurityGroup vpc rg name)
    match reply.err with
    | some err =>
      (s, .ret (some (.errorf "Error while creating Security Group %s\n%s" [] err reply.response)))
    | none =>
      match reply.result with
      | none => (s, .panic "nil pointer dereference")
      | some sg =>
        match sg.ID with
        | none => (s, .panic "nil pointer dereference")
        | some id => (s.SetId id, .ret none)

/-! ## Security group: read -/

/-- The function `classicSgGet`; `rest` is the part of the body that follows the
`if group.ResourceGroup != nil` block. -/
def classicSgGet (m : ClientSession) (s : St) (id : String) : St × Res (Option GoError) :=
  match m.classicVpcClient with
  | some err => (s, .ret (some err))
  | none =>
    let reply := m.classicGetSecurityGroup s.calls id
    let s := s.call (.classicGetSecurityGroup id)
    match reply.err with
    | some err =>
      if isNotFound reply.response then
        (s.SetId "", .ret none)
      else
        (s, .ret (some (.errorf "Error getting Security Group : %s\n%s" [] err reply.response)))
    | none =>
      match reply.result with
      | none => (s, .panic "nil pointer dereference")
      | some group =>
        match group.Name with
        | none => (s, .panic "nil pointer dereference")
        | some name =>
          let s := s.Set .isSecurityGroupName (.str name)
          match group.VPC.bind (fun vpc => vpc.ID) with
          | none => (s, .panic "nil pointer dereference")
          | some vpcID =>
            let s := s.Set .isSecurityGroupVPC (.str vpcID)
            match classicSgGetRules group.Rules with
            | .panic msg => (s, .panic msg)
            | .ret rules =>
              let s := s.Set .isSecurityGroupRules (.rules rules)
              match group.ID with
              | none => (s, .panic "nil pointer dereference")
              | some groupID =>
                let s := s.SetId groupID
                let rest : St → St × Res (Option GoError) := fun s =>
                  match m.getBaseController with
                  | .error err => (s, .ret (some err))
                  | .ok controller =>
                    let s := s.Set .ResourceControllerURL
                      (.str (controller ++ "/vpc/network/securityGroups"))
                    let s := s.Set .ResourceName (.str name)
                    match group.CRN with
                    | none => (s, .panic "nil pointer dereference")
                    | some crn => (s.Set .ResourceCRN (.str crn), .ret none)
                match group.ResourceGroup with
                | none => rest s
                | some resourceGroup =>
                  let s := s.Set .isSecurityGroupResourceGroup (.strPtr resourceGroup.ID)
                  match m.ResourceManagementAPIv2 with
                  | some err => (s, .ret (some err))
                  | none =>
                    match resourceGroup.ID with
                    | none => (s, .panic "nil pointer dereference")
                    | some rgID =>
                      let grp := m.resourceGroupGet s.calls rgID
                      let s := s.call (.resourceGroupGet rgID)
                      match grp with
                      | .error err => (s, .ret (some err))
                      | .ok grp => rest (s.Set .ResourceGroupName (.str grp.Name))

/-- The function `sgGet`. -/
def sgGet (m : ClientSession) (s : St) (id : String) : St × Res (Option GoError) :=
  match m.vpcClient with
  | some err => (s, .ret (some err))
  | none =>
    let reply := m.getSecurityGroup s.calls id
    let s := s.call (.getSecurityGroup id)
    match reply.err with
    | some err =>
      if isNotFound reply.response then
        (s.SetId "", .ret none)
      else
        (s, .ret (some (.errorf "Error getting Security Group : %s\n%s" [] err reply.response)))
    | none =>
      match reply.result with
      | none => (s, .panic "nil pointer dereference")
      | some group =>
        match group.Name with
        | none => (s, .panic "nil pointer dereference")
        | some name =>
          let s := s.Set .isSecurityGroupName (.str name)
          match group.VPC.bind (fun vpc => vpc.ID) with
          | none => (s, .panic "nil pointer dereference")
          | some vpcID =>
            let s := s.Set .isSecurityGroupVPC (.str vpcID)
            match sgGetRules group.Rules with
            | .panic msg => (s, .panic msg)
            | .ret rules =>
              let s := s.Set .isSecurityGroupRules (.rules rules)
              match group.ID with
              | none => (s, .panic "nil pointer dereference")
              | some groupID =>
                let s := s.SetId groupID
                let s :=
                  match group.ResourceGroup with
                  | none => s
                  | some resourceGroup =>
                    (s.Set .isSecurityGroupResourceGroup (.strPtr resourceGroup.ID)).Set
                      .ResourceGroupName (.strPtr resourceGroup.Name)
                match m.getBaseController with
                | .error err => (s, .ret (some err))
                | .ok controller =>
                  let s := s.Set .ResourceControllerURL
                    (.str (controller ++ "/vpc-ext/network/securityGroups"))
                  let s := s.Set .ResourceName (.str name)
                  match group.CRN with
                  | none => (s, .panic "nil pointer dereference")
                  | some crn => (s.Set .ResourceCRN (.str crn), .ret none)

/-- The function `resourceIBMISSecurityGroupRead`. -/
def resourceIBMISSecurityGroupRead (m : ClientSession) (s : St) : St × Res (Option GoError) :=
  let s := s.sessionLookup
  match m.BluemixUserDetails with
  | .error err => (s, .ret (some err))
  | .ok userDetails =>
    let id := s.d.id
    if userDetails.generation = 1 then classicSgGet m s id else sgGet m s id

/-- The function `resourceIBMISSecurityGroupCreate`. -/
def resourceIBMISSecurityGroupCreate (m : ClientSession) (s : St) : St × Res (Option GoError) :=
  let s := s.sessionLookup
  match m.BluemixUserDetails with
  | .error err => (s, .ret (some err))
  | .ok userDetails =>
    let vpc := s.d.Get .isSecurityGroupVPC
    match (if userDetails.generation = 1 then classicSgCreate m s vpc else sgCreate m s vpc) with
    | (s, .ret none) => resourceIBMISSecurityGroupRead m s
    | stopped => stopped

/-! ## Security group: update -/

/-- The function `classicSgUpdate`. -/
def classicSgUpdate (m : ClientSession) (s : St) (id name : String) (hasChanged : Bool) :
    St × Res (Option GoError) :=
  match m.classicVpcClient with
  | some err => (s, .ret (some err))
  | none =>
    if hasChanged then
      let reply := m.classicUpdateSecurityGroup s.calls id name
      let s := s.call (.classicUpdateSecurityGroup id name)
      match reply.err with
      | some err =>
        (s, .ret (some (.errorf "Error Updating Security Group : %s\n%s" [] err reply.response)))
      | none => (s, .ret none)
    else (s, .ret none)

/-- The function `sgUpdate`. -/
def sgUpdate (m : ClientSession) (s : St) (id name : String) (hasChanged : Bool) :
    St × Res (Option GoError) :=
  match m.vpcClient with
  | some err => (s, .ret (some err))
  | none =>
    if hasChanged then
      let reply := m.updateSecurityGroup s.calls id name
      let s := s.call (.updateSecurityGroup id name)
      match reply.err with
      | some err =>
        (s, .ret (some (.errorf "Error Updating Security Group : %s\n%s" [] err reply.response)))
      | none => (s, .ret none)
    else (s, .ret none)

/-- The function `resourceIBMISSecurityGroupUpdate`. -/
def resourceIBMISSecurityGroupUpdate (m : ClientSession) (s : St) : St × Res (Option GoError) :=
  let s := s.sessionLookup
  match m.BluemixUserDetails with
  | .error err => (s, .ret (some err))
  | .ok userDetails =>
    let id := s.d.id
    if s.d.HasChange .isSecurityGroupName then
      let name := s.d.Get .isSecurityGroupName
      let hasChanged := true
      match (if userDetails.generation = 1 then classicSgUpdate m s id name hasChanged
             else sgUpdate m s id name hasChanged) with
      | (s, .ret none) => resourceIBMISSecurityGroupRead m s
      | stopped => stopped
    else resourceIBMISSecurityGroupRead m s

/-! ## Security group: delete and exists -/

/-- The function `classicSgDelete`. -/
def classicSgDelete (m : ClientSession) (s : St) (id : String) : St × Res (Option GoError) :=
  match m.classicVpcClient with
  | some err => (s, .ret (some err))
  | none =>
    let reply := m.classicGetSecurityGroup s.calls id
    let s := s.call (.classicGetSecurityGroup id)
    match reply.err with
    | some err =>
      if isNotFound reply.response then
        (s.SetId "", .ret none)
      else
        (s, .ret (some (.errorf "Error Getting Security Group (%s): %s\n%s" [id] err
          reply.response)))
    | none =>
      let reply := m.classicDeleteSecurityGroup s.calls id
      let s := s.call (.classicDeleteSecurityGroup id)
      match reply.err with
      | some err =>
        (s, .ret (some (.errorf "Error Deleting Security Group : %s\n%s" [] err reply.response)))
      | none => (s.SetId "", .ret none)

/-- The function `sgDelete`. -/
def sgDelete (m : ClientSession) (s : St) (id : String) : St × Res (Option GoError) :=
  match m.vpcClient with
  | some err => (s, .ret (some err))
  | none =>
    let reply := m.getSecurityGroup s.calls id
    let s := s.call (.getSecurityGroup id)
    match reply.err with
    | some err =>
      if isNotFound reply.response then
        (s.SetId "", .ret none)
      else
        (s, .ret (some (.errorf "Error Getting Security Group (%s): %s\n%s" [id] err
          reply.response)))
    | none =>
      let reply := m.deleteSecurityGroup s.calls id
      let s := s.call (.deleteSecurityGroup id)
      match reply.err with
      | some err =>
        (s, .ret (some (.errorf "Error Deleting Security Group : %s\n%s" [] err reply.response)))
      | none => (s.SetId "", .ret none)

/-- The function `resourceIBMISSecurityGroupDelete`. -/
def resourceIBMISSecurityGroupDelete (m : ClientSession) (s : St) : St × Res (Option GoError) :=
  let s := s.sessionLookup
  match m.BluemixUserDetails with
  | .error err => (s, .ret (some err))
  | .ok userDetails =>
    let id := s.d.id
    match (if userDetails.generation = 1 then classicSgDelete m s id else sgDelete m s id) with
    | (s, .ret none) => (s.SetId "", .ret none)
    | stopped => stopped

/-- The function `classicSgExists`. -/
def classicSgExists (m : ClientSession) (s : St) (id : String) :
    St × Res (Bool × Option GoError) :=
  match m.classicVpcClient with
  | some err => (s, .ret (false, some err))
  | none =>
    let reply := m.classicGetSecurityGroup s.calls id
    let s := s.call (.classicGetSecurityGroup id)
    match reply.err with
    | some err =>
      if isNotFound reply.response then
        (s, .ret (false, none))
      else
        (s, .ret (false, some (.errorf "Error getting Security Group: %s\n%s" [] err
          reply.response)))
    | none => (s, .ret (true, none))

/-- The function `sgExists`. -/
def sgExists (m : ClientSession) (s : St) (id : String) : St × Res (Bool × Option GoError) :=
  match m.vpcClient with
  | some err => (s, .ret (false, some err))
  | none =>
    let reply := m.getSecurityGroup s.calls id
    let s := s.call (.getSecurityGroup id)
    match reply.err with
    | some err =>
      if isNotFound reply.response then
        (s, .ret (false, none))
      else
        (s, .ret (false, some (.errorf "Error getting Security Group: %s\n%s" [] err
          reply.response)))
    | none => (s, .ret (true, none))

/-- The function `resourceIBMISSecurityGroupExists`. -/
def resourceIBMISSecurityGroupExists (m : ClientSession) (s : St) :
    St × Res (Bool × Option GoError) :=
  let s := s.sessionLookup
  match m.BluemixUserDetails with
  | .error err => (s, .ret (false, some err))
  | .ok userDetails =>
    let id := s.d.id
    if userDetails.generation = 1 then classicSgExists m s id else sgExists m s id

/-! ## Permitted network -/

/-- The pieces of a string around each occurrence of the separator, on lists of
characters: `strings.Split` with a separator of one character. -/
def splitChars (sep : Char) : List Char → List (List Char)
  | [] => [[]]
  | c :: cs =>
    if c = sep then [] :: splitChars sep cs
    else
      match splitChars sep cs with
      | [] => [[c]]
      | piece :: pieces => (c :: piece) :: pieces

/-- The call `strings.Split(s, "/")`. -/
def stringsSplit (s : String) : List String :=
  (splitChars '/' s.data).map String.mk

/-- The call `fmt.Sprintf("%s/%s/%s", a, b, c)`. -/
def sprintfId (a b c : String) : String :=
  a ++ "/" ++ b ++ "/" ++ c

/-- The expression `"private_dns_permitted_network_" + instanceID + zoneID`
that Create, Delete and Exists assign to `mk`. -/
def mutexKey (instanceID zoneID : String) : String :=
  "private_dns_permitted_network_" ++ instanceID ++ zoneID

/-- The function `resourceIBMPrivateDnsPermittedNetworkRead`. Two of its writes are
refused by the schema: `d.Set("id", response.ID)`, as `id` is not a key of the
schema, and `d.Set(pdnsVpcCRN, response.PermittedNetwork)`, which hands an
object to a string attribute. -/
def resourceIBMPrivateDnsPermittedNetworkRead (m : ClientSession) (s : St) :
    St × Res (Option GoError) :=
  match m.PrivateDnsClientSession with
  | some err => (s, .ret (some err))
  | none =>
    let id_set := stringsSplit s.d.id
    match id_set.get? 0, id_set.get? 1, id_set.get? 2 with
    | some id0, some id1, some id2 =>
      let reply := m.getPermittedNetwork s.calls id0 id1 id2
      let s := s.call (.getPermittedNetwork id0 id1 id2)
      match reply.err with
      | some err =>
        (s, .ret (some (.errorf "Error reading pdns permitted network:%s\n%s" [] err
          reply.response)))
      | none =>
        match reply.result with
        | none => (s, .panic "nil pointer dereference")
        | some response =>
          let s := s.SetRefused .id
          let s := s.Set .pdnsInstanceID (.str id0)
          let s := s.Set .pdnsZoneID (.str id1)
          let s := s.Set .pdnsPermittedNetworkID (.strPtr response.ID)
          let s := s.Set .pdnsPermittedNetworkCreatedOn (.strPtr response.CreatedOn)
          let s := s.Set .pdnsPermittedNetworkModifiedOn (.strPtr response.ModifiedOn)
          let s := s.SetRefused .pdnsVpcCRN
          let s := s.Set .pdnsNetworkType (.strPtr response.Type_)
          let s := s.Set .pdnsPermittedNetworkState (.strPtr response.State)
          (s, .ret none)
    | _, _, _ => (s, .panic "index out of range")

/-- The function `resourceIBMPrivateDnsPermittedNetworkCreate`; the deferred
`Unlock` runs on every way out once the lock is taken. -/
def resourceIBMPrivateDnsPermittedNetworkCreate (m : ClientSession) (s : St) :
    St × Res (Option GoError) :=
  match m.PrivateDnsClientSession with
  | some err => (s, .ret (some err))
  | none =>
    let instanceID := s.d.Get .pdnsInstanceID
    let zoneID := s.d.Get .pdnsZoneID
    let vpcCRN := s.d.Get .pdnsVpcCRN
    let nwType := s.d.Get .pdnsNetworkType
    let mk := mutexKey instanceID zoneID
    let s := s.lockEvent (.lock mk)
    let body : St × Res (Option GoError) :=
      match m.NewPermittedNetworkVpc vpcCRN with
      | .error err => (s, .ret (some err))
      | .ok permittedNetworkCrn =>
        let reply := m.createPermittedNetwork s.calls instanceID zoneID permittedNetworkCrn nwType
        let s := s.call (.createPermittedNetwork instanceID zoneID permittedNetworkCrn nwType)
        match reply.err with
        | some err =>
          (s, .ret (some (.errorf "Error creating pdns permitted network:%s\n%s" [] err
            reply.response)))
        | none =>
          match reply.result.bind (fun response => response.ID) with
          | none => (s, .panic "nil pointer dereference")
          | some responseID =>
            let s := s.SetId (sprintfId instanceID zoneID responseID)
            let s := s.Set .pdnsPermittedNetworkID (.str responseID)
            resourceIBMPrivateDnsPermittedNetworkRead m s
    (body.1.lockEvent (.unlock mk), body.2)

/-- The function `resourceIBMPrivateDnsPermittedNetworkDelete`. -/
def resourceIBMPrivateDnsPermittedNetworkDelete (m : ClientSession) (s : St) :
    St × Res (Option GoError) :=
  match m.PrivateDnsClientSession with
  | some err => (s, .ret (some err))
  | none =>
    let id_set := stringsSplit s.d.id
    match id_set.get? 0, id_set.get? 1 with
    | some id0, some id1 =>
      let mk := mutexKey id0 id1
      let s := s.lockEvent (.lock mk)
      let body : St × Res (Option GoError) :=
        match id_set.get? 2 with
        | none => (s, .panic "index out of range")
        | some id2 =>
          let reply := m.deletePermittedNetwork s.calls id0 id1 id2
          let s := s.call (.deletePermittedNetwork id0 id1 id2)
          match reply.err with
          | some err =>
            (s, .ret (some (.errorf "Error deleting pdns permitted network:%s\n%s" [] err
              reply.response)))
          | none => (s.SetId "", .ret none)
      (body.1.lockEvent (.unlock mk), body.2)
    | _, _ => (s, .panic "index out of range")

/-- The function `resourceIBMPrivateDnsPermittedNetworkExists`. -/
def resourceIBMPrivateDnsPermittedNetworkExists (m : ClientSession) (s : St) :
    St × Res (Bool × Option GoError) :=
  match m.PrivateDnsClientSession with
  | some err => (s, .ret (false, some err))
  | none =>
    let id_set := stringsSplit s.d.id
    match id_set.get? 0, id_set.get? 1 with
    | some id0, some id1 =>
      let mk := mutexKey id0 id1
      let s := s.lockEvent (.lock mk)
      let body : St × Res (Bool × Option GoError) :=
        match id_set.get? 2 with
        | none => (s, .panic "index out of range")
        | some id2 =>
          let reply := m.getPermittedNetwork s.calls id0 id1 id2
          let s := s.call (.getPermittedNetwork id0 id1 id2)
          match reply.err with
          | some err =>
            if isNotFound reply.response then
              (s, .ret (false, none))
            else (s, .ret (false, some err))
          | none => (s, .ret (true, none))
      (body.1.lockEvent (.unlock mk), body.2)
    | _, _ => (s, .panic "index out of range")

end Ibm

/-! ## Predicates used to state the properties -/

namespace Ibm

/-- One of the three key names the remote loop looks for. -/
def recognisedKey (k : String) : Bool :=
  decide (k = "id" ∨ k = "address" ∨ k = "cidr_block")

/-- The dynamic type of the value is `string`. -/
def Value.isStr : Value → Bool
  | .str _ => true
  | _ => false

/-- The remote is absent, or a map in which every entry named `id`, `address`
or `cidr_block` holds a string. -/
def Remote.decodable : Remote → Bool
  | .nil => true
  | .typedNil => true
  | .map entries => entries.all (fun e => !recognisedKey e.1 || e.2.isStr)
  | .other _ => false

end Ibm

/-- A current-generation rule of one of the three known variants, with direction
and IP version present and a remote with strings under the three key names. -/
def vpcv1.SecurityGroupRuleIntf.wellFormed : vpcv1.SecurityGroupRuleIntf → Bool
  | .Icmp rule => rule.Direction.isSome && rule.IPVersion.isSome && rule.Remote.decodable
  | .All rule => rule.Direction.isSome && rule.IPVersion.isSome && rule.Remote.decodable
  | .Tcpudp rule => rule.Direction.isSome && rule.IPVersion.isSome && rule.Remote.decodable
  | .other _ => false

/-- The rule is of one of the three types the switch of `sgGet` names. -/
def vpcv1.SecurityGroupRuleIntf.known : vpcv1.SecurityGroupRuleIntf → Bool
  | .other _ => false
  | _ => true

/-- A classic rule of one of the three known variants, with direction and IP
version present and a remote with strings under the three key names. -/
def vpcclassicv1.SecurityGroupRuleIntf.wellFormed : vpcclassicv1.SecurityGroupRuleIntf → Bool
  | .Icmp rule => rule.Direction.isSome && rule.IPVersion.isSome && rule.Remote.decodable
  | .All rule => rule.Direction.isSome && rule.IPVersion.isSome && rule.Remote.decodable
  | .Tcpudp rule => rule.Direction.isSome && rule.IPVersion.isSome && rule.Remote.decodable
  | .other _ => false

/-- The rule is of one of the three types the switch of `classicSgGet` names. -/
def vpcclassicv1.SecurityGroupRuleIntf.known : vpcclassicv1.SecurityGroupRuleIntf → Bool
  | .other _ => false
  | _ => true

namespace Ibm

/-! ## Sessions and states of the worked examples -/

/-- A reply that carries neither a result nor an error. -/
def emptyReply {α : Type} : SdkReply α :=
  { result := none, response := none, err := none }

/-- A session of the current generation in which every client is available and
the vendor answers every call with an empty reply. -/
def quietSession : ClientSession :=
  { BluemixUserDetails := .ok { generation := 2 }
    classicVpcClient := none
    vpcClient := none
    ResourceManagementAPIv2 := none
    getBaseController := .ok "https://cloud.ibm.com"
    PrivateDnsClientSession := none
    NewPermittedNetworkVpc := fun crn => .ok crn
    classicCreateSecurityGroup := fun _ _ _ _ => emptyReply
    classicGetSecurityGroup := fun _ _ => emptyReply
    classicUpdateSecurityGroup := fun _ _ _ => emptyReply
    classicDeleteSecurityGroup := fun _ _ => emptyReply
    createSecurityGroup := fun _ _ _ _ => emptyReply
    getSecurityGroup := fun _ _ => emptyReply
    updateSecurityGroup := fun _ _ _ => emptyReply
    deleteSecurityGroup := fun _ _ => emptyReply
    resourceGroupGet := fun _ _ => .ok { Name := "Default" }
    createPermittedNetwork := fun _ _ _ _ _ => emptyReply
    getPermittedNetwork := fun _ _ _ _ => emptyReply
    deletePermittedNetwork := fun _ _ _ _ => emptyReply }

/-- A state with the identity `id`, no attribute, no change and no call made. -/
def stateWithId (id : String) : St :=
  { d := { id := id, attrs := [], changed := [] }, calls := [], locks := [], lookups := 0 }

end Ibm

namespace Ibm

/-! ## The remote and the record as the specification describes them -/

/-- The value the specification selects in a remote map: that of the first key
present in the priority order `id`, `address`, `cidr_block`. -/
def remoteByPriority (entries : List (String × Value)) : Option Value :=
  match mapGet entries "id" with
  | some v => some v
  | none =>
    match mapGet entries "address" with
    | some v => some v
    | none => mapGet entries "cidr_block"

/-- The value of the first entry, in the order of the list, whose key is one of
`id`, `address`, `cidr_block`. -/
def firstRecognised (entries : List (String × Value)) : Option Value :=
  (entries.find? (fun e => recognisedKey e.1)).map Prod.snd

/-- What the specification says of the flattened record `r` of a rule with the
given fields: direction, IP version and protocol are those of the rule; `remote`
is there only if the rule has a remote; `code`, `type`, `port_min` and
`port_max` are there exactly when the rule has them, with the same integers;
no other key is there. -/
def RecordHolds (r : Record) (direction ipVersion protocol : Option String) (remote : Remote)
    (code type_ portMin portMax : Option Int) : Prop :=
  mapGet r "direction" = direction.map Value.str ∧
  mapGet r "ip_version" = ipVersion.map Value.str ∧
  mapGet r "protocol" = protocol.map Value.str ∧
  ((mapGet r "remote").isSome = true → ∃ entries, remote = .map entries) ∧
  mapGet r "code" = code.map Value.int ∧
  mapGet r "type" = type_.map Value.int ∧
  mapGet r "port_min" = portMin.map Value.int ∧
  mapGet r "port_max" = portMax.map Value.int ∧
  ∀ k, (mapGet r k).isSome = true →
    k ∈ ["direction", "ip_version", "protocol", "remote", "code", "type", "port_min", "port_max"]

end Ibm

/-- The remote of a current-generation rule. -/
def vpcv1.SecurityGroupRuleIntf.remote : vpcv1.SecurityGroupRuleIntf → Ibm.Remote
  | .Icmp rule => rule.Remote
  | .All rule => rule.Remote
  | .Tcpudp rule => rule.Remote
  | .other _ => .nil

/-- The remote of a classic rule. -/
def vpcclassicv1.SecurityGroupRuleIntf.remote : vpcclassicv1.SecurityGroupRuleIntf → Ibm.Remote
  | .Icmp rule => rule.Remote
  | .All rule => rule.Remote
  | .Tcpudp rule => rule.Remote
  | .other _ => .nil

/-- The record `r` holds what the specification says of the flattening of the
current-generation rule: see `Ibm.RecordHolds`. -/
def vpcv1.SecurityGroupRuleIntf.flattensTo (rule : vpcv1.SecurityGroupRuleIntf)
    (r : Ibm.Record) : Prop :=
  match rule with
  | .Icmp x =>
    Ibm.RecordHolds r x.Direction x.IPVersion x.Protocol x.Remote x.Code x.Type_ none none
  | .All x => Ibm.RecordHolds r x.Direction x.IPVersion x.Protocol x.Remote none none none none
  | .Tcpudp x =>
    Ibm.RecordHolds r x.Direction x.IPVersion x.Protocol x.Remote none none x.PortMin x.PortMax
  | .other _ => False

/-- The record `r` holds what the specification says of the flattening of the
classic rule: see `Ibm.RecordHolds`. -/
def vpcclassicv1.SecurityGroupRuleIntf.flattensTo (rule : vpcclassicv1.SecurityGroupRuleIntf)
    (r : Ibm.Record) : Prop :=
  match rule with
  | .Icmp x =>
    Ibm.RecordHolds r x.Direction x.IPVersion x.Protocol x.Remote x.Code x.Type_ none none
  | .All x => Ibm.RecordHolds r x.Direction x.IPVersion x.Protocol x.Remote none none none none
  | .Tcpudp x =>
    Ibm.RecordHolds r x.Direction x.IPVersion x.Protocol x.Remote none none x.PortMin x.PortMax
  | .other _ => False

namespace Ibm

/-- The call is one of the two update calls of the security-group resource. -/
def VendorCall.isUpdate : VendorCall → Bool
  | .classicUpdateSecurityGroup _ _ => true
  | .updateSecurityGroup _ _ => true
  | _ => false

/-- A security group without rules, as the vendor stores it. -/
def storedGroup : vpcv1.SecurityGroup :=
  { ID := some "sg-abc"
    CRN := some "crn:sg-abc"
    Name := some "sg1"
    VPC := some { ID := some "vpc-123" }
    Rules := []
    ResourceGroup := none }

/-- A session of the current generation whose vendor returns `storedGroup` for
every get. -/
def storedGroupSession : ClientSession :=
  { quietSession with
    getSecurityGroup := fun _ _ =>
      { result := some storedGroup, response := some { StatusCode := 200 }, err := none } }

end Ibm

namespace Ibm

/-- A reply that carries an error and a response of the given status. -/
def failedReply {α : Type} (status : Int) (msg : String) : SdkReply α :=
  { result := none, response := some { StatusCode := status }, err := some (.sdk msg) }

/-- A session of the current generation whose vendor answers every get of a
security group with status 404. -/
def notFoundSession : ClientSession :=
  { quietSession with getSecurityGroup := fun _ _ => failedReply 404 "not found" }

/-- A classic session whose vendor answers every get of a security group with
status 404. -/
def classicNotFoundSession : ClientSession :=
  { quietSession with
    BluemixUserDetails := .ok { generation := 1 }
    classicGetSecurityGroup := fun _ _ => failedReply 404 "not found" }

/-- A session of the current generation whose vendor answers every get of a
security group with status 500. -/
def serverErrorSession : ClientSession :=
  { quietSession with getSecurityGroup := fun _ _ => failedReply 500 "internal error" }

end Ibm

namespace Ibm

/-- The vendor calls made between the state `before` and the later state `after`. -/
def issued (before after : St) : List VendorCall :=
  after.calls.drop before.calls.length

end Ibm

namespace Ibm

/-- The vendor's create call of the security-group Create is reached and
returns no error: the session yields the generation, the client of that
generation is available and `CreateSecurityGroup` answers without an error. -/
def sgCreateCallSucceeds (m : ClientSession) (s : St) : Bool :=
  match m.BluemixUserDetails with
  | .error _ => false
  | .ok userDetails =>
    if userDetails.generation = 1 then
      m.classicVpcClient.isNone &&
        (m.classicCreateSecurityGroup s.calls (s.d.Get .isSecurityGroupVPC)
          (s.d.GetOk .isSecurityGroupResourceGroup) (s.d.GetOk .isSecurityGroupName)).err.isNone
    else
      m.vpcClient.isNone &&
        (m.createSecurityGroup s.calls (s.d.Get .isSecurityGroupVPC)
          (s.d.GetOk .isSecurityGroupResourceGroup) (s.d.GetOk .isSecurityGroupName)).err.isNone

/-- The vendor's create call of the permitted-network Create is reached and
returns no error. -/
def pnCreateCallSucceeds (m : ClientSession) (s : St) : Bool :=
  m.PrivateDnsClientSession.isNone &&
    match m.NewPermittedNetworkVpc (s.d.Get .pdnsVpcCRN) with
    | .error _ => false
    | .ok permittedNetworkCrn =>
      (m.createPermittedNetwork s.calls (s.d.Get .pdnsInstanceID) (s.d.Get .pdnsZoneID)
        permittedNetworkCrn (s.d.Get .pdnsNetworkType)).err.isNone

/-- A session of the current generation whose vendor creates the security group
`sg-abc` and the permitted network `net1`, and then answers every get with
status 500. -/
def createdThenUnreadableSession : ClientSession :=
  { quietSession with
    createSecurityGroup := fun _ _ _ _ =>
      { result := some storedGroup, response := some { StatusCode := 201 }, err := none }
    getSecurityGroup := fun _ _ => failedReply 500 "internal error"
    createPermittedNetwork := fun _ _ _ _ _ =>
      { result := some { ID := some "net1", CreatedOn := none, ModifiedOn := none,
                         PermittedNetwork := none, Type_ := some "vpc", State := none }
        response := some { StatusCode := 200 }
        err := none }
    getPermittedNetwork := fun _ _ _ _ => failedReply 500 "internal error" }

/-- A session of the current generation whose vendor rejects every create call. -/
def createRejectedSession : ClientSession :=
  { quietSession with
    createSecurityGroup := fun _ _ _ _ => failedReply 400 "bad request"
    createPermittedNetwork := fun _ _ _ _ _ => failedReply 400 "bad request" }

/-- The resource data of a permitted network to create under the instance
`inst1` and the zone `zone1`, without an identity. -/
def newPermittedNetwork : St :=
  { d := { id := ""
           attrs := [(.pdnsInstanceID, .str "inst1"), (.pdnsZoneID, .str "zone1"),
                     (.pdnsVpcCRN, .str "crn:vpc-123"), (.pdnsNetworkType, .str "vpc")]
           changed := [] }
    calls := [], locks := [], lookups := 0 }

/-- A session whose vendor stores the permitted network `net1`. -/
def storedNetworkSession : ClientSession :=
  { quietSession with
    getPermittedNetwork := fun _ _ _ _ =>
      { result := some { ID := some "net1", CreatedOn := none, ModifiedOn := none,
                         PermittedNetwork := none, Type_ := some "vpc", State := none }
        response := some { StatusCode := 200 }
        err := none } }

end Ibm

namespace Ibm

/-- A session whose vendor answers every get and every delete of a permitted
network with status 404. -/
def networkNotFoundSession : ClientSession :=
  { quietSession with
    getPermittedNetwork := fun _ _ _ _ => failedReply 404 "not found"
    deletePermittedNetwork := fun _ _ _ _ => failedReply 404 "not found" }

end Ibm

namespace Ibm

/-- The remote is one the loop flattens without a panic: it is absent, or it is a
map in which the first entry met under one of the keys `id`, `address`,
`cidr_block`, if there is one, holds a string. -/
def Remote.flattens : Remote → Bool
  | .nil => true
  | .typedNil => true
  | .map entries =>
    match entries.find? (fun e => recognisedKey e.1) with
    | none => true
    | some (_, .str _) => true
    | some _ => false
  | .other _ => false

/-- The two remotes are the same remote map: the same value, and for two maps the
same entries, in whatever order each is visited. -/
def Remote.sameMap : Remote → Remote → Bool
  | .map e1, .map e2 => decide (e1.Perm e2)
  | a, b => decide (a = b)

/-- The two remotes are the same remote map and are visited alike: the same value
with its entries visited in the same order, or two maps with the same entries
of which at most one lies under the keys `id`, `address`, `cidr_block`. -/
def Remote.agrees : Remote → Remote → Bool
  | .map e1, .map e2 =>
    decide (e1 = e2) ||
      (decide (e1.Perm e2) && decide ((e1.filter (fun e => recognisedKey e.1)).length ≤ 1))
  | a, b => decide (a = b)

end Ibm

/-- The current-generation rule is of one of the three known variants and has its
direction and its IP version. -/
def vpcv1.SecurityGroupRuleIntf.mandatoryPresent : vpcv1.SecurityGroupRuleIntf → Bool
  | .Icmp rule => rule.Direction.isSome && rule.IPVersion.isSome
  | .All rule => rule.Direction.isSome && rule.IPVersion.isSome
  | .Tcpudp rule => rule.Direction.isSome && rule.IPVersion.isSome
  | .other _ => false

/-- The classic rule is of one of the three known variants and has its direction
and its IP version. -/
def vpcclassicv1.SecurityGroupRuleIntf.mandatoryPresent :
    vpcclassicv1.SecurityGroupRuleIntf → Bool
  | .Icmp rule => rule.Direction.isSome && rule.IPVersion.isSome
  | .All rule => rule.Direction.isSome && rule.IPVersion.isSome
  | .Tcpudp rule => rule.Direction.isSome && rule.IPVersion.isSome
  | .other _ => false

/-- The classic rule `c` and the current-generation rule `r` correspond: they are
of the same variant and have the same direction, IP version and protocol, the
same code and type (ICMP) or port-min and port-max (TCP/UDP), and remotes that
`sameRemote` relates. Two rules of types outside the three variants correspond. -/
def vpcclassicv1.SecurityGroupRuleIntf.correspondsWith
    (sameRemote : Ibm.Remote → Ibm.Remote → Bool) :
    vpcclassicv1.SecurityGroupRuleIntf → vpcv1.SecurityGroupRuleIntf → Bool
  | .Icmp c, .Icmp r =>
    decide (c.Code = r.Code ∧ c.Type_ = r.Type_ ∧ c.Direction = r.Direction ∧
      c.IPVersion = r.IPVersion ∧ c.Protocol = r.Protocol) && sameRemote c.Remote r.Remote
  | .All c, .All r =>
    decide (c.Direction = r.Direction ∧ c.IPVersion = r.IPVersion ∧ c.Protocol = r.Protocol) &&
      sameRemote c.Remote r.Remote
  | .Tcpudp c, .Tcpudp r =>
    decide (c.PortMin = r.PortMin ∧ c.PortMax = r.PortMax ∧ c.Direction = r.Direction ∧
      c.IPVersion = r.IPVersion ∧ c.Protocol = r.Protocol) && sameRemote c.Remote r.Remote
  | .other _, .other _ => true
  | _, _ => false

namespace Ibm

/-- A security group whose second rule has the number 5 under `id` in its
remote. -/
def groupWithNumericRemote : vpcv1.SecurityGroup :=
  { ID := some "sg-abc"
    CRN := some "crn:sg-abc"
    Name := some "sg1"
    VPC := some { ID := some "vpc-123" }
    Rules :=
      [.Icmp { Code := some 8, Type_ := some 0, Direction := some "inbound",
               IPVersion := some "ipv4", Protocol := none, Remote := .nil },
       .Tcpudp { PortMin := some 80, PortMax := some 443, Direction := some "inbound",
                 IPVersion := some "ipv4", Protocol := some "tcp",
                 Remote := .map [("id", .other "float64")] }]
    ResourceGroup := none }

/-- A session whose vendor returns `groupWithNumericRemote` for every get. -/
def numericRemoteSession : ClientSession :=
  { quietSession with
    getSecurityGroup := fun _ _ =>
      { result := some groupWithNumericRemote, response := some { StatusCode := 200 },
        err := none } }

/-- A session whose vendor creates the permitted network `net1` and returns it
for every get. -/
def networkCreatingSession : ClientSession :=
  { storedNetworkSession with
    createPermittedNetwork := fun _ _ _ _ _ =>
      { result := some { ID := some "net1", CreatedOn := none, ModifiedOn := none,
                         PermittedNetwork := none, Type_ := some "vpc", State := none }
        response := some { StatusCode := 200 }
        err := none } }

end Ibm

namespace Ibm

/-- The clients behind the calls of the log. -/
inductive Client where
  | classicVpc
  | vpc
  | resourceManagement
  | privateDns
  deriving Repr, DecidableEq

/-- The client a call goes to. -/
def VendorCall.client : VendorCall → Client
  | .classicCreateSecurityGroup _ _ _ => .classicVpc
  | .classicGetSecurityGroup _ => .classicVpc
  | .classicUpdateSecurityGroup _ _ => .classicVpc
  | .classicDeleteSecurityGroup _ => .classicVpc
  | .createSecurityGroup _ _ _ => .vpc
  | .getSecurityGroup _ => .vpc
  | .updateSecurityGroup _ _ => .vpc
  | .deleteSecurityGroup _ => .vpc
  | .resourceGroupGet _ => .resourceManagement
  | .createPermittedNetwork _ _ _ _ => .privateDns
  | .getPermittedNetwork _ _ _ => .privateDns
  | .deletePermittedNetwork _ _ _ => .privateDns

/-- The clients a security-group operation of the given generation may call: the
classic VPC client when the generation is 1, together with the
resource-management client that the classic Read asks for the resource group;
the current VPC client otherwise. -/
def clientsOf (generation : Int) : List Client :=
  if generation = 1 then [.classicVpc, .resourceManagement] else [.vpc]

/-- From the state `s` to the later state `s'` the log of calls has only grown,
and every call made in between went to one of the given clients. -/
def ServedBy (clients : List Client) (s s' : St) : Prop :=
  s'.calls = s.calls ++ issued s s' ∧ ∀ c ∈ issued s s', c.client ∈ clients

/-- A session of the current generation whose vendor creates the group
`storedGroup` and returns it for every get. -/
def creatingSession : ClientSession :=
  { storedGroupSession with
    createSecurityGroup := fun _ _ _ _ =>
      { result := some storedGroup, response := some { StatusCode := 201 }, err := none } }

end Ibm

namespace Ibm

/-- The ID of the network in the answer of the vendor's create call, when the
permitted-network Create reaches that call and the call returns no error. -/
def pnCreatedID (m : ClientSession) (s : St) : Option String :=
  match m.PrivateDnsClientSession with
  | some _ => none
  | none =>
    match m.NewPermittedNetworkVpc (s.d.Get .pdnsVpcCRN) with
    | .error _ => none
    | .ok permittedNetworkCrn =>
      let reply := m.createPermittedNetwork s.calls (s.d.Get .pdnsInstanceID)
        (s.d.Get .pdnsZoneID) permittedNetworkCrn (s.d.Get .pdnsNetworkType)
      match reply.err with
      | some _ => none
      | none => reply.result.bind (fun response => response.ID)

end Ibm

/-! # Properties -/

namespace Ibm

/-! ## The fields of a state after a step -/

@[simp] theorem sessionLookup_d (s : St) : s.sessionLookup.d = s.d := rfl

@[simp] theorem sessionLookup_calls (s : St) : s.sessionLookup.calls = s.calls := rfl

@[simp] theorem sessionLookup_locks (s : St) : s.sessionLookup.locks = s.locks := rfl

@[simp] theorem SetRefused_eq (s : St) (k : Attr) : s.SetRefused k = s := rfl

@[simp] theorem call_d (s : St) (c : VendorCall) : (s.call c).d = s.d := rfl

@[simp] theorem call_calls (s : St) (c : VendorCall) : (s.call c).calls = s.calls ++ [c] := rfl

@[simp] theorem Set_calls (s : St) (k : Attr) (v : AttrVal) : (s.Set k v).calls = s.calls := rfl

@[simp] theorem Set_id (s : St) (k : Attr) (v : AttrVal) : (s.Set k v).d.id = s.d.id := rfl

@[simp] theorem SetId_calls (s : St) (id : String) : (s.SetId id).calls = s.calls := rfl

@[simp] theorem SetId_id (s : St) (id : String) : (s.SetId id).d.id = id := rfl

@[simp] theorem lockEvent_d (s : St) (e : LockEvent) : (s.lockEvent e).d = s.d := rfl

@[simp] theorem lockEvent_calls (s : St) (e : LockEvent) : (s.lockEvent e).calls = s.calls := rfl

/-! ## The remote loop -/

theorem rangeRemote_eq_find (r : Record) (entries : List (String × Value)) :
    rangeRemote r entries =
      match entries.find? (fun e => recognisedKey e.1) with
      | none => .ret r
      | some (_, .str s) => .ret (mapSet r isSecurityGroupRuleRemote (.str s))
      | some _ => .panic "interface conversion: interface {} is not string" := by
  induction entries with
  | nil => rfl
  | cons e rest ih =>
    obtain ⟨k, v⟩ := e
    by_cases hk : k = "id" ∨ k = "address" ∨ k = "cidr_block"
    · have hrec : recognisedKey k = true := by simp [recognisedKey, hk]
      cases v <;> simp [rangeRemote, hk, List.find?_cons, hrec]
    · have hrec : recognisedKey k = false := by simp [recognisedKey, hk]
      simp only [rangeRemote, hk, if_false, List.find?_cons, hrec]
      exact ih

theorem flattens_of_decodable (remote : Remote) (h : remote.decodable = true) :
    remote.flattens = true := by
  cases remote with
  | nil => rfl
  | typedNil => rfl
  | other t => simp [Remote.decodable] at h
  | map entries =>
    simp only [Remote.decodable, List.all_eq_true] at h
    cases hfind : entries.find? (fun e => recognisedKey e.1) with
    | none => simp [Remote.flattens, hfind]
    | some e =>
      obtain ⟨k, v⟩ := e
      have hrec : recognisedKey k = true := by
        simpa using List.find?_some hfind
      have hmem : (k, v) ∈ entries := List.mem_of_find?_eq_some hfind
      have hstr := h (k, v) hmem
      simp only [hrec, Bool.not_true, Bool.false_or] at hstr
      cases v with
      | str s => simp [Remote.flattens, hfind]
      | int n => simp [Value.isStr] at hstr
      | other t => simp [Value.isStr] at hstr

theorem rangeRemote_ret (r : Record) (entries : List (String × Value))
    (h : Remote.flattens (.map entries) = true) :
    ∃ r', rangeRemote r entries = .ret r' := by
  rw [rangeRemote_eq_find]
  cases hfind : entries.find? (fun e => recognisedKey e.1) with
  | none => exact ⟨r, rfl⟩
  | some e =>
    obtain ⟨k, v⟩ := e
    simp only [Remote.flattens, hfind] at h
    cases v with
    | str s => exact ⟨mapSet r isSecurityGroupRuleRemote (.str s), rfl⟩
    | int n => simp at h
    | other t => simp at h

theorem setRemote_ret (r : Record) (remote : Remote) (h : remote.flattens = true) :
    ∃ r', setRemote r remote = .ret r' := by
  cases remote with
  | nil => exact ⟨r, rfl⟩
  | typedNil => exact ⟨r, rfl⟩
  | map entries => exact rangeRemote_ret r entries h
  | other t => simp [Remote.flattens] at h

theorem setRemote_panic (remote : Remote) (h : remote.flattens = false) :
    ∃ msg, ∀ r, setRemote r remote = .panic msg := by
  cases remote with
  | nil => simp [Remote.flattens] at h
  | typedNil => simp [Remote.flattens] at h
  | other t => exact ⟨_, fun r => rfl⟩
  | map entries =>
    refine ⟨"interface conversion: interface {} is not string", fun r => ?_⟩
    simp only [setRemote]
    rw [rangeRemote_eq_find]
    cases hfind : entries.find? (fun e => recognisedKey e.1) with
    | none => simp [Remote.flattens, hfind] at h
    | some e =>
      obtain ⟨k, v⟩ := e
      cases v with
      | str s => simp [Remote.flattens, hfind] at h
      | int n => rfl
      | other t => rfl

/-! ## Order of the flattened rules -/

theorem sgGetLoop_step (rule : vpcv1.SecurityGroupRuleIntf)
    (h : rule.mandatoryPresent = true) (hrem : rule.remote.flattens = true) :
    ∃ r, ∀ rest acc, sgGetLoop (rule :: rest) acc = sgGetLoop rest (acc ++ [r]) := by
  cases rule with
  | Icmp rule =>
    obtain ⟨code, type_, direction, ipVersion, protocol, remote⟩ := rule
    simp only [vpcv1.SecurityGroupRuleIntf.mandatoryPresent, Bool.and_eq_true,
      Option.isSome_iff_exists] at h
    obtain ⟨⟨d, rfl⟩, ⟨v, rfl⟩⟩ := h
    obtain ⟨r, hr⟩ := setRemote_ret
      (setStr (mapSet (mapSet (setInt (setInt [] isSecurityGroupRuleCode code)
        isSecurityGroupRuleType type_) isSecurityGroupRuleDirection (.str d))
        isSecurityGroupRuleIPVersion (.str v)) isSecurityGroupRuleProtocol protocol) remote hrem
    exact ⟨r, fun rest acc => by simp [sgGetLoop, sgGetIcmp, hr]⟩
  | All rule =>
    obtain ⟨direction, ipVersion, protocol, remote⟩ := rule
    simp only [vpcv1.SecurityGroupRuleIntf.mandatoryPresent, Bool.and_eq_true,
      Option.isSome_iff_exists] at h
    obtain ⟨⟨d, rfl⟩, ⟨v, rfl⟩⟩ := h
    obtain ⟨r, hr⟩ := setRemote_ret
      (setStr (mapSet (mapSet [] isSecurityGroupRuleDirection (.str d))
        isSecurityGroupRuleIPVersion (.str v)) isSecurityGroupRuleProtocol protocol) remote hrem
    exact ⟨r, fun rest acc => by simp [sgGetLoop, sgGetAll, hr]⟩
  | Tcpudp rule =>
    obtain ⟨portMin, portMax, direction, ipVersion, protocol, remote⟩ := rule
    simp only [vpcv1.SecurityGroupRuleIntf.mandatoryPresent, Bool.and_eq_true,
      Option.isSome_iff_exists] at h
    obtain ⟨⟨d, rfl⟩, ⟨v, rfl⟩⟩ := h
    obtain ⟨r, hr⟩ := setRemote_ret
      (setStr (mapSet (mapSet (setInt (setInt [] isSecurityGroupRulePortMin portMin)
        isSecurityGroupRulePortMax portMax) isSecurityGroupRuleDirection (.str d))
        isSecurityGroupRuleIPVersion (.str v)) isSecurityGroupRuleProtocol protocol) remote hrem
    exact ⟨r, fun rest acc => by simp [sgGetLoop, sgGetTcpudp, hr]⟩
  | other t => simp [vpcv1.SecurityGroupRuleIntf.mandatoryPresent] at h

theorem sgGetLoop_step_panic (rule : vpcv1.SecurityGroupRuleIntf)
    (h : rule.mandatoryPresent = true) (hrem : rule.remote.flattens = false) :
    ∃ msg, ∀ rest acc, sgGetLoop (rule :: rest) acc = .panic msg := by
  cases rule with
  | Icmp rule =>
    obtain ⟨code, type_, direction, ipVersion, protocol, remote⟩ := rule
    simp only [vpcv1.SecurityGroupRuleIntf.mandatoryPresent, Bool.and_eq_true,
      Option.isSome_iff_exists] at h
    obtain ⟨⟨d, rfl⟩, ⟨v, rfl⟩⟩ := h
    obtain ⟨msg, hmsg⟩ := setRemote_panic remote hrem
    exact ⟨msg, fun rest acc => by simp [sgGetLoop, sgGetIcmp, hmsg]⟩
  | All rule =>
    obtain ⟨direction, ipVersion, protocol, remote⟩ := rule
    simp only [vpcv1.SecurityGroupRuleIntf.mandatoryPresent, Bool.and_eq_true,
      Option.isSome_iff_exists] at h
    obtain ⟨⟨d, rfl⟩, ⟨v, rfl⟩⟩ := h
    obtain ⟨msg, hmsg⟩ := setRemote_panic remote hrem
    exact ⟨msg, fun rest acc => by simp [sgGetLoop, sgGetAll, hmsg]⟩
  | Tcpudp rule =>
    obtain ⟨portMin, portMax, direction, ipVersion, protocol, remote⟩ := rule
    simp only [vpcv1.SecurityGroupRuleIntf.mandatoryPresent, Bool.and_eq_true,
      Option.isSome_iff_exists] at h
    obtain ⟨⟨d, rfl⟩, ⟨v, rfl⟩⟩ := h
    obtain ⟨msg, hmsg⟩ := setRemote_panic remote hrem
    exact ⟨msg, fun rest acc => by simp [sgGetLoop, sgGetTcpudp, hmsg]⟩
  | other t => simp [vpcv1.SecurityGroupRuleIntf.mandatoryPresent] at h

theorem sgGetLoop_flattens (rules : List vpcv1.SecurityGroupRuleIntf)
    (h : ∀ rule ∈ rules, rule.mandatoryPresent = true)
    (hrem : ∀ rule ∈ rules, rule.remote.flattens = true) (acc : List Record) :
    ∃ out, sgGetLoop rules acc = .ret (acc ++ out) ∧ out.length = rules.length ∧
      ∀ i rule, rules.get? i = some rule →
        ∃ r, out.get? i = some r ∧ sgGetLoop [rule] [] = .ret [r] := by
  induction rules generalizing acc with
  | nil => exact ⟨[], by simp [sgGetLoop]⟩
  | cons rule rest ih =>
    obtain ⟨r, hr⟩ := sgGetLoop_step rule (h rule (List.mem_cons_self _ _))
      (hrem rule (List.mem_cons_self _ _))
    obtain ⟨out, hout, hlen, hget⟩ := ih (fun x hx => h x (List.mem_cons_of_mem _ hx))
      (fun x hx => hrem x (List.mem_cons_of_mem _ hx)) (acc ++ [r])
    refine ⟨r :: out, ?_, by simp [hlen], ?_⟩
    · rw [hr, hout]; simp
    · intro i x hx
      cases i with
      | zero =>
        simp only [List.get?_cons_zero, Option.some.injEq] at hx
        subst hx
        exact ⟨r, rfl, by rw [hr]; simp [sgGetLoop]⟩
      | succ j => exact hget j x (by simpa using hx)

theorem sgGetLoop_panics (rules : List vpcv1.SecurityGroupRuleIntf)
    (h : ∀ rule ∈ rules, rule.mandatoryPresent = true)
    (hrem : ∃ rule ∈ rules, rule.remote.flattens = false) (acc : List Record) :
    ∃ msg, sgGetLoop rules acc = .panic msg := by
  induction rules generalizing acc with
  | nil =>
    obtain ⟨rule, hmem, _⟩ := hrem
    simp at hmem
  | cons rule rest ih =>
    cases hflat : rule.remote.flattens with
    | false =>
      obtain ⟨msg, hmsg⟩ := sgGetLoop_step_panic rule (h rule (List.mem_cons_self _ _)) hflat
      exact ⟨msg, hmsg rest acc⟩
    | true =>
      obtain ⟨r, hr⟩ := sgGetLoop_step rule (h rule (List.mem_cons_self _ _)) hflat
      rw [hr]
      apply ih (fun x hx => h x (List.mem_cons_of_mem _ hx))
      obtain ⟨bad, hmem, hbad⟩ := hrem
      rcases List.mem_cons.mp hmem with rfl | hmem
      · rw [hflat] at hbad; cases hbad
      · exact ⟨bad, hmem, hbad⟩

theorem classicSgGetLoop_step (rule : vpcclassicv1.SecurityGroupRuleIntf)
    (h : rule.mandatoryPresent = true) (hrem : rule.remote.flattens = true) :
    ∃ r, ∀ rest acc, classicSgGetLoop (rule :: rest) acc = classicSgGetLoop rest (acc ++ [r]) := by
  cases rule with
  | Icmp rule =>
    obtain ⟨code, type_, direction, ipVersion, protocol, remote⟩ := rule
    simp only [vpcclassicv1.SecurityGroupRuleIntf.mandatoryPresent, Bool.and_eq_true,
      Option.isSome_iff_exists] at h
    obtain ⟨⟨d, rfl⟩, ⟨v, rfl⟩⟩ := h
    obtain ⟨r, hr⟩ := setRemote_ret
      (setStr (mapSet (mapSet (setInt (setInt [] isSecurityGroupRuleCode code)
        isSecurityGroupRuleType type_) isSecurityGroupRuleDirection (.str d))
        isSecurityGroupRuleIPVersion (.str v)) isSecurityGroupRuleProtocol protocol) remote hrem
    exact ⟨r, fun rest acc => by simp [classicSgGetLoop, classicSgGetIcmp, hr]⟩
  | All rule =>
    obtain ⟨direction, ipVersion, protocol, remote⟩ := rule
    simp only [vpcclassicv1.SecurityGroupRuleIntf.mandatoryPresent, Bool.and_eq_true,
      Option.isSome_iff_exists] at h
    obtain ⟨⟨d, rfl⟩, ⟨v, rfl⟩⟩ := h
    obtain ⟨r, hr⟩ := setRemote_ret
      (setStr (mapSet (mapSet [] isSecurityGroupRuleDirection (.str d))
        isSecurityGroupRuleIPVersion (.str v)) isSecurityGroupRuleProtocol protocol) remote hrem
    exact ⟨r, fun rest acc => by simp [classicSgGetLoop, classicSgGetAll, hr]⟩
  | Tcpudp rule =>
    obtain ⟨portMin, portMax, direction, ipVersion, protocol, remote⟩ := rule
    simp only [vpcclassicv1.SecurityGroupRuleIntf.mandatoryPresent, Bool.and_eq_true,
      Option.isSome_iff_exists] at h
    obtain ⟨⟨d, rfl⟩, ⟨v, rfl⟩⟩ := h
    obtain ⟨r, hr⟩ := setRemote_ret
      (setStr (mapSet (mapSet (setInt (setInt [] isSecurityGroupRulePortMin portMin)
        isSecurityGroupRulePortMax portMax) isSecurityGroupRuleDirection (.str d))
        isSecurityGroupRuleIPVersion (.str v)) isSecurityGroupRuleProtocol protocol) remote hrem
    exact ⟨r, fun rest acc => by simp [classicSgGetLoop, classicSgGetTcpudp, hr]⟩
  | other t => simp [vpcclassicv1.SecurityGroupRuleIntf.mandatoryPresent] at h

theorem classicSgGetLoop_step_panic (rule : vpcclassicv1.SecurityGroupRuleIntf)
    (h : rule.mandatoryPresent = true) (hrem : rule.remote.flattens = false) :
    ∃ msg, ∀ rest acc, classicSgGetLoop (rule :: rest) acc = .panic msg := by
  cases rule with
  | Icmp rule =>
    obtain ⟨code, type_, direction, ipVersion, protocol, remote⟩ := rule
    simp only [vpcclassicv1.SecurityGroupRuleIntf.mandatoryPresent, Bool.and_eq_true,
      Option.isSome_iff_exists] at h
    obtain ⟨⟨d, rfl⟩, ⟨v, rfl⟩⟩ := h
    obtain ⟨msg, hmsg⟩ := setRemote_panic remote hrem
    exact ⟨msg, fun rest acc => by simp [classicSgGetLoop, classicSgGetIcmp, hmsg]⟩
  | All rule =>
    obtain ⟨direction, ipVersion, protocol, remote⟩ := rule
    simp only [vpcclassicv1.SecurityGroupRuleIntf.mandatoryPresent, Bool.and_eq_true,
      Option.isSome_iff_exists] at h
    obtain ⟨⟨d, rfl⟩, ⟨v, rfl⟩⟩ := h
    obtain ⟨msg, hmsg⟩ := setRemote_panic remote hrem
    exact ⟨msg, fun rest acc => by simp [classicSgGetLoop, classicSgGetAll, hmsg]⟩
  | Tcpudp rule =>
    obtain ⟨portMin, portMax, direction, ipVersion, protocol, remote⟩ := rule
    simp only [vpcclassicv1.SecurityGroupRuleIntf.mandatoryPresent, Bool.and_eq_true,
      Option.isSome_iff_exists] at h
    obtain ⟨⟨d, rfl⟩, ⟨v, rfl⟩⟩ := h
    obtain ⟨msg, hmsg⟩ := setRemote_panic remote hrem
    exact ⟨msg, fun rest acc => by simp [classicSgGetLoop, classicSgGetTcpudp, hmsg]⟩
  | other t => simp [vpcclassicv1.SecurityGroupRuleIntf.mandatoryPresent] at h

theorem classicSgGetLoop_flattens (rules : List vpcclassicv1.SecurityGroupRuleIntf)
    (h : ∀ rule ∈ rules, rule.mandatoryPresent = true)
    (hrem : ∀ rule ∈ rules, rule.remote.flattens = true) (acc : List Record) :
    ∃ out, classicSgGetLoop rules acc = .ret (acc ++ out) ∧ out.length = rules.length ∧
      ∀ i rule, rules.get? i = some rule →
        ∃ r, out.get? i = some r ∧ classicSgGetLoop [rule] [] = .ret [r] := by
  induction rules generalizing acc with
  | nil => exact ⟨[], by simp [classicSgGetLoop]⟩
  | cons rule rest ih =>
    obtain ⟨r, hr⟩ := classicSgGetLoop_step rule (h rule (List.mem_cons_self _ _))
      (hrem rule (List.mem_cons_self _ _))
    obtain ⟨out, hout, hlen, hget⟩ := ih (fun x hx => h x (List.mem_cons_of_mem _ hx))
      (fun x hx => hrem x (List.mem_cons_of_mem _ hx)) (acc ++ [r])
    refine ⟨r :: out, ?_, by simp [hlen], ?_⟩
    · rw [hr, hout]; simp
    · intro i x hx
      cases i with
      | zero =>
        simp only [List.get?_cons_zero, Option.some.injEq] at hx
        subst hx
        exact ⟨r, rfl, by rw [hr]; simp [classicSgGetLoop]⟩
      | succ j => exact hget j x (by simpa using hx)

theorem classicSgGetLoop_panics (rules : List vpcclassicv1.SecurityGroupRuleIntf)
    (h : ∀ rule ∈ rules, rule.mandatoryPresent = true)
    (hrem : ∃ rule ∈ rules, rule.remote.flattens = false) (acc : List Record) :
    ∃ msg, classicSgGetLoop rules acc = .panic msg := by
  induction rules generalizing acc with
  | nil =>
    obtain ⟨rule, hmem, _⟩ := hrem
    simp at hmem
  | cons rule rest ih =>
    cases hflat : rule.remote.flattens with
    | false =>
      obtain ⟨msg, hmsg⟩ := classicSgGetLoop_step_panic rule (h rule (List.mem_cons_self _ _)) hflat
      exact ⟨msg, hmsg rest acc⟩
    | true =>
      obtain ⟨r, hr⟩ := classicSgGetLoop_step rule (h rule (List.mem_cons_self _ _)) hflat
      rw [hr]
      apply ih (fun x hx => h x (List.mem_cons_of_mem _ hx))
      obtain ⟨bad, hmem, hbad⟩ := hrem
      rcases List.mem_cons.mp hmem with rfl | hmem
      · rw [hflat] at hbad; cases hbad
      · exact ⟨bad, hmem, hbad⟩

theorem sgGetRules_eq_loop (rules : List vpcv1.SecurityGroupRuleIntf) :
    sgGetRules rules = sgGetLoop rules [] := by
  cases rules <;> simp [sgGetRules, sgGetLoop]

theorem classicSgGetRules_eq_loop (rules : List vpcclassicv1.SecurityGroupRuleIntf) :
    classicSgGetRules rules = classicSgGetLoop rules [] := by
  cases rules <;> simp [classicSgGetRules, classicSgGetLoop]

/-! ## What `sgGet` and `classicSgGet` store under `rules` -/

theorem lookup_Set_same (s : St) (k : Attr) (v : AttrVal) :
    (s.Set k v).d.attrs.lookup k = some v := by
  simp [St.Set, List.lookup]

theorem lookup_Set_ne (s : St) (k k' : Attr) (v : AttrVal) (h : k' ≠ k) :
    (s.Set k v).d.attrs.lookup k' = s.d.attrs.lookup k' := by
  have hne : (k' == k) = false := by simpa using h
  simp only [St.Set, List.lookup, hne]
  induction s.d.attrs with
  | nil => rfl
  | cons e rest ih =>
    obtain ⟨a, b⟩ := e
    by_cases ha : a = k
    · subst ha
      have : (k' == a) = false := hne
      simpa [List.filter, List.lookup, this] using ih
    · by_cases hk : k' = a
      · subst hk
        simp [List.filter, List.lookup, ha]
      · have : (k' == a) = false := by simpa using hk
        simpa [List.filter, List.lookup, ha, this] using ih

theorem lookup_SetId (s : St) (id : String) (k : Attr) :
    (s.SetId id).d.attrs.lookup k = s.d.attrs.lookup k := rfl

theorem lookup_call (s : St) (c : VendorCall) (k : Attr) :
    (s.call c).d.attrs.lookup k = s.d.attrs.lookup k := rfl

theorem sgGet_stores_rules (m : ClientSession) (s : St) (id : String) (group : vpcv1.SecurityGroup)
    (out : List Record) (hclient : m.vpcClient = none)
    (herr : (m.getSecurityGroup s.calls id).err = none)
    (hres : (m.getSecurityGroup s.calls id).result = some group)
    (hname : group.Name.isSome = true) (hvpc : (group.VPC.bind (fun vpc => vpc.ID)).isSome = true)
    (hrules : sgGetRules group.Rules = .ret out) :
    (sgGet m s id).1.d.attrs.lookup .isSecurityGroupRules = some (.rules out) := by
  obtain ⟨name, hname⟩ := Option.isSome_iff_exists.mp hname
  obtain ⟨vpcID, hvpc⟩ := Option.isSome_iff_exists.mp hvpc
  simp only [sgGet, hclient, herr, hres, hname, hvpc, hrules]
  repeat' split
  all_goals simp [lookup_Set_same, lookup_Set_ne, lookup_SetId, lookup_call]

theorem classicSgGet_stores_rules (m : ClientSession) (s : St) (id : String)
    (group : vpcclassicv1.SecurityGroup) (out : List Record) (hclient : m.classicVpcClient = none)
    (herr : (m.classicGetSecurityGroup s.calls id).err = none)
    (hres : (m.classicGetSecurityGroup s.calls id).result = some group)
    (hname : group.Name.isSome = true) (hvpc : (group.VPC.bind (fun vpc => vpc.ID)).isSome = true)
    (hrules : classicSgGetRules group.Rules = .ret out) :
    (classicSgGet m s id).1.d.attrs.lookup .isSecurityGroupRules = some (.rules out) := by
  obtain ⟨name, hname⟩ := Option.isSome_iff_exists.mp hname
  obtain ⟨vpcID, hvpc⟩ := Option.isSome_iff_exists.mp hvpc
  simp only [classicSgGet, hclient, herr, hres, hname, hvpc, hrules]
  repeat' split
  all_goals simp [lookup_Set_same, lookup_Set_ne, lookup_SetId, lookup_call]

/-- C1, counterexample: in a list of two rules of known variants with direction and IP
version present, the second rule has the number 5 under `id` in its remote: the
loop of `sgGet` stops with a panic at the type assertion, so that no `rules`
list is built, and Read panics. -/
theorem non_string_remote_builds_no_list :
    (∀ rule ∈ groupWithNumericRemote.Rules, rule.mandatoryPresent = true) ∧
    sgGetRules groupWithNumericRemote.Rules =
      .panic "interface conversion: interface {} is not string" ∧
    (resourceIBMISSecurityGroupRead numericRemoteSession (stateWithId "sg-abc")).2 =
      .panic "interface conversion: interface {} is not string" ∧
    (resourceIBMISSecurityGroupRead numericRemoteSession (stateWithId "sg-abc")).1.d.attrs.lookup
      .isSecurityGroupRules = none := by
  decide

/-- C1, amended: for a list of rule objects each of one of the three known variants
with direction and IP version present, the loop of `sgGet` builds a list exactly
when every remote flattens (it is absent, or a map whose first entry met under
`id`, `address` or `cidr_block` holds a string) and panics otherwise; the list
built, which `sgGet` stores under `rules`, has the length of the input and its
i-th record is the flattening of the i-th input rule. The same holds for
`classicSgGet`. -/
theorem rules_keep_remote_order
    (rules : List vpcv1.SecurityGroupRuleIntf) (classicRules : List vpcclassicv1.SecurityGroupRuleIntf)
    (h : ∀ rule ∈ rules, rule.mandatoryPresent = true)
    (hclassic : ∀ rule ∈ classicRules, rule.mandatoryPresent = true) :
    ((∀ rule ∈ rules, rule.remote.flattens = true) →
      ∃ out, sgGetRules rules = .ret out ∧ out.length = rules.length ∧
        (∀ i rule, rules.get? i = some rule →
          ∃ r, out.get? i = some r ∧ sgGetRules [rule] = .ret [r]) ∧
        (∀ (m : ClientSession) (s : St) (id : String) (group : vpcv1.SecurityGroup),
          m.vpcClient = none → (m.getSecurityGroup s.calls id).err = none →
          (m.getSecurityGroup s.calls id).result = some group →
          group.Name.isSome = true → (group.VPC.bind (fun vpc => vpc.ID)).isSome = true →
          group.Rules = rules →
          (sgGet m s id).1.d.attrs.lookup .isSecurityGroupRules = some (.rules out))) ∧
    ((∃ rule ∈ rules, rule.remote.flattens = false) → ∃ msg, sgGetRules rules = .panic msg) ∧
    ((∀ rule ∈ classicRules, rule.remote.flattens = true) →
      ∃ out, classicSgGetRules classicRules = .ret out ∧ out.length = classicRules.length ∧
        (∀ i rule, classicRules.get? i = some rule →
          ∃ r, out.get? i = some r ∧ classicSgGetRules [rule] = .ret [r]) ∧
        (∀ (m : ClientSession) (s : St) (id : String) (group : vpcclassicv1.SecurityGroup),
          m.classicVpcClient = none → (m.classicGetSecurityGroup s.calls id).err = none →
          (m.classicGetSecurityGroup s.calls id).result = some group →
          group.Name.isSome = true → (group.VPC.bind (fun vpc => vpc.ID)).isSome = true →
          group.Rules = classicRules →
          (classicSgGet m s id).1.d.attrs.lookup .isSecurityGroupRules = some (.rules out))) ∧
    ((∃ rule ∈ classicRules, rule.remote.flattens = false) →
      ∃ msg, classicSgGetRules classicRules = .panic msg) := by
  refine ⟨?_, ?_, ?_, ?_⟩
  · intro hrem
    obtain ⟨out, hout, hlen, hget⟩ := sgGetLoop_flattens rules h hrem []
    have hrules : sgGetRules rules = .ret out := by
      rw [sgGetRules_eq_loop, hout]; simp
    refine ⟨out, hrules, hlen, ?_, ?_⟩
    · intro i rule hi
      obtain ⟨r, hr, hone⟩ := hget i rule hi
      exact ⟨r, hr, by rw [sgGetRules_eq_loop, hone]⟩
    · intro m s id group hclient herr hres hname hvpc hgroup
      exact sgGet_stores_rules m s id group out hclient herr hres hname hvpc (hgroup ▸ hrules)
  · intro hbad
    obtain ⟨msg, hmsg⟩ := sgGetLoop_panics rules h hbad []
    exact ⟨msg, by rw [sgGetRules_eq_loop, hmsg]⟩
  · intro hrem
    obtain ⟨out, hout, hlen, hget⟩ := classicSgGetLoop_flattens classicRules hclassic hrem []
    have hrules : classicSgGetRules classicRules = .ret out := by
      rw [classicSgGetRules_eq_loop, hout]; simp
    refine ⟨out, hrules, hlen, ?_, ?_⟩
    · intro i rule hi
      obtain ⟨r, hr, hone⟩ := hget i rule hi
      exact ⟨r, hr, by rw [classicSgGetRules_eq_loop, hone]⟩
    · intro m s id group hclient herr hres hname hvpc hgroup
      exact classicSgGet_stores_rules m s id group out hclient herr hres hname hvpc
        (hgroup ▸ hrules)
  · intro hbad
    obtain ⟨msg, hmsg⟩ := classicSgGetLoop_panics classicRules hclassic hbad []
    exact ⟨msg, by rw [classicSgGetRules_eq_loop, hmsg]⟩

/-- Witness of C1: an ICMP rule followed by a TCP/UDP rule, and in the classic generation
a rule whose remote holds a number under `address` behind a string under `id`. -/
theorem rules_keep_remote_order_witness :
    (∃ out, sgGetRules
        [.Icmp ⟨some 8, some 0, some "inbound", some "ipv4", none, .nil⟩,
         .Tcpudp ⟨some 80, some 443, some "inbound", some "ipv4", some "tcp",
           .map [("cidr_block", .str "10.0.0.0/8")]⟩] = .ret out ∧ out.length = 2) ∧
    (∃ out, classicSgGetRules
        [.Icmp ⟨some 8, some 0, some "inbound", some "ipv4", none, .nil⟩,
         .All ⟨some "outbound", some "ipv4", some "all",
           .map [("id", .str "sg-1"), ("address", .other "float64")]⟩] = .ret out ∧
      out.length = 2) := by
  have key := rules_keep_remote_order
    [.Icmp ⟨some 8, some 0, some "inbound", some "ipv4", none, .nil⟩,
     .Tcpudp ⟨some 80, some 443, some "inbound", some "ipv4", some "tcp",
       .map [("cidr_block", .str "10.0.0.0/8")]⟩]
    [.Icmp ⟨some 8, some 0, some "inbound", some "ipv4", none, .nil⟩,
     .All ⟨some "outbound", some "ipv4", some "all",
       .map [("id", .str "sg-1"), ("address", .other "float64")]⟩]
    (by decide) (by decide)
  obtain ⟨out, h1, h2, _⟩ := key.1 (by decide)
  obtain ⟨cout, c1, c2, _⟩ := key.2.2.1 (by decide)
  exact ⟨⟨out, h1, h2⟩, ⟨cout, c1, c2⟩⟩

theorem loop_skips_other_types
    (rules : List vpcv1.SecurityGroupRuleIntf) (classicRules : List vpcclassicv1.SecurityGroupRuleIntf) :
    sgGetRules rules = sgGetRules (rules.filter (fun rule => rule.known)) ∧
    classicSgGetRules classicRules =
      classicSgGetRules (classicRules.filter (fun rule => rule.known)) := by
  have h1 : ∀ (l : List vpcv1.SecurityGroupRuleIntf) (acc : List Record),
      sgGetLoop l acc = sgGetLoop (l.filter (fun rule => rule.known)) acc := by
    intro l
    induction l with
    | nil => intro acc; rfl
    | cons rule rest ih =>
      intro acc
      cases rule with
      | Icmp x =>
        rw [List.filter_cons_of_pos (by rfl)]
        simp only [sgGetLoop]
        cases sgGetIcmp x
        · exact ih _
        · rfl
      | All x =>
        rw [List.filter_cons_of_pos (by rfl)]
        simp only [sgGetLoop]
        cases sgGetAll x
        · exact ih _
        · rfl
      | Tcpudp x =>
        rw [List.filter_cons_of_pos (by rfl)]
        simp only [sgGetLoop]
        cases sgGetTcpudp x
        · exact ih _
        · rfl
      | other t =>
        rw [List.filter_cons_of_neg (by simp [vpcv1.SecurityGroupRuleIntf.known])]
        simp only [sgGetLoop]
        exact ih acc
  have h2 : ∀ (l : List vpcclassicv1.SecurityGroupRuleIntf) (acc : List Record),
      classicSgGetLoop l acc = classicSgGetLoop (l.filter (fun rule => rule.known)) acc := by
    intro l
    induction l with
    | nil => intro acc; rfl
    | cons rule rest ih =>
      intro acc
      cases rule with
      | Icmp x =>
        rw [List.filter_cons_of_pos (by rfl)]
        simp only [classicSgGetLoop]
        cases classicSgGetIcmp x
        · exact ih _
        · rfl
      | All x =>
        rw [List.filter_cons_of_pos (by rfl)]
        simp only [classicSgGetLoop]
        cases classicSgGetAll x
        · exact ih _
        · rfl
      | Tcpudp x =>
        rw [List.filter_cons_of_pos (by rfl)]
        simp only [classicSgGetLoop]
        cases classicSgGetTcpudp x
        · exact ih _
        · rfl
      | other t =>
        rw [List.filter_cons_of_neg (by simp [vpcclassicv1.SecurityGroupRuleIntf.known])]
        simp only [classicSgGetLoop]
        exact ih acc
  exact ⟨by rw [sgGetRules_eq_loop, sgGetRules_eq_loop, ← h1],
    by rw [classicSgGetRules_eq_loop, classicSgGetRules_eq_loop, ← h2]⟩

/-! ## Lookups in a flattened record -/

theorem mapGet_mapSet (r : Record) (k k' : String) (v : Value) :
    mapGet (mapSet r k v) k' = if k = k' then some v else mapGet r k' := by
  induction r with
  | nil => simp [mapSet, mapGet]
  | cons e rest ih =>
    obtain ⟨a, b⟩ := e
    by_cases ha : a = k
    · subst ha
      by_cases hk : a = k' <;> simp [mapSet, mapGet, hk]
    · by_cases hk : a = k'
      · subst hk
        simp [mapSet, mapGet, ha, Ne.symm ha]
      · simp [mapSet, mapGet, ha, hk, ih]

theorem mapGet_eq_none (l : Record) (k : String) (h : ∀ e ∈ l, e.1 ≠ k) : mapGet l k = none := by
  induction l with
  | nil => rfl
  | cons e rest ih =>
    obtain ⟨a, b⟩ := e
    have ha : a ≠ k := h (a, b) (List.mem_cons_self _ _)
    simp only [mapGet, ha, if_false]
    exact ih (fun e he => h e (List.mem_cons_of_mem _ he))

theorem mapGet_of_mem (l : Record) (k : String) (v : Value) (hnodup : (l.map Prod.fst).Nodup)
    (hmem : (k, v) ∈ l) : mapGet l k = some v := by
  induction l with
  | nil => simp at hmem
  | cons e rest ih =>
    obtain ⟨a, b⟩ := e
    simp only [List.map_cons, List.nodup_cons] at hnodup
    rcases List.mem_cons.mp hmem with h | h
    · obtain ⟨rfl, rfl⟩ := Prod.mk.inj h
      simp [mapGet]
    · have hak : a ≠ k := by
        intro hak
        subst hak
        exact hnodup.1 (List.mem_map.mpr ⟨(a, v), h, rfl⟩)
      simp only [mapGet, hak, if_false]
      exact ih hnodup.2 h

/-! ## The remote of a flattened rule -/

theorem rangeRemote_get (r : Record) (entries : List (String × Value))
    (h : Remote.flattens (.map entries) = true) :
    ∃ r', rangeRemote r entries = .ret r' ∧
      ((firstRecognised entries = none ∧ r' = r) ∨
       (∃ s, firstRecognised entries = some (.str s) ∧
          r' = mapSet r isSecurityGroupRuleRemote (.str s))) := by
  rw [rangeRemote_eq_find]
  unfold firstRecognised
  cases hfind : entries.find? (fun e => recognisedKey e.1) with
  | none => exact ⟨r, rfl, Or.inl ⟨rfl, rfl⟩⟩
  | some e =>
    obtain ⟨k, v⟩ := e
    simp only [Remote.flattens, hfind] at h
    cases v with
    | str s => exact ⟨mapSet r isSecurityGroupRuleRemote (.str s), rfl, Or.inr ⟨s, rfl, rfl⟩⟩
    | int n => simp at h
    | other t => simp at h

theorem setRemote_get (r : Record) (remote : Remote) (h : remote.flattens = true) :
    ∃ r', setRemote r remote = .ret r' ∧
      (r' = r ∧ (∀ entries, remote = .map entries → firstRecognised entries = none) ∨
       (∃ entries s, remote = .map entries ∧ firstRecognised entries = some (.str s) ∧
          r' = mapSet r isSecurityGroupRuleRemote (.str s))) := by
  cases remote with
  | nil => exact ⟨r, rfl, Or.inl ⟨rfl, fun _ h => by cases h⟩⟩
  | typedNil => exact ⟨r, rfl, Or.inl ⟨rfl, fun _ h => by cases h⟩⟩
  | map entries =>
    obtain ⟨r', hr', hcase⟩ := rangeRemote_get r entries h
    refine ⟨r', hr', ?_⟩
    rcases hcase with ⟨hnone, rfl⟩ | ⟨s, hs, rfl⟩
    · exact Or.inl ⟨rfl, fun e he => by cases he; exact hnone⟩
    · exact Or.inr ⟨entries, s, rfl, hs, rfl⟩
  | other t => simp [Remote.flattens] at h

theorem remoteByPriority_eq_firstRecognised (entries listing : List (String × Value))
    (hperm : listing.Perm entries) (hnodup : (listing.map Prod.fst).Nodup)
    (hone : (listing.filter (fun e => recognisedKey e.1)).length = 1) :
    remoteByPriority listing = firstRecognised entries := by
  obtain ⟨e, he⟩ := List.length_eq_one.mp hone
  have hperm' := hperm.filter (fun e => recognisedKey e.1)
  rw [he] at hperm'
  have hfe : entries.filter (fun e => recognisedKey e.1) = [e] :=
    List.perm_singleton.mp hperm'.symm
  have hfirst : firstRecognised entries = some e.2 := by
    have : (entries.filter (fun e => recognisedKey e.1)).head? = some e := by rw [hfe]; rfl
    rw [List.filter_head?] at this
    simp [firstRecognised, this]
  have hmem : e ∈ listing ∧ recognisedKey e.1 = true := by
    have : e ∈ listing.filter (fun e => recognisedKey e.1) := by rw [he]; simp
    simpa [List.mem_filter] using this
  have huniq : ∀ x ∈ listing, recognisedKey x.1 = true → x = e := by
    intro x hx hr
    have : x ∈ listing.filter (fun e => recognisedKey e.1) := List.mem_filter.mpr ⟨hx, hr⟩
    rw [he] at this
    simpa using this
  have hget : mapGet listing e.1 = some e.2 := mapGet_of_mem listing e.1 e.2 hnodup hmem.1
  have hnone : ∀ k, recognisedKey k = true → k ≠ e.1 → mapGet listing k = none := by
    intro k hk hne
    apply mapGet_eq_none
    intro x hx hxk
    have := huniq x hx (hxk ▸ hk)
    exact hne (by rw [← hxk, this])
  rw [hfirst]
  have hrec := hmem.2
  simp only [recognisedKey, decide_eq_true_eq] at hrec
  unfold remoteByPriority
  rcases hrec with h | h | h
  · rw [← h, hget]
  · rw [hnone "id" (by decide) (by rw [h]; decide), ← h, hget]
  · rw [hnone "id" (by decide) (by rw [h]; decide),
      hnone "address" (by decide) (by rw [h]; decide), ← h, hget]

/-! ## The content of a flattened rule -/

theorem isSome_mapSet (r : Record) (k k' : String) (v : Value)
    (h : (mapGet (mapSet r k v) k').isSome = true) : k' = k ∨ (mapGet r k').isSome = true := by
  rw [mapGet_mapSet] at h
  by_cases hk : k = k'
  · exact Or.inl hk.symm
  · rw [if_neg hk] at h
    exact Or.inr h

theorem isSome_setInt (r : Record) (k k' : String) (o : Option Int)
    (h : (mapGet (setInt r k o) k').isSome = true) : k' = k ∨ (mapGet r k').isSome = true := by
  cases o with
  | none => exact Or.inr h
  | some n => exact isSome_mapSet r k k' _ h

theorem isSome_setStr (r : Record) (k k' : String) (o : Option String)
    (h : (mapGet (setStr r k o) k').isSome = true) : k' = k ∨ (mapGet r k').isSome = true := by
  cases o with
  | none => exact Or.inr h
  | some n => exact isSome_mapSet r k k' _ h

theorem body_keys (k1 k2 : String) (o1 o2 : Option Int) (d v : Value) (protocol : Option String)
    (k : String)
    (h : (mapGet (setStr (mapSet (mapSet (setInt (setInt [] k1 o1) k2 o2)
      isSecurityGroupRuleDirection d) isSecurityGroupRuleIPVersion v)
      isSecurityGroupRuleProtocol protocol) k).isSome = true) :
    k = "protocol" ∨ k = "ip_version" ∨ k = "direction" ∨ k = k2 ∨ k = k1 := by
  rcases isSome_setStr _ _ _ _ h with h | h
  · exact Or.inl h
  rcases isSome_mapSet _ _ _ _ h with h | h
  · exact Or.inr (Or.inl h)
  rcases isSome_mapSet _ _ _ _ h with h | h
  · exact Or.inr (Or.inr (Or.inl h))
  rcases isSome_setInt _ _ _ _ h with h | h
  · exact Or.inr (Or.inr (Or.inr (Or.inl h)))
  rcases isSome_setInt _ _ _ _ h with h | h
  · exact Or.inr (Or.inr (Or.inr (Or.inr h)))
  · simp [mapGet] at h

theorem icmp_body_holds (code type_ : Option Int) (d v : String) (protocol : Option String)
    (remote : Remote) (h : remote.flattens = true) :
    ∃ r, setRemote (setStr (mapSet (mapSet (setInt (setInt [] isSecurityGroupRuleCode code)
        isSecurityGroupRuleType type_) isSecurityGroupRuleDirection (.str d))
        isSecurityGroupRuleIPVersion (.str v)) isSecurityGroupRuleProtocol protocol) remote = .ret r ∧
      RecordHolds r (some d) (some v) protocol remote code type_ none none ∧
      ∀ entries, remote = .map entries → mapGet r "remote" = firstRecognised entries := by
  obtain ⟨r, hr, hcase⟩ := setRemote_get _ remote h
  refine ⟨r, hr, ?_⟩
  rcases hcase with ⟨rfl, hnone⟩ | ⟨entries, s, rfl, hs, rfl⟩
  · have hrem : mapGet (setStr (mapSet (mapSet (setInt (setInt [] isSecurityGroupRuleCode code)
        isSecurityGroupRuleType type_) isSecurityGroupRuleDirection (.str d))
        isSecurityGroupRuleIPVersion (.str v)) isSecurityGroupRuleProtocol protocol) "remote" = none := by
      cases code <;> cases type_ <;> cases protocol <;>
        simp [mapGet_mapSet, setInt, setStr, mapGet, isSecurityGroupRuleCode,
          isSecurityGroupRuleType, isSecurityGroupRuleDirection, isSecurityGroupRuleIPVersion,
          isSecurityGroupRuleProtocol]
    refine ⟨⟨?_, ?_, ?_, ?_, ?_, ?_, ?_, ?_, ?_⟩, ?_⟩
    all_goals first
      | (intro entries he; rw [hnone entries he]; exact hrem)
      | (intro k hk
         rcases body_keys _ _ _ _ _ _ _ k hk with h | h | h | h | h <;>
           simp [h, isSecurityGroupRuleCode, isSecurityGroupRuleType])
      | (rw [hrem]; simp)
      | (cases code <;> cases type_ <;> cases protocol <;>
          simp [mapGet_mapSet, setInt, setStr, mapGet, isSecurityGroupRuleCode,
            isSecurityGroupRuleType, isSecurityGroupRuleDirection, isSecurityGroupRuleIPVersion,
            isSecurityGroupRuleProtocol])
  · refine ⟨⟨?_, ?_, ?_, ?_, ?_, ?_, ?_, ?_, ?_⟩, ?_⟩
    all_goals first
      | (intro entries' he; cases he; rw [hs]; simp [mapGet_mapSet, isSecurityGroupRuleRemote])
      | (intro k hk
         rcases isSome_mapSet _ _ _ _ hk with h | hk
         · simp [h, isSecurityGroupRuleRemote]
         · rcases body_keys _ _ _ _ _ _ _ k hk with h | h | h | h | h <;>
             simp [h, isSecurityGroupRuleCode, isSecurityGroupRuleType])
      | (intro _; exact ⟨entries, rfl⟩)
      | (cases code <;> cases type_ <;> cases protocol <;>
          simp [mapGet_mapSet, setInt, setStr, mapGet, isSecurityGroupRuleCode,
            isSecurityGroupRuleType, isSecurityGroupRuleDirection, isSecurityGroupRuleIPVersion,
            isSecurityGroupRuleProtocol, isSecurityGroupRuleRemote])

theorem tcpudp_body_holds (portMin portMax : Option Int) (d v : String) (protocol : Option String)
    (remote : Remote) (h : remote.flattens = true) :
    ∃ r, setRemote (setStr (mapSet (mapSet (setInt (setInt [] isSecurityGroupRulePortMin portMin)
        isSecurityGroupRulePortMax portMax) isSecurityGroupRuleDirection (.str d))
        isSecurityGroupRuleIPVersion (.str v)) isSecurityGroupRuleProtocol protocol) remote = .ret r ∧
      RecordHolds r (some d) (some v) protocol remote none none portMin portMax ∧
      ∀ entries, remote = .map entries → mapGet r "remote" = firstRecognised entries := by
  obtain ⟨r, hr, hcase⟩ := setRemote_get _ remote h
  refine ⟨r, hr, ?_⟩
  rcases hcase with ⟨rfl, hnone⟩ | ⟨entries, s, rfl, hs, rfl⟩
  · have hrem : mapGet (setStr (mapSet (mapSet (setInt (setInt [] isSecurityGroupRulePortMin portMin)
        isSecurityGroupRulePortMax portMax) isSecurityGroupRuleDirection (.str d))
        isSecurityGroupRuleIPVersion (.str v)) isSecurityGroupRuleProtocol protocol) "remote" = none := by
      cases portMin <;> cases portMax <;> cases protocol <;>
        simp [mapGet_mapSet, setInt, setStr, mapGet, isSecurityGroupRulePortMin,
          isSecurityGroupRulePortMax, isSecurityGroupRuleDirection, isSecurityGroupRuleIPVersion,
          isSecurityGroupRuleProtocol]
    refine ⟨⟨?_, ?_, ?_, ?_, ?_, ?_, ?_, ?_, ?_⟩, ?_⟩
    all_goals first
      | (intro entries he; rw [hnone entries he]; exact hrem)
      | (intro k hk
         rcases body_keys _ _ _ _ _ _ _ k hk with h | h | h | h | h <;>
           simp [h, isSecurityGroupRulePortMin, isSecurityGroupRulePortMax])
      | (rw [hrem]; simp)
      | (cases portMin <;> cases portMax <;> cases protocol <;>
          simp [mapGet_mapSet, setInt, setStr, mapGet, isSecurityGroupRulePortMin,
            isSecurityGroupRulePortMax, isSecurityGroupRuleDirection, isSecurityGroupRuleIPVersion,
            isSecurityGroupRuleProtocol])
  · refine ⟨⟨?_, ?_, ?_, ?_, ?_, ?_, ?_, ?_, ?_⟩, ?_⟩
    all_goals first
      | (intro entries' he; cases he; rw [hs]; simp [mapGet_mapSet, isSecurityGroupRuleRemote])
      | (intro k hk
         rcases isSome_mapSet _ _ _ _ hk with h | hk
         · simp [h, isSecurityGroupRuleRemote]
         · rcases body_keys _ _ _ _ _ _ _ k hk with h | h | h | h | h <;>
             simp [h, isSecurityGroupRulePortMin, isSecurityGroupRulePortMax])
      | (intro _; exact ⟨entries, rfl⟩)
      | (cases portMin <;> cases portMax <;> cases protocol <;>
          simp [mapGet_mapSet, setInt, setStr, mapGet, isSecurityGroupRulePortMin,
            isSecurityGroupRulePortMax, isSecurityGroupRuleDirection, isSecurityGroupRuleIPVersion,
            isSecurityGroupRuleProtocol, isSecurityGroupRuleRemote])

theorem sgGetRules_single_flat (rule : vpcv1.SecurityGroupRuleIntf)
    (h : rule.mandatoryPresent = true) (hrem : rule.remote.flattens = true) :
    ∃ r, sgGetRules [rule] = .ret [r] ∧ rule.flattensTo r ∧
      ∀ entries, rule.remote = .map entries → mapGet r "remote" = firstRecognised entries := by
  cases rule with
  | Icmp rule =>
    obtain ⟨code, type_, direction, ipVersion, protocol, remote⟩ := rule
    simp only [vpcv1.SecurityGroupRuleIntf.mandatoryPresent, Bool.and_eq_true,
      Option.isSome_iff_exists] at h
    obtain ⟨⟨d, rfl⟩, ⟨v, rfl⟩⟩ := h
    obtain ⟨r, hr, hholds, hfirst⟩ := icmp_body_holds code type_ d v protocol remote hrem
    exact ⟨r, by simp [sgGetRules, sgGetLoop, sgGetIcmp, hr], hholds, hfirst⟩
  | All rule =>
    obtain ⟨direction, ipVersion, protocol, remote⟩ := rule
    simp only [vpcv1.SecurityGroupRuleIntf.mandatoryPresent, Bool.and_eq_true,
      Option.isSome_iff_exists] at h
    obtain ⟨⟨d, rfl⟩, ⟨v, rfl⟩⟩ := h
    obtain ⟨r, hr, hholds, hfirst⟩ := icmp_body_holds none none d v protocol remote hrem
    simp only [setInt] at hr
    exact ⟨r, by simp [sgGetRules, sgGetLoop, sgGetAll, hr], hholds, hfirst⟩
  | Tcpudp rule =>
    obtain ⟨portMin, portMax, direction, ipVersion, protocol, remote⟩ := rule
    simp only [vpcv1.SecurityGroupRuleIntf.mandatoryPresent, Bool.and_eq_true,
      Option.isSome_iff_exists] at h
    obtain ⟨⟨d, rfl⟩, ⟨v, rfl⟩⟩ := h
    obtain ⟨r, hr, hholds, hfirst⟩ := tcpudp_body_holds portMin portMax d v protocol remote hrem
    exact ⟨r, by simp [sgGetRules, sgGetLoop, sgGetTcpudp, hr], hholds, hfirst⟩
  | other t => simp [vpcv1.SecurityGroupRuleIntf.mandatoryPresent] at h

theorem sgGetRules_single_panic (rule : vpcv1.SecurityGroupRuleIntf)
    (h : rule.mandatoryPresent = true) (hrem : rule.remote.flattens = false) :
    ∃ msg, sgGetRules [rule] = .panic msg := by
  obtain ⟨msg, hmsg⟩ := sgGetLoop_step_panic rule h hrem
  exact ⟨msg, by rw [sgGetRules_eq_loop, hmsg]⟩

theorem sgGet_wellFormed_split (rule : vpcv1.SecurityGroupRuleIntf)
    (h : rule.wellFormed = true) :
    rule.mandatoryPresent = true ∧ rule.remote.flattens = true := by
  cases rule with
  | Icmp rule =>
    simp only [vpcv1.SecurityGroupRuleIntf.wellFormed, Bool.and_eq_true] at h
    exact ⟨by simp [vpcv1.SecurityGroupRuleIntf.mandatoryPresent, h.1.1, h.1.2],
      flattens_of_decodable _ h.2⟩
  | All rule =>
    simp only [vpcv1.SecurityGroupRuleIntf.wellFormed, Bool.and_eq_true] at h
    exact ⟨by simp [vpcv1.SecurityGroupRuleIntf.mandatoryPresent, h.1.1, h.1.2],
      flattens_of_decodable _ h.2⟩
  | Tcpudp rule =>
    simp only [vpcv1.SecurityGroupRuleIntf.wellFormed, Bool.and_eq_true] at h
    exact ⟨by simp [vpcv1.SecurityGroupRuleIntf.mandatoryPresent, h.1.1, h.1.2],
      flattens_of_decodable _ h.2⟩
  | other t => simp [vpcv1.SecurityGroupRuleIntf.wellFormed] at h

theorem sgGetRules_single (rule : vpcv1.SecurityGroupRuleIntf) (h : rule.wellFormed = true) :
    ∃ r, sgGetRules [rule] = .ret [r] ∧ rule.flattensTo r ∧
      ∀ entries, rule.remote = .map entries → mapGet r "remote" = firstRecognised entries :=
  sgGetRules_single_flat rule (sgGet_wellFormed_split rule h).1 (sgGet_wellFormed_split rule h).2

theorem classicSgGetRules_single_flat (rule : vpcclassicv1.SecurityGroupRuleIntf)
    (h : rule.mandatoryPresent = true) (hrem : rule.remote.flattens = true) :
    ∃ r, classicSgGetRules [rule] = .ret [r] ∧ rule.flattensTo r ∧
      ∀ entries, rule.remote = .map entries → mapGet r "remote" = firstRecognised entries := by
  cases rule with
  | Icmp rule =>
    obtain ⟨code, type_, direction, ipVersion, protocol, remote⟩ := rule
    simp only [vpcclassicv1.SecurityGroupRuleIntf.mandatoryPresent, Bool.and_eq_true,
      Option.isSome_iff_exists] at h
    obtain ⟨⟨d, rfl⟩, ⟨v, rfl⟩⟩ := h
    obtain ⟨r, hr, hholds, hfirst⟩ := icmp_body_holds code type_ d v protocol remote hrem
    exact ⟨r, by simp [classicSgGetRules, classicSgGetLoop, classicSgGetIcmp, hr], hholds, hfirst⟩
  | All rule =>
    obtain ⟨direction, ipVersion, protocol, remote⟩ := rule
    simp only [vpcclassicv1.SecurityGroupRuleIntf.mandatoryPresent, Bool.and_eq_true,
      Option.isSome_iff_exists] at h
    obtain ⟨⟨d, rfl⟩, ⟨v, rfl⟩⟩ := h
    obtain ⟨r, hr, hholds, hfirst⟩ := icmp_body_holds none none d v protocol remote hrem
    simp only [setInt] at hr
    exact ⟨r, by simp [classicSgGetRules, classicSgGetLoop, classicSgGetAll, hr], hholds, hfirst⟩
  | Tcpudp rule =>
    obtain ⟨portMin, portMax, direction, ipVersion, protocol, remote⟩ := rule
    simp only [vpcclassicv1.SecurityGroupRuleIntf.mandatoryPresent, Bool.and_eq_true,
      Option.isSome_iff_exists] at h
    obtain ⟨⟨d, rfl⟩, ⟨v, rfl⟩⟩ := h
    obtain ⟨r, hr, hholds, hfirst⟩ := tcpudp_body_holds portMin portMax d v protocol remote hrem
    exact ⟨r, by simp [classicSgGetRules, classicSgGetLoop, classicSgGetTcpudp, hr], hholds, hfirst⟩
  | other t => simp [vpcclassicv1.SecurityGroupRuleIntf.mandatoryPresent] at h

theorem classicSgGetRules_single_panic (rule : vpcclassicv1.SecurityGroupRuleIntf)
    (h : rule.mandatoryPresent = true) (hrem : rule.remote.flattens = false) :
    ∃ msg, classicSgGetRules [rule] = .panic msg := by
  obtain ⟨msg, hmsg⟩ := classicSgGetLoop_step_panic rule h hrem
  exact ⟨msg, by rw [classicSgGetRules_eq_loop, hmsg]⟩

theorem classicSgGet_wellFormed_split (rule : vpcclassicv1.SecurityGroupRuleIntf)
    (h : rule.wellFormed = true) :
    rule.mandatoryPresent = true ∧ rule.remote.flattens = true := by
  cases rule with
  | Icmp rule =>
    simp only [vpcclassicv1.SecurityGroupRuleIntf.wellFormed, Bool.and_eq_true] at h
    exact ⟨by simp [vpcclassicv1.SecurityGroupRuleIntf.mandatoryPresent, h.1.1, h.1.2],
      flattens_of_decodable _ h.2⟩
  | All rule =>
    simp only [vpcclassicv1.SecurityGroupRuleIntf.wellFormed, Bool.and_eq_true] at h
    exact ⟨by simp [vpcclassicv1.SecurityGroupRuleIntf.mandatoryPresent, h.1.1, h.1.2],
      flattens_of_decodable _ h.2⟩
  | Tcpudp rule =>
    simp only [vpcclassicv1.SecurityGroupRuleIntf.wellFormed, Bool.and_eq_true] at h
    exact ⟨by simp [vpcclassicv1.SecurityGroupRuleIntf.mandatoryPresent, h.1.1, h.1.2],
      flattens_of_decodable _ h.2⟩
  | other t => simp [vpcclassicv1.SecurityGroupRuleIntf.wellFormed] at h

theorem classicSgGetRules_single (rule : vpcclassicv1.SecurityGroupRuleIntf) (h : rule.wellFormed = true) :
    ∃ r, classicSgGetRules [rule] = .ret [r] ∧ rule.flattensTo r ∧
      ∀ entries, rule.remote = .map entries → mapGet r "remote" = firstRecognised entries :=
  classicSgGetRules_single_flat rule (classicSgGet_wellFormed_split rule h).1 (classicSgGet_wellFormed_split rule h).2

/-- C3, counterexample: a rule whose remote map holds both `address` and `id`, visited
in the order `address`, `id`, is flattened with the remote of `address`, whereas
the priority order `id`, `address`, `cidr_block` selects the value of `id`; the
same map visited in the order `id`, `address` is flattened with the value of `id`. -/
theorem remote_follows_iteration_order :
    sgGetRules [.All ⟨some "inbound", some "ipv4", none,
        .map [("address", .str "192.0.2.1"), ("id", .str "sg-1")]⟩] =
      .ret [[("direction", .str "inbound"), ("ip_version", .str "ipv4"),
        ("remote", .str "192.0.2.1")]] ∧
    remoteByPriority [("address", .str "192.0.2.1"), ("id", .str "sg-1")] = some (.str "sg-1") ∧
    sgGetRules [.All ⟨some "inbound", some "ipv4", none,
        .map [("id", .str "sg-1"), ("address", .str "192.0.2.1")]⟩] =
      .ret [[("direction", .str "inbound"), ("ip_version", .str "ipv4"),
        ("remote", .str "sg-1")]] := by
  decide

/-- C3, amended: for a rule of a known variant whose remote is a map with string
values under `id`, `address` and `cidr_block`, the `remote` attribute of the
flattened record is the value of the first of these keys that the iteration
over the map meets; when exactly one of the three keys is in the map, this is
the value the priority order `id`, `address`, `cidr_block` selects, in whatever
order the entries of the map are listed; in particular the remote
`cidr_block: 10.0.0.0/8` yields `10.0.0.0/8`. Both generations. -/
theorem remote_is_first_recognised_entry
    (rule : vpcv1.SecurityGroupRuleIntf) (classicRule : vpcclassicv1.SecurityGroupRuleIntf)
    (entries classicEntries : List (String × Value))
    (h : rule.wellFormed = true) (hremote : rule.remote = .map entries)
    (hclassic : classicRule.wellFormed = true)
    (hclassicRemote : classicRule.remote = .map classicEntries) :
    (∃ r, sgGetRules [rule] = .ret [r] ∧ mapGet r "remote" = firstRecognised entries ∧
      ∀ listing : List (String × Value), listing.Perm entries → (listing.map Prod.fst).Nodup →
        (listing.filter (fun e => recognisedKey e.1)).length = 1 →
        mapGet r "remote" = remoteByPriority listing) ∧
    (∃ r, classicSgGetRules [classicRule] = .ret [r] ∧
      mapGet r "remote" = firstRecognised classicEntries ∧
      ∀ listing : List (String × Value), listing.Perm classicEntries →
        (listing.map Prod.fst).Nodup →
        (listing.filter (fun e => recognisedKey e.1)).length = 1 →
        mapGet r "remote" = remoteByPriority listing) ∧
    sgGetRules [.Tcpudp ⟨some 80, some 443, some "inbound", some "ipv4", none,
        .map [("cidr_block", .str "10.0.0.0/8")]⟩] =
      .ret [[("port_min", .int 80), ("port_max", .int 443), ("direction", .str "inbound"),
        ("ip_version", .str "ipv4"), ("remote", .str "10.0.0.0/8")]] := by
  refine ⟨?_, ?_, by decide⟩
  · obtain ⟨r, hr, _, hfirst⟩ := sgGetRules_single rule h
    refine ⟨r, hr, hfirst entries hremote, ?_⟩
    intro listing hperm hnodup hone
    rw [hfirst entries hremote, remoteByPriority_eq_firstRecognised entries listing hperm hnodup hone]
  · obtain ⟨r, hr, _, hfirst⟩ := classicSgGetRules_single classicRule hclassic
    refine ⟨r, hr, hfirst classicEntries hclassicRemote, ?_⟩
    intro listing hperm hnodup hone
    rw [hfirst classicEntries hclassicRemote,
      remoteByPriority_eq_firstRecognised classicEntries listing hperm hnodup hone]

/-- Witness of C3: a TCP/UDP rule with a CIDR remote and a classic rule that refers to a
security group. -/
theorem remote_is_first_recognised_entry_witness :
    ∃ r, sgGetRules [.Tcpudp ⟨some 80, some 443, some "inbound", some "ipv4", none,
        .map [("cidr_block", .str "10.0.0.0/8")]⟩] = .ret [r] ∧
      mapGet r "remote" = remoteByPriority [("cidr_block", .str "10.0.0.0/8")] := by
  obtain ⟨⟨r, hr, _, hprio⟩, _, _⟩ := remote_is_first_recognised_entry
    (.Tcpudp ⟨some 80, some 443, some "inbound", some "ipv4", none,
      .map [("cidr_block", .str "10.0.0.0/8")]⟩)
    (.All ⟨some "outbound", some "ipv4", none, .map [("name", .str "web"), ("id", .str "sg-1")]⟩)
    [("cidr_block", .str "10.0.0.0/8")] [("name", .str "web"), ("id", .str "sg-1")]
    (by decide) rfl (by decide) rfl
  exact ⟨r, hr, hprio _ (List.Perm.refl _) (by decide) (by decide)⟩

/-- C4, counterexample: a rule of a known variant with direction and IP version
present whose remote is a string, not a map, is not flattened at all: the type
assertion of the remote panics and no record is built, in both generations; so
is a TCP/UDP rule whose remote is a map with the number 5 under `id`. -/
theorem non_map_remote_builds_no_record :
    vpcv1.SecurityGroupRuleIntf.mandatoryPresent
      (.Tcpudp ⟨some 80, some 443, some "inbound", some "ipv4", some "tcp",
        .map [("id", .other "float64")]⟩) = true ∧
    sgGetRules [.Tcpudp ⟨some 80, some 443, some "inbound", some "ipv4", some "tcp",
        .map [("id", .other "float64")]⟩] =
      .panic "interface conversion: interface {} is not string" ∧
    vpcv1.SecurityGroupRuleIntf.mandatoryPresent
      (.All ⟨some "inbound", some "ipv4", some "all", .other "string"⟩) = true ∧
    sgGetRules [.All ⟨some "inbound", some "ipv4", some "all", .other "string"⟩] =
      .panic "interface conversion: interface {} is not map[string]interface {}" ∧
    vpcclassicv1.SecurityGroupRuleIntf.mandatoryPresent
      (.All ⟨some "inbound", some "ipv4", some "all", .other "string"⟩) = true ∧
    classicSgGetRules [.All ⟨some "inbound", some "ipv4", some "all", .other "string"⟩] =
      .panic "interface conversion: interface {} is not map[string]interface {}" := by
  decide

/-- C4, amended: a rule of a known variant with direction and IP version present is
flattened into a record exactly when its remote flattens (it is absent, or a map
whose first entry met under `id`, `address` or `cidr_block` holds a string);
otherwise the loop panics. The record holds `direction` and `ip_version` with
the values of the rule, `protocol` exactly when the rule has one, `remote` only
if the rule has a remote, `code` and `type` (ICMP) or `port_min` and `port_max`
(TCP/UDP) exactly when the rule has them and with the same integers, and no
other key; the ICMP rule with code 8, type 0, inbound, ipv4 flattens to exactly
these four entries. Both generations. -/
theorem flattened_record_content
    (rule : vpcv1.SecurityGroupRuleIntf) (classicRule : vpcclassicv1.SecurityGroupRuleIntf)
    (h : rule.mandatoryPresent = true) (hclassic : classicRule.mandatoryPresent = true) :
    (rule.remote.flattens = true → ∃ r, sgGetRules [rule] = .ret [r] ∧ rule.flattensTo r) ∧
    (rule.remote.flattens = false → ∃ msg, sgGetRules [rule] = .panic msg) ∧
    (classicRule.remote.flattens = true →
      ∃ r, classicSgGetRules [classicRule] = .ret [r] ∧ classicRule.flattensTo r) ∧
    (classicRule.remote.flattens = false → ∃ msg, classicSgGetRules [classicRule] = .panic msg) ∧
    sgGetRules [.Icmp ⟨some 8, some 0, some "inbound", some "ipv4", none, .nil⟩] =
      .ret [[("code", .int 8), ("type", .int 0), ("direction", .str "inbound"),
        ("ip_version", .str "ipv4")]] ∧
    classicSgGetRules [.Icmp ⟨some 8, some 0, some "inbound", some "ipv4", none, .nil⟩] =
      .ret [[("code", .int 8), ("type", .int 0), ("direction", .str "inbound"),
        ("ip_version", .str "ipv4")]] := by
  refine ⟨?_, sgGetRules_single_panic rule h, ?_,
    classicSgGetRules_single_panic classicRule hclassic, by decide, by decide⟩
  · intro hrem
    obtain ⟨r, hr, hholds, _⟩ := sgGetRules_single_flat rule h hrem
    exact ⟨r, hr, hholds⟩
  · intro hrem
    obtain ⟨r, hr, hholds, _⟩ := classicSgGetRules_single_flat classicRule hclassic hrem
    exact ⟨r, hr, hholds⟩

/-- Witness of C4: an ICMP rule without code, and a classic TCP/UDP rule with a protocol
and a remote that holds a number behind the address. -/
theorem flattened_record_content_witness :
    (∃ r, sgGetRules [.Icmp ⟨none, some 0, some "inbound", some "ipv4", none, .nil⟩] = .ret [r] ∧
      mapGet r "code" = none ∧ mapGet r "type" = some (.int 0) ∧ mapGet r "protocol" = none) ∧
    (∃ r, classicSgGetRules [.Tcpudp ⟨some 22, some 22, some "inbound", some "ipv4", some "tcp",
        .map [("address", .str "192.0.2.1"), ("id", .other "float64")]⟩] = .ret [r] ∧
      mapGet r "port_min" = some (.int 22) ∧ mapGet r "protocol" = some (.str "tcp")) := by
  have key := flattened_record_content
    (.Icmp ⟨none, some 0, some "inbound", some "ipv4", none, .nil⟩)
    (.Tcpudp ⟨some 22, some 22, some "inbound", some "ipv4", some "tcp",
      .map [("address", .str "192.0.2.1"), ("id", .other "float64")]⟩)
    (by decide) (by decide)
  obtain ⟨r, hr, hh⟩ := key.1 (by decide)
  obtain ⟨c, hc, hch⟩ := key.2.2.1 (by decide)
  exact ⟨⟨r, hr, hh.2.2.2.2.1, hh.2.2.2.2.2.1, hh.2.2.1⟩, ⟨c, hc, hch.2.2.2.2.2.2.1, hch.2.2.1⟩⟩

/-! ## Read, Delete and Update of a security group -/

/-- C5: when the get call of Read fails with a response of status 404, Read returns no
error and sets the ID to the empty string; when it fails with another status or
without a response, Read returns an error and leaves the resource data, the ID
included, as they were. Both generations. -/
theorem read_not_found_clears_identity (m : ClientSession) (s : St) (userDetails : UserDetails)
    (hsession : m.BluemixUserDetails = .ok userDetails) :
    (userDetails.generation = 1 → m.classicVpcClient = none →
      (m.classicGetSecurityGroup s.calls s.d.id).err.isSome = true →
      (isNotFound (m.classicGetSecurityGroup s.calls s.d.id).response = true →
        (resourceIBMISSecurityGroupRead m s).2 = .ret none ∧
        (resourceIBMISSecurityGroupRead m s).1.d.id = "") ∧
      (isNotFound (m.classicGetSecurityGroup s.calls s.d.id).response = false →
        (∃ e, (resourceIBMISSecurityGroupRead m s).2 = .ret (some e)) ∧
        (resourceIBMISSecurityGroupRead m s).1.d = s.d)) ∧
    (userDetails.generation ≠ 1 → m.vpcClient = none →
      (m.getSecurityGroup s.calls s.d.id).err.isSome = true →
      (isNotFound (m.getSecurityGroup s.calls s.d.id).response = true →
        (resourceIBMISSecurityGroupRead m s).2 = .ret none ∧
        (resourceIBMISSecurityGroupRead m s).1.d.id = "") ∧
      (isNotFound (m.getSecurityGroup s.calls s.d.id).response = false →
        (∃ e, (resourceIBMISSecurityGroupRead m s).2 = .ret (some e)) ∧
        (resourceIBMISSecurityGroupRead m s).1.d = s.d)) := by
  constructor
  · intro hgen hclient herr
    obtain ⟨e, he⟩ := Option.isSome_iff_exists.mp herr
    constructor
    · intro h404
      simp [resourceIBMISSecurityGroupRead, hsession, hgen, classicSgGet, hclient, he, h404]
    · intro h404
      simp [resourceIBMISSecurityGroupRead, hsession, hgen, classicSgGet, hclient, he, h404]
  · intro hgen hclient herr
    obtain ⟨e, he⟩ := Option.isSome_iff_exists.mp herr
    constructor
    · intro h404
      simp [resourceIBMISSecurityGroupRead, hsession, hgen, sgGet, hclient, he, h404]
    · intro h404
      simp [resourceIBMISSecurityGroupRead, hsession, hgen, sgGet, hclient, he, h404]

/-- Witness of C5: a get answered with status 404 in the current and in the classic
generation, and a get answered with status 500. -/
theorem read_not_found_clears_identity_witness :
    ((resourceIBMISSecurityGroupRead notFoundSession (stateWithId "sg-abc")).2 = .ret none ∧
      (resourceIBMISSecurityGroupRead notFoundSession (stateWithId "sg-abc")).1.d.id = "") ∧
    ((resourceIBMISSecurityGroupRead classicNotFoundSession (stateWithId "sg-abc")).2 = .ret none ∧
      (resourceIBMISSecurityGroupRead classicNotFoundSession (stateWithId "sg-abc")).1.d.id = "") ∧
    ((∃ e, (resourceIBMISSecurityGroupRead serverErrorSession (stateWithId "sg-abc")).2 =
        .ret (some e)) ∧
      (resourceIBMISSecurityGroupRead serverErrorSession (stateWithId "sg-abc")).1.d =
        (stateWithId "sg-abc").d) :=
  ⟨((read_not_found_clears_identity notFoundSession (stateWithId "sg-abc") { generation := 2 }
      rfl).2 (by decide) rfl rfl).1 rfl,
   ((read_not_found_clears_identity classicNotFoundSession (stateWithId "sg-abc")
      { generation := 1 } rfl).1 rfl rfl rfl).1 rfl,
   ((read_not_found_clears_identity serverErrorSession (stateWithId "sg-abc") { generation := 2 }
      rfl).2 (by decide) rfl rfl).2 rfl⟩

/-- C6: when the existence re-check of Delete is answered with status 404, Delete
returns no error, the only vendor call it has issued is that get (no delete
call), and the ID is empty; a second Delete asked for the same identity, answered
with 404 again, also returns no error. Both generations. -/
theorem delete_of_absent_is_success (m : ClientSession) (s : St) (userDetails : UserDetails)
    (hsession : m.BluemixUserDetails = .ok userDetails) :
    (userDetails.generation = 1 → m.classicVpcClient = none →
      (m.classicGetSecurityGroup s.calls s.d.id).err.isSome = true →
      isNotFound (m.classicGetSecurityGroup s.calls s.d.id).response = true →
      (resourceIBMISSecurityGroupDelete m s).2 = .ret none ∧
      (resourceIBMISSecurityGroupDelete m s).1.calls =
        s.calls ++ [.classicGetSecurityGroup s.d.id] ∧
      (resourceIBMISSecurityGroupDelete m s).1.d.id = "" ∧
      ((m.classicGetSecurityGroup (s.calls ++ [.classicGetSecurityGroup s.d.id]) s.d.id).err.isSome
          = true →
        isNotFound (m.classicGetSecurityGroup (s.calls ++ [.classicGetSecurityGroup s.d.id])
          s.d.id).response = true →
        (resourceIBMISSecurityGroupDelete m
          ((resourceIBMISSecurityGroupDelete m s).1.SetId s.d.id)).2 = .ret none)) ∧
    (userDetails.generation ≠ 1 → m.vpcClient = none →
      (m.getSecurityGroup s.calls s.d.id).err.isSome = true →
      isNotFound (m.getSecurityGroup s.calls s.d.id).response = true →
      (resourceIBMISSecurityGroupDelete m s).2 = .ret none ∧
      (resourceIBMISSecurityGroupDelete m s).1.calls = s.calls ++ [.getSecurityGroup s.d.id] ∧
      (resourceIBMISSecurityGroupDelete m s).1.d.id = "" ∧
      ((m.getSecurityGroup (s.calls ++ [.getSecurityGroup s.d.id]) s.d.id).err.isSome = true →
        isNotFound (m.getSecurityGroup (s.calls ++ [.getSecurityGroup s.d.id]) s.d.id).response
          = true →
        (resourceIBMISSecurityGroupDelete m
          ((resourceIBMISSecurityGroupDelete m s).1.SetId s.d.id)).2 = .ret none)) := by
  constructor
  · intro hgen hclient herr h404
    obtain ⟨e, he⟩ := Option.isSome_iff_exists.mp herr
    have hfirst : resourceIBMISSecurityGroupDelete m s =
        (((s.sessionLookup.call (.classicGetSecurityGroup s.d.id)).SetId "").SetId "", .ret none) := by
      simp [resourceIBMISSecurityGroupDelete, hsession, hgen, classicSgDelete, hclient, he, h404]
    refine ⟨by rw [hfirst], by rw [hfirst]; rfl, by rw [hfirst]; rfl, ?_⟩
    intro herr2 h4042
    obtain ⟨e2, he2⟩ := Option.isSome_iff_exists.mp herr2
    rw [hfirst]
    simp [resourceIBMISSecurityGroupDelete, hsession, hgen, classicSgDelete, hclient, he2, h4042]
  · intro hgen hclient herr h404
    obtain ⟨e, he⟩ := Option.isSome_iff_exists.mp herr
    have hfirst : resourceIBMISSecurityGroupDelete m s =
        (((s.sessionLookup.call (.getSecurityGroup s.d.id)).SetId "").SetId "", .ret none) := by
      simp [resourceIBMISSecurityGroupDelete, hsession, hgen, sgDelete, hclient, he, h404]
    refine ⟨by rw [hfirst], by rw [hfirst]; rfl, by rw [hfirst]; rfl, ?_⟩
    intro herr2 h4042
    obtain ⟨e2, he2⟩ := Option.isSome_iff_exists.mp herr2
    rw [hfirst]
    simp [resourceIBMISSecurityGroupDelete, hsession, hgen, sgDelete, hclient, he2, h4042]

/-- Witness of C6: Delete of an identity the vendor reports as absent, in the current
and in the classic generation. -/
theorem delete_of_absent_is_success_witness :
    ((resourceIBMISSecurityGroupDelete notFoundSession (stateWithId "sg-abc")).2 = .ret none ∧
      (resourceIBMISSecurityGroupDelete notFoundSession (stateWithId "sg-abc")).1.calls =
        [.getSecurityGroup "sg-abc"] ∧
      (resourceIBMISSecurityGroupDelete notFoundSession (stateWithId "sg-abc")).1.d.id = "") ∧
    (resourceIBMISSecurityGroupDelete classicNotFoundSession (stateWithId "sg-abc")).2 =
      .ret none := by
  have h := (delete_of_absent_is_success notFoundSession (stateWithId "sg-abc")
    { generation := 2 } rfl).2 (by decide) rfl rfl rfl
  have hc := (delete_of_absent_is_success classicNotFoundSession (stateWithId "sg-abc")
    { generation := 1 } rfl).1 rfl rfl rfl rfl
  exact ⟨⟨h.1, h.2.1, h.2.2.1⟩, hc.1⟩

/-- C7, counterexample: an Update of a resource whose name has not changed issues a
vendor call, the get of the Read it ends with. -/
theorem update_without_change_calls_vendor :
    (stateWithId "sg-abc").d.HasChange .isSecurityGroupName = false ∧
    (resourceIBMISSecurityGroupUpdate storedGroupSession (stateWithId "sg-abc")).1.calls =
      [.getSecurityGroup "sg-abc"] := by
  decide

theorem sgGet_calls (m : ClientSession) (s : St) (id : String) :
    (sgGet m s id).1.calls = s.calls ++ issued s (sgGet m s id).1 ∧
    ∀ c ∈ issued s (sgGet m s id).1, c = .getSecurityGroup id := by
  unfold sgGet issued
  generalize m.getSecurityGroup s.calls id = reply
  obtain ⟨result, response, err⟩ := reply
  cases m.vpcClient with
  | some e => simp
  | none =>
    cases err with
    | some e => by_cases h : isNotFound response = true <;> simp [h]
    | none =>
      cases result with
      | none => simp
      | some group =>
        obtain ⟨gid, crn, name, vpc, rules, rg⟩ := group
        cases name with
        | none => simp
        | some name =>
          rcases vpc with _ | ⟨_ | vpcID⟩
          · simp
          · simp
          · dsimp only [Option.bind]
            cases sgGetRules rules with
            | panic msg => simp
            | ret out =>
              cases gid with
              | none => simp
              | some gid =>
                cases rg <;> cases m.getBaseController <;> cases crn <;> simp

theorem classicSgGet_calls (m : ClientSession) (s : St) (id : String) :
    (classicSgGet m s id).1.calls = s.calls ++ issued s (classicSgGet m s id).1 ∧
    ∀ c ∈ issued s (classicSgGet m s id).1,
      c = .classicGetSecurityGroup id ∨ ∃ rg, c = .resourceGroupGet rg := by
  unfold classicSgGet issued
  generalize m.classicGetSecurityGroup s.calls id = reply
  obtain ⟨result, response, err⟩ := reply
  cases m.classicVpcClient with
  | some e => simp
  | none =>
    cases err with
    | some e => by_cases h : isNotFound response = true <;> simp [h]
    | none =>
      cases result with
      | none => simp
      | some group =>
        obtain ⟨gid, crn, name, vpc, rules, rg⟩ := group
        cases name with
        | none => simp
        | some name =>
          rcases vpc with _ | ⟨_ | vpcID⟩
          · simp
          · simp
          · dsimp only [Option.bind]
            cases classicSgGetRules rules with
            | panic msg => simp
            | ret out =>
              cases gid with
              | none => simp
              | some gid =>
                cases rg with
                | none => cases m.getBaseController <;> cases crn <;> simp
                | some rg =>
                  obtain ⟨rgID⟩ := rg
                  cases m.ResourceManagementAPIv2 with
                  | some e => simp
                  | none =>
                    cases rgID with
                    | none => simp
                    | some rgID =>
                      dsimp only
                      generalize m.resourceGroupGet _ rgID = grp
                      cases grp <;> cases m.getBaseController <;> cases crn <;> simp

theorem read_calls (m : ClientSession) (s : St) :
    (resourceIBMISSecurityGroupRead m s).1.calls =
      s.calls ++ issued s (resourceIBMISSecurityGroupRead m s).1 ∧
    ∀ c ∈ issued s (resourceIBMISSecurityGroupRead m s).1,
      c = .getSecurityGroup s.d.id ∨ c = .classicGetSecurityGroup s.d.id ∨
        ∃ rg, c = .resourceGroupGet rg := by
  unfold resourceIBMISSecurityGroupRead
  cases m.BluemixUserDetails with
  | error e => simp [issued]
  | ok userDetails =>
    by_cases hgen : userDetails.generation = 1
    · have h := classicSgGet_calls m s.sessionLookup s.d.id
      simp only [hgen, if_true, sessionLookup_d]
      exact ⟨h.1, fun c hc => Or.inr (h.2 c hc)⟩
    · have h := sgGet_calls m s.sessionLookup s.d.id
      simp only [hgen, if_false, sessionLookup_d]
      exact ⟨h.1, fun c hc => Or.inl (h.2 c hc)⟩

/-- C7, amended: when the name has not changed, Update issues no update call: once it
has read the generation from the session it hands over to Read and returns what
Read returns, so the vendor calls it issues are those of Read, the get of the
security group and, in the classic generation, the resource-group lookup. Both
generations. -/
theorem update_without_change_is_read (m : ClientSession) (s : St)
    (h : s.d.HasChange .isSecurityGroupName = false) :
    (∀ e, m.BluemixUserDetails = .error e →
      resourceIBMISSecurityGroupUpdate m s = (s.sessionLookup, .ret (some e))) ∧
    (∀ userDetails, m.BluemixUserDetails = .ok userDetails →
      resourceIBMISSecurityGroupUpdate m s = resourceIBMISSecurityGroupRead m s.sessionLookup) ∧
    (resourceIBMISSecurityGroupUpdate m s).1.calls =
      s.calls ++ issued s (resourceIBMISSecurityGroupUpdate m s).1 ∧
    ∀ c ∈ issued s (resourceIBMISSecurityGroupUpdate m s).1,
      c.isUpdate = false ∧
      (c = .getSecurityGroup s.d.id ∨ c = .classicGetSecurityGroup s.d.id ∨
        ∃ rg, c = .resourceGroupGet rg) := by
  have herror : ∀ e, m.BluemixUserDetails = .error e →
      resourceIBMISSecurityGroupUpdate m s = (s.sessionLookup, .ret (some e)) := by
    intro e he
    simp [resourceIBMISSecurityGroupUpdate, he]
  have hok : ∀ userDetails, m.BluemixUserDetails = .ok userDetails →
      resourceIBMISSecurityGroupUpdate m s =
        resourceIBMISSecurityGroupRead m s.sessionLookup := by
    intro userDetails hu
    simp [resourceIBMISSecurityGroupUpdate, hu, h]
  refine ⟨herror, hok, ?_⟩
  cases hs : m.BluemixUserDetails with
  | error e => rw [herror e hs]; simp [issued]
  | ok userDetails =>
    rw [hok userDetails hs]
    obtain ⟨hcalls, hmem⟩ := read_calls m s.sessionLookup
    have hissued : issued s (resourceIBMISSecurityGroupRead m s.sessionLookup).1 =
        issued s.sessionLookup (resourceIBMISSecurityGroupRead m s.sessionLookup).1 := rfl
    rw [hissued]
    refine ⟨hcalls, ?_⟩
    intro c hc
    have hallowed := hmem c hc
    refine ⟨?_, hallowed⟩
    rcases hallowed with rfl | rfl | ⟨rg, rfl⟩ <;> rfl

/-- Witness of C7: an Update without change against a vendor that stores the group. -/
theorem update_without_change_is_read_witness :
    resourceIBMISSecurityGroupUpdate storedGroupSession (stateWithId "sg-abc") =
      resourceIBMISSecurityGroupRead storedGroupSession (stateWithId "sg-abc").sessionLookup :=
  (update_without_change_is_read storedGroupSession (stateWithId "sg-abc") (by decide)).2.1
    { generation := 2 } rfl

/-! ## The composite identity of a permitted network -/

theorem splitChars_no_sep (sep : Char) (l : List Char) (h : sep ∉ l) :
    splitChars sep l = [l] := by
  induction l with
  | nil => rfl
  | cons c cs ih =>
    have hc : c ≠ sep := fun hc => h (hc ▸ List.mem_cons_self _ _)
    have hcs : sep ∉ cs := fun hcs => h (List.mem_cons_of_mem _ hcs)
    simp [splitChars, hc, ih hcs]

theorem splitChars_append_sep (sep : Char) (l rest : List Char) (h : sep ∉ l) :
    splitChars sep (l ++ sep :: rest) = l :: splitChars sep rest := by
  induction l with
  | nil => simp [splitChars]
  | cons c cs ih =>
    have hc : c ≠ sep := fun hc => h (hc ▸ List.mem_cons_self _ _)
    have hcs : sep ∉ cs := fun hcs => h (List.mem_cons_of_mem _ hcs)
    simp [splitChars, hc, ih hcs]

theorem stringsSplit_sprintfId (a b c : String) (ha : '/' ∉ a.data) (hb : '/' ∉ b.data)
    (hc : '/' ∉ c.data) : stringsSplit (sprintfId a b c) = [a, b, c] := by
  have hdata : (sprintfId a b c).data = a.data ++ '/' :: (b.data ++ '/' :: c.data) := by
    simp [sprintfId, String.data_append]
  unfold stringsSplit
  rw [hdata, splitChars_append_sep _ _ _ ha, splitChars_append_sep _ _ _ hb,
    splitChars_no_sep _ _ hc]
  rfl

theorem composite_identity_parts (instanceID zoneID networkID : String)
    (hi : '/' ∉ instanceID.data) (hz : '/' ∉ zoneID.data) (hn : '/' ∉ networkID.data) :
    stringsSplit (sprintfId instanceID zoneID networkID) = [instanceID, zoneID, networkID] ∧
    (∀ (m : ClientSession) (s : St), m.PrivateDnsClientSession = none →
      s.d.id = sprintfId instanceID zoneID networkID →
      (resourceIBMPrivateDnsPermittedNetworkRead m s).1.calls =
        s.calls ++ [.getPermittedNetwork instanceID zoneID networkID] ∧
      (resourceIBMPrivateDnsPermittedNetworkDelete m s).1.calls =
        s.calls ++ [.deletePermittedNetwork instanceID zoneID networkID] ∧
      (resourceIBMPrivateDnsPermittedNetworkDelete m s).1.locks =
        s.locks ++ [.lock (mutexKey instanceID zoneID), .unlock (mutexKey instanceID zoneID)] ∧
      (resourceIBMPrivateDnsPermittedNetworkExists m s).1.calls =
        s.calls ++ [.getPermittedNetwork instanceID zoneID networkID] ∧
      (resourceIBMPrivateDnsPermittedNetworkExists m s).1.locks =
        s.locks ++ [.lock (mutexKey instanceID zoneID), .unlock (mutexKey instanceID zoneID)]) ∧
    stringsSplit "inst1/zone1/net1" = ["inst1", "zone1", "net1"] := by
  have hsplit := stringsSplit_sprintfId instanceID zoneID networkID hi hz hn
  refine ⟨hsplit, ?_, by decide⟩
  intro m s hclient hid
  refine ⟨?_, ?_, ?_, ?_, ?_⟩
  · unfold resourceIBMPrivateDnsPermittedNetworkRead
    simp only [hclient, hid, hsplit, List.get?]
    generalize m.getPermittedNetwork s.calls instanceID zoneID networkID = reply
    obtain ⟨result, response, err⟩ := reply
    cases err <;> cases result <;> simp
  · unfold resourceIBMPrivateDnsPermittedNetworkDelete
    simp only [hclient, hid, hsplit, List.get?]
    generalize m.deletePermittedNetwork _ instanceID zoneID networkID = reply
    obtain ⟨result, response, err⟩ := reply
    cases err <;> simp
  · unfold resourceIBMPrivateDnsPermittedNetworkDelete
    simp only [hclient, hid, hsplit, List.get?]
    generalize m.deletePermittedNetwork _ instanceID zoneID networkID = reply
    obtain ⟨result, response, err⟩ := reply
    cases err <;> simp [St.lockEvent, St.call, St.SetId]
  · unfold resourceIBMPrivateDnsPermittedNetworkExists
    simp only [hclient, hid, hsplit, List.get?]
    generalize m.getPermittedNetwork _ instanceID zoneID networkID = reply
    obtain ⟨result, response, err⟩ := reply
    cases err <;> [skip; by_cases h : isNotFound response = true] <;> simp [*]
  · unfold resourceIBMPrivateDnsPermittedNetworkExists
    simp only [hclient, hid, hsplit, List.get?]
    generalize m.getPermittedNetwork _ instanceID zoneID networkID = reply
    obtain ⟨result, response, err⟩ := reply
    cases err <;> [skip; by_cases h : isNotFound response = true] <;>
      simp [St.lockEvent, St.call, *]

theorem pnRead_id (m : ClientSession) (s : St) :
    (resourceIBMPrivateDnsPermittedNetworkRead m s).1.d.id = s.d.id := by
  unfold resourceIBMPrivateDnsPermittedNetworkRead
  cases m.PrivateDnsClientSession with
  | some e => rfl
  | none =>
    dsimp only
    split
    · rename_i id0 id1 id2 _ _ _
      generalize m.getPermittedNetwork s.calls id0 id1 id2 = reply
      obtain ⟨result, response, err⟩ := reply
      cases err <;> cases result <;> simp
    · rfl

theorem pnCreate_eq (m : ClientSession) (s : St) (networkID : String)
    (h : pnCreatedID m s = some networkID) :
    ∃ s2 : St, s2.d.id = sprintfId (s.d.Get .pdnsInstanceID) (s.d.Get .pdnsZoneID) networkID ∧
      (∃ c, s2.calls = s.calls ++ [c]) ∧
      resourceIBMPrivateDnsPermittedNetworkCreate m s =
        ((resourceIBMPrivateDnsPermittedNetworkRead m s2).1.lockEvent
          (.unlock (mutexKey (s.d.Get .pdnsInstanceID) (s.d.Get .pdnsZoneID))),
         (resourceIBMPrivateDnsPermittedNetworkRead m s2).2) := by
  unfold pnCreatedID at h
  unfold resourceIBMPrivateDnsPermittedNetworkCreate
  cases hc : m.PrivateDnsClientSession with
  | some e => rw [hc] at h; simp at h
  | none =>
    rw [hc] at h
    dsimp only at h ⊢
    cases hv : m.NewPermittedNetworkVpc (s.d.Get .pdnsVpcCRN) with
    | error e => rw [hv] at h; simp at h
    | ok crn =>
      rw [hv] at h
      simp only [lockEvent_calls, lockEvent_d] at h ⊢
      generalize m.createPermittedNetwork s.calls (s.d.Get .pdnsInstanceID)
        (s.d.Get .pdnsZoneID) crn (s.d.Get .pdnsNetworkType) = reply at h ⊢
      obtain ⟨result, response, err⟩ := reply
      cases err with
      | some e => simp at h
      | none =>
        simp only at h
        simp only [h]
        exact ⟨_, rfl, ⟨_, rfl⟩, rfl⟩

/-- C8: when permitted-network Create gets from the vendor a network ID and the
instance ID, the zone ID and that network ID hold no `/`, the identity Create
sets is `instanceID/zoneID/networkID`; splitting it on `/` yields exactly these
three parts, which are the values that the Read at the end of Create, and every
later Read, Delete and Exists, pass to the vendor (Delete and Exists lock under
the key of the first two); `inst1/zone1/net1` parses back into `inst1`, `zone1`,
`net1`. -/
theorem created_identity_round_trip (m : ClientSession) (s : St) (networkID : String)
    (hcreated : pnCreatedID m s = some networkID)
    (hi : '/' ∉ (s.d.Get .pdnsInstanceID).data) (hz : '/' ∉ (s.d.Get .pdnsZoneID).data)
    (hn : '/' ∉ networkID.data) :
    (resourceIBMPrivateDnsPermittedNetworkCreate m s).1.d.id =
      sprintfId (s.d.Get .pdnsInstanceID) (s.d.Get .pdnsZoneID) networkID ∧
    stringsSplit (resourceIBMPrivateDnsPermittedNetworkCreate m s).1.d.id =
      [s.d.Get .pdnsInstanceID, s.d.Get .pdnsZoneID, networkID] ∧
    (resourceIBMPrivateDnsPermittedNetworkCreate m s).1.calls.getLast? =
      some (.getPermittedNetwork (s.d.Get .pdnsInstanceID) (s.d.Get .pdnsZoneID) networkID) ∧
    (∀ later : ClientSession, later.PrivateDnsClientSession = none →
      (resourceIBMPrivateDnsPermittedNetworkRead later
          (resourceIBMPrivateDnsPermittedNetworkCreate m s).1).1.calls =
        (resourceIBMPrivateDnsPermittedNetworkCreate m s).1.calls ++
          [.getPermittedNetwork (s.d.Get .pdnsInstanceID) (s.d.Get .pdnsZoneID) networkID] ∧
      (resourceIBMPrivateDnsPermittedNetworkDelete later
          (resourceIBMPrivateDnsPermittedNetworkCreate m s).1).1.calls =
        (resourceIBMPrivateDnsPermittedNetworkCreate m s).1.calls ++
          [.deletePermittedNetwork (s.d.Get .pdnsInstanceID) (s.d.Get .pdnsZoneID) networkID] ∧
      (resourceIBMPrivateDnsPermittedNetworkDelete later
          (resourceIBMPrivateDnsPermittedNetworkCreate m s).1).1.locks =
        (resourceIBMPrivateDnsPermittedNetworkCreate m s).1.locks ++
          [.lock (mutexKey (s.d.Get .pdnsInstanceID) (s.d.Get .pdnsZoneID)),
           .unlock (mutexKey (s.d.Get .pdnsInstanceID) (s.d.Get .pdnsZoneID))] ∧
      (resourceIBMPrivateDnsPermittedNetworkExists later
          (resourceIBMPrivateDnsPermittedNetworkCreate m s).1).1.calls =
        (resourceIBMPrivateDnsPermittedNetworkCreate m s).1.calls ++
          [.getPermittedNetwork (s.d.Get .pdnsInstanceID) (s.d.Get .pdnsZoneID) networkID] ∧
      (resourceIBMPrivateDnsPermittedNetworkExists later
          (resourceIBMPrivateDnsPermittedNetworkCreate m s).1).1.locks =
        (resourceIBMPrivateDnsPermittedNetworkCreate m s).1.locks ++
          [.lock (mutexKey (s.d.Get .pdnsInstanceID) (s.d.Get .pdnsZoneID)),
           .unlock (mutexKey (s.d.Get .pdnsInstanceID) (s.d.Get .pdnsZoneID))]) ∧
    stringsSplit "inst1/zone1/net1" = ["inst1", "zone1", "net1"] := by
  obtain ⟨s2, hid2, _, hcreate⟩ := pnCreate_eq m s networkID hcreated
  have hclient : m.PrivateDnsClientSession = none := by
    unfold pnCreatedID at hcreated
    cases hc : m.PrivateDnsClientSession with
    | none => rfl
    | some e => rw [hc] at hcreated; simp at hcreated
  have hparts := composite_identity_parts (s.d.Get .pdnsInstanceID) (s.d.Get .pdnsZoneID)
    networkID hi hz hn
  have hid : (resourceIBMPrivateDnsPermittedNetworkCreate m s).1.d.id =
      sprintfId (s.d.Get .pdnsInstanceID) (s.d.Get .pdnsZoneID) networkID := by
    rw [hcreate]
    simp only [lockEvent_d]
    rw [pnRead_id, hid2]
  refine ⟨hid, by rw [hid]; exact hparts.1, ?_, ?_, by decide⟩
  · rw [hcreate]
    simp only [lockEvent_calls]
    rw [(hparts.2.1 m s2 hclient hid2).1]
    simp
  · intro later hlater
    exact hparts.2.1 later _ hlater hid

/-- Witness of C8: Create of a permitted network under `inst1` and `zone1`, for which the
vendor returns the network `net1`. -/
theorem created_identity_round_trip_witness :
    (resourceIBMPrivateDnsPermittedNetworkCreate networkCreatingSession
      newPermittedNetwork).1.d.id = sprintfId "inst1" "zone1" "net1" ∧
    stringsSplit (resourceIBMPrivateDnsPermittedNetworkCreate networkCreatingSession
      newPermittedNetwork).1.d.id = ["inst1", "zone1", "net1"] := by
  have h := created_identity_round_trip networkCreatingSession newPermittedNetwork "net1"
    (by decide) (by decide) (by decide) (by decide)
  exact ⟨h.1, h.2.1⟩

/-! ## The scope key of the permitted-network lock -/

/-- C9, counterexample: the parents `a`, `bc` and `ab`, `c` differ and have the same
scope key. -/
theorem mutexKey_shared_by_two_parents :
    mutexKey "a" "bc" = mutexKey "ab" "c" ∧ ¬ ("a" = "ab" ∧ "bc" = "c") := by
  decide

/-- C9, amended: the scope key is the resource kind followed by the instance ID and
the zone ID without a separator, so two parents have the same key exactly when
the concatenations of their instance ID and zone ID are equal: operations under
the same parent share the lock, and the key separates two parents whenever
their instance IDs have the same length. -/
theorem mutexKey_eq_iff (i1 z1 i2 z2 : String) :
    (mutexKey i1 z1 = mutexKey i2 z2 ↔ i1 ++ z1 = i2 ++ z2) ∧
    (i1 = i2 ∧ z1 = z2 → mutexKey i1 z1 = mutexKey i2 z2) ∧
    (i1.length = i2.length → (mutexKey i1 z1 = mutexKey i2 z2 ↔ i1 = i2 ∧ z1 = z2)) := by
  have hkey : mutexKey i1 z1 = mutexKey i2 z2 ↔ i1 ++ z1 = i2 ++ z2 := by
    unfold mutexKey
    constructor
    · intro h
      have hd := congrArg String.data h
      simp only [String.data_append, List.append_assoc] at hd
      have := List.append_cancel_left hd
      exact String.ext (by simpa [String.data_append] using this)
    · intro h
      rw [String.append_assoc, String.append_assoc, h]
  refine ⟨hkey, ?_, ?_⟩
  · rintro ⟨rfl, rfl⟩
    rfl
  · intro hlen
    rw [hkey]
    constructor
    · intro h
      have hd := congrArg String.data h
      simp only [String.data_append] at hd
      have hl : i1.data.length = i2.data.length := hlen
      obtain ⟨h1, h2⟩ := List.append_inj hd hl
      exact ⟨String.ext h1, String.ext h2⟩
    · rintro ⟨rfl, rfl⟩
      rfl

/-- Witness of C9: two parents with instance IDs of the same length. -/
theorem mutexKey_eq_iff_witness :
    (mutexKey "inst1" "zone1" = mutexKey "inst2" "zone1" ↔ "inst1" = "inst2" ∧ "zone1" = "zone1") :=
  (mutexKey_eq_iff "inst1" "zone1" "inst2" "zone1").2.2 (by decide)

/-! ## Create and the identity -/

theorem sgCreate_not_reached (m : ClientSession) (s : St)
    (h : sgCreateCallSucceeds m s = false) :
    (∃ e, (resourceIBMISSecurityGroupCreate m s).2 = .ret (some e)) ∧
    (resourceIBMISSecurityGroupCreate m s).1.d = s.d := by
  unfold sgCreateCallSucceeds at h
  unfold resourceIBMISSecurityGroupCreate
  cases hs : m.BluemixUserDetails with
  | error e => simp
  | ok userDetails =>
    rw [hs] at h
    by_cases hgen : userDetails.generation = 1
    · simp only [hgen, if_true] at h ⊢
      unfold classicSgCreate
      cases hc : m.classicVpcClient with
      | some e => simp
      | none =>
        simp only [hc, Option.isNone_none, Bool.true_and, sessionLookup_calls,
          sessionLookup_d] at h ⊢
        generalize m.classicCreateSecurityGroup s.calls _ _ _ = reply at h ⊢
        obtain ⟨result, response, err⟩ := reply
        cases err with
        | none => simp at h
        | some e => simp
    · simp only [hgen, if_false] at h ⊢
      unfold sgCreate
      cases hc : m.vpcClient with
      | some e => simp
      | none =>
        simp only [hc, Option.isNone_none, Bool.true_and, sessionLookup_calls,
          sessionLookup_d] at h ⊢
        generalize m.createSecurityGroup s.calls _ _ _ = reply at h ⊢
        obtain ⟨result, response, err⟩ := reply
        cases err with
        | none => simp at h
        | some e => simp

theorem pnCreate_not_reached (m : ClientSession) (s : St)
    (h : pnCreateCallSucceeds m s = false) :
    (∃ e, (resourceIBMPrivateDnsPermittedNetworkCreate m s).2 = .ret (some e)) ∧
    (resourceIBMPrivateDnsPermittedNetworkCreate m s).1.d = s.d := by
  unfold pnCreateCallSucceeds at h
  unfold resourceIBMPrivateDnsPermittedNetworkCreate
  cases hc : m.PrivateDnsClientSession with
  | some e => simp
  | none =>
    simp only [hc, Option.isNone_none, Bool.true_and] at h ⊢
    cases hv : m.NewPermittedNetworkVpc (s.d.Get .pdnsVpcCRN) with
    | error e => simp
    | ok crn =>
      simp only [hv, lockEvent_calls, lockEvent_d] at h ⊢
      generalize m.createPermittedNetwork s.calls _ _ crn _ = reply at h ⊢
      obtain ⟨result, response, err⟩ := reply
      cases err with
      | none => simp at h
      | some e => simp

/-- C10, counterexample: the vendor creates the object, the Read that ends Create
then fails with status 500: Create returns an error and the ID is set, for the
security group and for the permitted network. -/
theorem failed_create_keeps_identity :
    (∃ e, (resourceIBMISSecurityGroupCreate createdThenUnreadableSession (stateWithId "")).2 =
      .ret (some e)) ∧
    (resourceIBMISSecurityGroupCreate createdThenUnreadableSession (stateWithId "")).1.d.id =
      "sg-abc" ∧
    (∃ e, (resourceIBMPrivateDnsPermittedNetworkCreate createdThenUnreadableSession
      newPermittedNetwork).2 = .ret (some e)) ∧
    (resourceIBMPrivateDnsPermittedNetworkCreate createdThenUnreadableSession
      newPermittedNetwork).1.d.id = "inst1/zone1/net1" := by
  refine ⟨⟨_, rfl⟩, by decide, ⟨_, rfl⟩, by decide⟩

/-- C10, amended: starting from a resource without an identity, whenever Create fails
before or at the vendor's create call (no session, no client, or a create call
that returns an error) it returns an error and the ID is still empty; the ID is
non-empty only after the vendor's create call has succeeded. Security group of
both generations and permitted network. -/
theorem identity_only_after_create_call (m : ClientSession) (s : St) (h : s.d.id = "") :
    (sgCreateCallSucceeds m s = false →
      (∃ e, (resourceIBMISSecurityGroupCreate m s).2 = .ret (some e)) ∧
      (resourceIBMISSecurityGroupCreate m s).1.d.id = "") ∧
    ((resourceIBMISSecurityGroupCreate m s).1.d.id ≠ "" → sgCreateCallSucceeds m s = true) ∧
    (pnCreateCallSucceeds m s = false →
      (∃ e, (resourceIBMPrivateDnsPermittedNetworkCreate m s).2 = .ret (some e)) ∧
      (resourceIBMPrivateDnsPermittedNetworkCreate m s).1.d.id = "") ∧
    ((resourceIBMPrivateDnsPermittedNetworkCreate m s).1.d.id ≠ "" →
      pnCreateCallSucceeds m s = true) := by
  refine ⟨?_, ?_, ?_, ?_⟩
  · intro hfail
    obtain ⟨he, hd⟩ := sgCreate_not_reached m s hfail
    exact ⟨he, by rw [hd, h]⟩
  · intro hid
    by_contra hfail
    obtain ⟨_, hd⟩ := sgCreate_not_reached m s (by simpa using hfail)
    exact hid (by rw [hd, h])
  · intro hfail
    obtain ⟨he, hd⟩ := pnCreate_not_reached m s hfail
    exact ⟨he, by rw [hd, h]⟩
  · intro hid
    by_contra hfail
    obtain ⟨_, hd⟩ := pnCreate_not_reached m s (by simpa using hfail)
    exact hid (by rw [hd, h])

/-- Witness of C10: a vendor that rejects the create call of a security group and of a
permitted network. -/
theorem identity_only_after_create_call_witness :
    ((∃ e, (resourceIBMISSecurityGroupCreate createRejectedSession (stateWithId "")).2 =
        .ret (some e)) ∧
      (resourceIBMISSecurityGroupCreate createRejectedSession (stateWithId "")).1.d.id = "") ∧
    ((∃ e, (resourceIBMPrivateDnsPermittedNetworkCreate createRejectedSession
        newPermittedNetwork).2 = .ret (some e)) ∧
      (resourceIBMPrivateDnsPermittedNetworkCreate createRejectedSession
        newPermittedNetwork).1.d.id = "") :=
  ⟨(identity_only_after_create_call createRejectedSession (stateWithId "") rfl).1 rfl,
   (identity_only_after_create_call createRejectedSession newPermittedNetwork rfl).2.2.1 rfl⟩

/-! ## The permitted network and a vendor that reports 404 -/

/-- C11, at the failing input: against a vendor that answers the permitted network
`inst1/zone1/net1` with status 404, Read returns an error and leaves the ID in
place and Delete returns an error and leaves the ID in place, whereas Exists
returns false without an error. -/
theorem permitted_network_not_found_surfaces :
    (resourceIBMPrivateDnsPermittedNetworkRead networkNotFoundSession
        (stateWithId "inst1/zone1/net1")).2 =
      .ret (some (.errorf "Error reading pdns permitted network:%s\n%s" [] (.sdk "not found")
        (some { StatusCode := 404 }))) ∧
    (resourceIBMPrivateDnsPermittedNetworkRead networkNotFoundSession
        (stateWithId "inst1/zone1/net1")).1.d.id = "inst1/zone1/net1" ∧
    (resourceIBMPrivateDnsPermittedNetworkDelete networkNotFoundSession
        (stateWithId "inst1/zone1/net1")).2 =
      .ret (some (.errorf "Error deleting pdns permitted network:%s\n%s" [] (.sdk "not found")
        (some { StatusCode := 404 }))) ∧
    (resourceIBMPrivateDnsPermittedNetworkDelete networkNotFoundSession
        (stateWithId "inst1/zone1/net1")).1.d.id = "inst1/zone1/net1" ∧
    (resourceIBMPrivateDnsPermittedNetworkExists networkNotFoundSession
        (stateWithId "inst1/zone1/net1")).2 = .ret (false, none) := by
  decide

/-! ## Indexing the parts of a composite identity -/

theorem splitChars_length (sep : Char) (l : List Char) :
    (splitChars sep l).length = l.count sep + 1 := by
  induction l with
  | nil => rfl
  | cons c cs ih =>
    by_cases hc : c = sep
    · subst hc
      simp [splitChars, ih]
    · have hne : (c == sep) = false := by simpa using hc
      cases hsplit : splitChars sep cs with
      | nil => rw [hsplit] at ih; simp at ih
      | cons piece pieces =>
        rw [hsplit] at ih
        simp only [splitChars, hc, if_false, hsplit, List.length_cons] at ih ⊢
        rw [List.count_cons, hne]
        simpa using ih

theorem stringsSplit_length (id : String) :
    (stringsSplit id).length = id.data.count '/' + 1 := by
  simp [stringsSplit, splitChars_length]

theorem sprintfId_count (a b c : String) : 2 ≤ (sprintfId a b c).data.count '/' := by
  have hdata : (sprintfId a b c).data = a.data ++ '/' :: (b.data ++ '/' :: c.data) := by
    simp [sprintfId, String.data_append]
  rw [hdata]
  simp only [List.count_append, List.count_cons_self]
  omega

theorem stringsSplit_three_parts (id : String) (h : 2 ≤ id.data.count '/') :
    ∃ p0 p1 p2 rest, stringsSplit id = p0 :: p1 :: p2 :: rest := by
  have hlen := stringsSplit_length id
  match hparts : stringsSplit id with
  | [] => rw [hparts] at hlen; simp at hlen
  | [_] => rw [hparts] at hlen; simp at hlen; omega
  | [_, _] => rw [hparts] at hlen; simp at hlen; omega
  | p0 :: p1 :: p2 :: rest => exact ⟨p0, p1, p2, rest, rfl⟩

/-- C12, counterexample: the identity `inst1/zone1`, a composite of two identifiers,
splits into two parts, and Read, Delete and Exists stop with an index out of
range at `id_set[2]`. -/
theorem two_part_identity_out_of_range :
    stringsSplit "inst1/zone1" = ["inst1", "zone1"] ∧
    (resourceIBMPrivateDnsPermittedNetworkRead quietSession (stateWithId "inst1/zone1")).2 =
      .panic "index out of range" ∧
    (resourceIBMPrivateDnsPermittedNetworkDelete quietSession (stateWithId "inst1/zone1")).2 =
      .panic "index out of range" ∧
    (resourceIBMPrivateDnsPermittedNetworkExists quietSession (stateWithId "inst1/zone1")).2 =
      .panic "index out of range" := by
  decide

/-- C12, amended: the parts of an ID are one more than its `/` characters, so the
split result can be indexed at positions 0, 1 and 2 exactly when the ID holds
at least two `/`; this is the case of every composite of three identifiers, as
Create builds it, and for such an ID Read, Delete and Exists do not stop with
an index out of range. -/
theorem three_part_identity_is_indexable (m : ClientSession) (s : St)
    (h : 2 ≤ s.d.id.data.count '/') :
    (∀ a b c : String, 2 ≤ (sprintfId a b c).data.count '/') ∧
    (∀ id : String, ((stringsSplit id).get? 2).isSome = true ↔ 2 ≤ id.data.count '/') ∧
    (∃ p0 p1 p2, (stringsSplit s.d.id).get? 0 = some p0 ∧ (stringsSplit s.d.id).get? 1 = some p1 ∧
      (stringsSplit s.d.id).get? 2 = some p2) ∧
    (resourceIBMPrivateDnsPermittedNetworkRead m s).2 ≠ .panic "index out of range" ∧
    (resourceIBMPrivateDnsPermittedNetworkDelete m s).2 ≠ .panic "index out of range" ∧
    (resourceIBMPrivateDnsPermittedNetworkExists m s).2 ≠ .panic "index out of range" := by
  obtain ⟨p0, p1, p2, rest, hparts⟩ := stringsSplit_three_parts s.d.id h
  refine ⟨sprintfId_count, ?_, ⟨p0, p1, p2, by simp [hparts]⟩, ?_, ?_, ?_⟩
  · intro id
    have hlen := stringsSplit_length id
    rw [Option.isSome_iff_exists]
    constructor
    · rintro ⟨p, hp⟩
      have := List.get?_eq_some.mp hp
      obtain ⟨hlt, _⟩ := this
      omega
    · intro hcount
      obtain ⟨q0, q1, q2, qrest, hq⟩ := stringsSplit_three_parts id hcount
      exact ⟨q2, by simp [hq]⟩
  · unfold resourceIBMPrivateDnsPermittedNetworkRead
    cases m.PrivateDnsClientSession with
    | some e => simp
    | none =>
      simp only [hparts, List.get?]
      generalize m.getPermittedNetwork s.calls p0 p1 p2 = reply
      obtain ⟨result, response, err⟩ := reply
      cases err <;> cases result <;> simp
  · unfold resourceIBMPrivateDnsPermittedNetworkDelete
    cases m.PrivateDnsClientSession with
    | some e => simp
    | none =>
      simp only [hparts, List.get?]
      generalize m.deletePermittedNetwork _ p0 p1 p2 = reply
      obtain ⟨result, response, err⟩ := reply
      cases err <;> simp
  · unfold resourceIBMPrivateDnsPermittedNetworkExists
    cases m.PrivateDnsClientSession with
    | some e => simp
    | none =>
      simp only [hparts, List.get?]
      generalize m.getPermittedNetwork _ p0 p1 p2 = reply
      obtain ⟨result, response, err⟩ := reply
      cases err <;> [skip; by_cases h404 : isNotFound response = true] <;> simp [*]

/-- Witness of C12: the identity `inst1/zone1/net1` against a vendor that stores the
network. -/
theorem three_part_identity_is_indexable_witness :
    (resourceIBMPrivateDnsPermittedNetworkRead storedNetworkSession
      (stateWithId "inst1/zone1/net1")).2 ≠ .panic "index out of range" :=
  (three_part_identity_is_indexable storedNetworkSession (stateWithId "inst1/zone1/net1")
    (by decide)).2.2.2.1

/-! ## The two generations flatten alike -/

theorem find_recognised_perm (e1 e2 : List (String × Value)) (hperm : e1.Perm e2)
    (hone : (e1.filter (fun e => recognisedKey e.1)).length ≤ 1) :
    e1.find? (fun e => recognisedKey e.1) = e2.find? (fun e => recognisedKey e.1) := by
  have hp := hperm.filter (fun e => recognisedKey e.1)
  have hfilter : e1.filter (fun e => recognisedKey e.1) = e2.filter (fun e => recognisedKey e.1) := by
    generalize h1 : e1.filter (fun e => recognisedKey e.1) = f1 at hp hone ⊢
    match f1, h1 with
    | [], h1 => exact (List.nil_perm.mp hp).symm
    | [x], h1 => exact List.singleton_perm.mp hp
    | x :: y :: rest, h1 => simp at hone
  rw [← List.filter_head?, ← List.filter_head?, hfilter]

theorem setRemote_agrees (a b : Remote) (h : a.agrees b = true) :
    ∀ r0, setRemote r0 a = setRemote r0 b := by
  intro r0
  cases a with
  | map e1 =>
    cases b with
    | map e2 =>
      simp only [Remote.agrees, Bool.or_eq_true, Bool.and_eq_true, decide_eq_true_eq] at h
      rcases h with rfl | ⟨hperm, hone⟩
      · rfl
      · simp only [setRemote]
        rw [rangeRemote_eq_find, rangeRemote_eq_find, find_recognised_perm e1 e2 hperm hone]
    | nil => simp [Remote.agrees] at h
    | typedNil => simp [Remote.agrees] at h
    | other t => simp [Remote.agrees] at h
  | nil => cases b <;> first | rfl | simp [Remote.agrees] at h
  | typedNil => cases b <;> first | rfl | simp [Remote.agrees] at h
  | other t =>
    cases b <;> simp [Remote.agrees] at h
    subst h
    rfl

theorem loops_agree (classicRules : List vpcclassicv1.SecurityGroupRuleIntf)
    (rules : List vpcv1.SecurityGroupRuleIntf)
    (h : List.Forall₂ (fun c r => c.correspondsWith Remote.agrees r = true) classicRules rules) :
    ∀ acc, classicSgGetLoop classicRules acc = sgGetLoop rules acc := by
  induction h with
  | nil => intro acc; rfl
  | @cons c r cs rs hcr _ ih =>
    intro acc
    cases c with
    | Icmp c =>
      cases r with
      | Icmp r =>
        obtain ⟨c1, c2, c3, c4, c5, c6⟩ := c
        obtain ⟨r1, r2, r3, r4, r5, r6⟩ := r
        simp only [vpcclassicv1.SecurityGroupRuleIntf.correspondsWith, Bool.and_eq_true,
          decide_eq_true_eq] at hcr
        obtain ⟨⟨rfl, rfl, rfl, rfl, rfl⟩, hag⟩ := hcr
        have hbody : classicSgGetIcmp ⟨c1, c2, c3, c4, c5, c6⟩ = sgGetIcmp ⟨c1, c2, c3, c4, c5, r6⟩ := by
          cases c3 <;> cases c4 <;>
            simp [classicSgGetIcmp, sgGetIcmp, setRemote_agrees c6 r6 hag]
        simp only [classicSgGetLoop, sgGetLoop, hbody]
        cases sgGetIcmp ⟨c1, c2, c3, c4, c5, r6⟩ with
        | ret rec => exact ih _
        | panic msg => rfl
      | All r => simp [vpcclassicv1.SecurityGroupRuleIntf.correspondsWith] at hcr
      | Tcpudp r => simp [vpcclassicv1.SecurityGroupRuleIntf.correspondsWith] at hcr
      | other t2 => simp [vpcclassicv1.SecurityGroupRuleIntf.correspondsWith] at hcr
    | All c =>
      cases r with
      | All r =>
        obtain ⟨c1, c2, c3, c4⟩ := c
        obtain ⟨r1, r2, r3, r4⟩ := r
        simp only [vpcclassicv1.SecurityGroupRuleIntf.correspondsWith, Bool.and_eq_true,
          decide_eq_true_eq] at hcr
        obtain ⟨⟨rfl, rfl, rfl⟩, hag⟩ := hcr
        have hbody : classicSgGetAll ⟨c1, c2, c3, c4⟩ = sgGetAll ⟨c1, c2, c3, r4⟩ := by
          cases c1 <;> cases c2 <;>
            simp [classicSgGetAll, sgGetAll, setRemote_agrees c4 r4 hag]
        simp only [classicSgGetLoop, sgGetLoop, hbody]
        cases sgGetAll ⟨c1, c2, c3, r4⟩ with
        | ret rec => exact ih _
        | panic msg => rfl
      | Icmp r => simp [vpcclassicv1.SecurityGroupRuleIntf.correspondsWith] at hcr
      | Tcpudp r => simp [vpcclassicv1.SecurityGroupRuleIntf.correspondsWith] at hcr
      | other t2 => simp [vpcclassicv1.SecurityGroupRuleIntf.correspondsWith] at hcr
    | Tcpudp c =>
      cases r with
      | Tcpudp r =>
        obtain ⟨c1, c2, c3, c4, c5, c6⟩ := c
        obtain ⟨r1, r2, r3, r4, r5, r6⟩ := r
        simp only [vpcclassicv1.SecurityGroupRuleIntf.correspondsWith, Bool.and_eq_true,
          decide_eq_true_eq] at hcr
        obtain ⟨⟨rfl, rfl, rfl, rfl, rfl⟩, hag⟩ := hcr
        have hbody : classicSgGetTcpudp ⟨c1, c2, c3, c4, c5, c6⟩ = sgGetTcpudp ⟨c1, c2, c3, c4, c5, r6⟩ := by
          cases c3 <;> cases c4 <;>
            simp [classicSgGetTcpudp, sgGetTcpudp, setRemote_agrees c6 r6 hag]
        simp only [classicSgGetLoop, sgGetLoop, hbody]
        cases sgGetTcpudp ⟨c1, c2, c3, c4, c5, r6⟩ with
        | ret rec => exact ih _
        | panic msg => rfl
      | Icmp r => simp [vpcclassicv1.SecurityGroupRuleIntf.correspondsWith] at hcr
      | All r => simp [vpcclassicv1.SecurityGroupRuleIntf.correspondsWith] at hcr
      | other t2 => simp [vpcclassicv1.SecurityGroupRuleIntf.correspondsWith] at hcr
    | other t =>
      cases r with
      | Icmp r => simp [vpcclassicv1.SecurityGroupRuleIntf.correspondsWith] at hcr
      | All r => simp [vpcclassicv1.SecurityGroupRuleIntf.correspondsWith] at hcr
      | Tcpudp r => simp [vpcclassicv1.SecurityGroupRuleIntf.correspondsWith] at hcr
      | other t2 =>
        simp only [classicSgGetLoop, sgGetLoop]
        exact ih acc

/-- C14, counterexample: a classic rule and a current-generation rule of the same
variant with the same direction, IP version and protocol and the same remote map
with the entries `address` and `id`. The classic loop visits `address` first,
the current loop visits `id` first, and the two `rules` lists differ. -/
theorem generations_differ_on_visiting_order :
    List.Forall₂
      (fun (c : vpcclassicv1.SecurityGroupRuleIntf) (r : vpcv1.SecurityGroupRuleIntf) =>
        c.correspondsWith Remote.sameMap r = true)
      [.All ⟨some "inbound", some "ipv4", none,
        .map [("address", .str "192.0.2.1"), ("id", .str "sg-1")]⟩]
      [.All ⟨some "inbound", some "ipv4", none,
        .map [("id", .str "sg-1"), ("address", .str "192.0.2.1")]⟩] ∧
    classicSgGetRules [.All ⟨some "inbound", some "ipv4", none,
        .map [("address", .str "192.0.2.1"), ("id", .str "sg-1")]⟩] =
      .ret [[("direction", .str "inbound"), ("ip_version", .str "ipv4"),
        ("remote", .str "192.0.2.1")]] ∧
    sgGetRules [.All ⟨some "inbound", some "ipv4", none,
        .map [("id", .str "sg-1"), ("address", .str "192.0.2.1")]⟩] =
      .ret [[("direction", .str "inbound"), ("ip_version", .str "ipv4"),
        ("remote", .str "sg-1")]] ∧
    classicSgGetRules [.All ⟨some "inbound", some "ipv4", none,
        .map [("address", .str "192.0.2.1"), ("id", .str "sg-1")]⟩] ≠
      sgGetRules [.All ⟨some "inbound", some "ipv4", none,
        .map [("id", .str "sg-1"), ("address", .str "192.0.2.1")]⟩] :=
  ⟨List.Forall₂.cons (by decide) List.Forall₂.nil, by decide, by decide, by decide⟩

/-- C14, amended: when the classic list and the current-generation list correspond
element by element (same variant, direction, IP version, protocol, code and type
or port-min and port-max, and the same remote map, visited in the same order or
holding at most one of the keys `id`, `address`, `cidr_block`), `classicSgGet`
and `sgGet` build the same `rules` list, and store the same list under `rules`
when the list is built. -/
theorem generations_flatten_alike (classicRules : List vpcclassicv1.SecurityGroupRuleIntf)
    (rules : List vpcv1.SecurityGroupRuleIntf)
    (h : List.Forall₂ (fun c r => c.correspondsWith Remote.agrees r = true) classicRules rules) :
    classicSgGetRules classicRules = sgGetRules rules ∧
    (∀ (m : ClientSession) (classicState s : St) (classicID id : String)
        (classicGroup : vpcclassicv1.SecurityGroup) (group : vpcv1.SecurityGroup)
        (out : List Record),
      m.classicVpcClient = none → m.vpcClient = none →
      (m.classicGetSecurityGroup classicState.calls classicID).err = none →
      (m.classicGetSecurityGroup classicState.calls classicID).result = some classicGroup →
      (m.getSecurityGroup s.calls id).err = none →
      (m.getSecurityGroup s.calls id).result = some group →
      classicGroup.Name.isSome = true → group.Name.isSome = true →
      (classicGroup.VPC.bind (fun vpc => vpc.ID)).isSome = true →
      (group.VPC.bind (fun vpc => vpc.ID)).isSome = true →
      classicGroup.Rules = classicRules → group.Rules = rules →
      sgGetRules rules = .ret out →
      (classicSgGet m classicState classicID).1.d.attrs.lookup .isSecurityGroupRules =
        some (.rules out) ∧
      (sgGet m s id).1.d.attrs.lookup .isSecurityGroupRules = some (.rules out)) := by
  have hrules : classicSgGetRules classicRules = sgGetRules rules := by
    rw [classicSgGetRules_eq_loop, sgGetRules_eq_loop]
    exact loops_agree classicRules rules h []
  refine ⟨hrules, ?_⟩
  intro m classicState s classicID id classicGroup group out hcc hc hcerr hcres herr hres
    hcname hname hcvpc hvpc hcrules hgrules hout
  constructor
  · exact classicSgGet_stores_rules m classicState classicID classicGroup out hcc hcerr hcres
      hcname hcvpc (by rw [hcrules, hrules]; exact hout)
  · exact sgGet_stores_rules m s id group out hc herr hres hname hvpc (by rw [hgrules]; exact hout)

/-- Witness of C14: an ICMP rule, a TCP/UDP rule whose remote refers to a security group
and is visited in two different orders, and an all-protocol rule whose remote
holds two of the three keys and is visited in one order. -/
theorem generations_flatten_alike_witness :
    classicSgGetRules
        [.Icmp ⟨some 8, some 0, some "inbound", some "ipv4", some "icmp", .nil⟩,
         .Tcpudp ⟨some 80, some 443, some "inbound", some "ipv4", some "tcp",
           .map [("name", .str "web"), ("id", .str "sg-1")]⟩,
         .All ⟨some "outbound", some "ipv4", some "all",
           .map [("address", .str "192.0.2.1"), ("id", .str "sg-1")]⟩] =
      sgGetRules
        [.Icmp ⟨some 8, some 0, some "inbound", some "ipv4", some "icmp", .nil⟩,
         .Tcpudp ⟨some 80, some 443, some "inbound", some "ipv4", some "tcp",
           .map [("id", .str "sg-1"), ("name", .str "web")]⟩,
         .All ⟨some "outbound", some "ipv4", some "all",
           .map [("address", .str "192.0.2.1"), ("id", .str "sg-1")]⟩] :=
  (generations_flatten_alike _ _
    (List.Forall₂.cons (by decide) (List.Forall₂.cons (by decide)
      (List.Forall₂.cons (by decide) List.Forall₂.nil)))).1

/-! ## Reading the generation and choosing the client -/

@[simp] theorem call_lookups (s : St) (c : VendorCall) : (s.call c).lookups = s.lookups := rfl

@[simp] theorem Set_lookups (s : St) (k : Attr) (v : AttrVal) :
    (s.Set k v).lookups = s.lookups := rfl

@[simp] theorem SetId_lookups (s : St) (id : String) : (s.SetId id).lookups = s.lookups := rfl

@[simp] theorem sessionLookup_lookups (s : St) : s.sessionLookup.lookups = s.lookups + 1 := rfl

theorem servedBy_refl (clients : List Client) (s : St) : ServedBy clients s s := by
  simp [ServedBy, issued]

theorem servedBy_trans (clients : List Client) (s s1 s2 : St) (h1 : ServedBy clients s s1)
    (h2 : ServedBy clients s1 s2) : ServedBy clients s s2 := by
  obtain ⟨hc1, hm1⟩ := h1
  obtain ⟨hc2, hm2⟩ := h2
  obtain ⟨e1, he1, hi1⟩ : ∃ e1, s1.calls = s.calls ++ e1 ∧ issued s s1 = e1 := ⟨_, hc1, rfl⟩
  obtain ⟨e2, he2, hi2⟩ : ∃ e2, s2.calls = s1.calls ++ e2 ∧ issued s1 s2 = e2 := ⟨_, hc2, rfl⟩
  have hissued : issued s s2 = e1 ++ e2 := by
    unfold issued
    rw [he2, he1, List.append_assoc, List.drop_left]
  refine ⟨?_, ?_⟩
  · rw [hissued, he2, he1, List.append_assoc]
  · intro c hc
    rw [hissued] at hc
    rcases List.mem_append.mp hc with h | h
    · exact hm1 c (hi1 ▸ h)
    · exact hm2 c (hi2 ▸ h)

theorem servedBy_of_calls_eq (clients : List Client) (s s1 s2 : St) (h : s1.calls = s.calls)
    (h2 : ServedBy clients s1 s2) : ServedBy clients s s2 := by
  unfold ServedBy issued at h2 ⊢
  rw [h] at h2
  exact h2

theorem servedBy_of_eq_calls (clients : List Client) (s s1 s2 : St) (h : s2.calls = s1.calls)
    (h1 : ServedBy clients s s1) : ServedBy clients s s2 := by
  unfold ServedBy issued at h1 ⊢
  rw [h]
  exact h1

theorem sgGet_lookups (m : ClientSession) (s : St) (id : String) :
    (sgGet m s id).1.lookups = s.lookups := by
  unfold sgGet
  generalize m.getSecurityGroup s.calls id = reply
  obtain ⟨result, response, err⟩ := reply
  cases m.vpcClient with
  | some e => simp
  | none =>
    cases err with
    | some e => by_cases h : isNotFound response = true <;> simp [h]
    | none =>
      cases result with
      | none => simp
      | some group =>
        obtain ⟨gid, crn, name, vpc, rules, rg⟩ := group
        cases name with
        | none => simp
        | some name =>
          rcases vpc with _ | ⟨_ | vpcID⟩
          · simp
          · simp
          · dsimp only [Option.bind]
            cases sgGetRules rules with
            | panic msg => simp
            | ret out =>
              cases gid with
              | none => simp
              | some gid =>
                cases rg <;> cases m.getBaseController <;> cases crn <;> simp

theorem classicSgGet_lookups (m : ClientSession) (s : St) (id : String) :
    (classicSgGet m s id).1.lookups = s.lookups := by
  unfold classicSgGet
  generalize m.classicGetSecurityGroup s.calls id = reply
  obtain ⟨result, response, err⟩ := reply
  cases m.classicVpcClient with
  | some e => simp
  | none =>
    cases err with
    | some e => by_cases h : isNotFound response = true <;> simp [h]
    | none =>
      cases result with
      | none => simp
      | some group =>
        obtain ⟨gid, crn, name, vpc, rules, rg⟩ := group
        cases name with
        | none => simp
        | some name =>
          rcases vpc with _ | ⟨_ | vpcID⟩
          · simp
          · simp
          · dsimp only [Option.bind]
            cases classicSgGetRules rules with
            | panic msg => simp
            | ret out =>
              cases gid with
              | none => simp
              | some gid =>
                cases rg with
                | none => cases m.getBaseController <;> cases crn <;> simp
                | some rg =>
                  obtain ⟨rgID⟩ := rg
                  cases m.ResourceManagementAPIv2 with
                  | some e => simp
                  | none =>
                    cases rgID with
                    | none => simp
                    | some rgID =>
                      dsimp only
                      generalize m.resourceGroupGet _ rgID = grp
                      cases grp <;> cases m.getBaseController <;> cases crn <;> simp

theorem sgGet_served (m : ClientSession) (s : St) (id : String) :
    ServedBy [.vpc] s (sgGet m s id).1 := by
  obtain ⟨hcalls, hmem⟩ := sgGet_calls m s id
  refine ⟨hcalls, fun c hc => ?_⟩
  rw [hmem c hc]
  simp [VendorCall.client]

theorem classicSgGet_served (m : ClientSession) (s : St) (id : String) :
    ServedBy [.classicVpc, .resourceManagement] s (classicSgGet m s id).1 := by
  obtain ⟨hcalls, hmem⟩ := classicSgGet_calls m s id
  refine ⟨hcalls, fun c hc => ?_⟩
  rcases hmem c hc with rfl | ⟨rg, rfl⟩ <;> simp [VendorCall.client]

theorem sgCreate_frame (m : ClientSession) (s : St) (vpc : String) :
    (sgCreate m s vpc).1.lookups = s.lookups ∧ ServedBy [.vpc] s (sgCreate m s vpc).1 := by
  unfold sgCreate ServedBy issued
  dsimp only
  generalize m.createSecurityGroup s.calls vpc (s.d.GetOk .isSecurityGroupResourceGroup)
    (s.d.GetOk .isSecurityGroupName) = reply
  obtain ⟨result, response, err⟩ := reply
  cases m.vpcClient with
  | some e => simp
  | none =>
    cases err with
    | some e => simp [VendorCall.client]
    | none =>
      cases result with
      | none => simp [VendorCall.client]
      | some sg =>
        obtain ⟨gid, crn, name, vpcRef, rules, rg⟩ := sg
        cases gid <;> simp [VendorCall.client]

theorem classicSgCreate_frame (m : ClientSession) (s : St) (vpc : String) :
    (classicSgCreate m s vpc).1.lookups = s.lookups ∧
    ServedBy [.classicVpc, .resourceManagement] s (classicSgCreate m s vpc).1 := by
  unfold classicSgCreate ServedBy issued
  dsimp only
  generalize m.classicCreateSecurityGroup s.calls vpc (s.d.GetOk .isSecurityGroupResourceGroup)
    (s.d.GetOk .isSecurityGroupName) = reply
  obtain ⟨result, response, err⟩ := reply
  cases m.classicVpcClient with
  | some e => simp
  | none =>
    cases err with
    | some e => simp [VendorCall.client]
    | none =>
      cases result with
      | none => simp [VendorCall.client]
      | some sg =>
        obtain ⟨gid, crn, name, vpcRef, rules, rg⟩ := sg
        cases gid <;> simp [VendorCall.client]

theorem sgUpdate_frame (m : ClientSession) (s : St) (id name : String) (hasChanged : Bool) :
    (sgUpdate m s id name hasChanged).1.lookups = s.lookups ∧
    ServedBy [.vpc] s (sgUpdate m s id name hasChanged).1 := by
  unfold sgUpdate ServedBy issued
  generalize m.updateSecurityGroup s.calls id name = reply
  obtain ⟨result, response, err⟩ := reply
  cases m.vpcClient <;> cases hasChanged <;> cases err <;> simp [VendorCall.client]

theorem classicSgUpdate_frame (m : ClientSession) (s : St) (id name : String)
    (hasChanged : Bool) :
    (classicSgUpdate m s id name hasChanged).1.lookups = s.lookups ∧
    ServedBy [.classicVpc, .resourceManagement] s (classicSgUpdate m s id name hasChanged).1 := by
  unfold classicSgUpdate ServedBy issued
  generalize m.classicUpdateSecurityGroup s.calls id name = reply
  obtain ⟨result, response, err⟩ := reply
  cases m.classicVpcClient <;> cases hasChanged <;> cases err <;> simp [VendorCall.client]

theorem sgDelete_frame (m : ClientSession) (s : St) (id : String) :
    (sgDelete m s id).1.lookups = s.lookups ∧ ServedBy [.vpc] s (sgDelete m s id).1 := by
  unfold sgDelete ServedBy issued
  generalize m.getSecurityGroup s.calls id = reply
  obtain ⟨result, response, err⟩ := reply
  cases m.vpcClient with
  | some e => simp
  | none =>
    cases err with
    | some e => by_cases h : isNotFound response = true <;> simp [h, VendorCall.client]
    | none =>
      dsimp only
      generalize m.deleteSecurityGroup _ id = reply2
      obtain ⟨result2, response2, err2⟩ := reply2
      cases err2 <;> simp [VendorCall.client]

theorem classicSgDelete_frame (m : ClientSession) (s : St) (id : String) :
    (classicSgDelete m s id).1.lookups = s.lookups ∧
    ServedBy [.classicVpc, .resourceManagement] s (classicSgDelete m s id).1 := by
  unfold classicSgDelete ServedBy issued
  generalize m.classicGetSecurityGroup s.calls id = reply
  obtain ⟨result, response, err⟩ := reply
  cases m.classicVpcClient with
  | some e => simp
  | none =>
    cases err with
    | some e => by_cases h : isNotFound response = true <;> simp [h, VendorCall.client]
    | none =>
      dsimp only
      generalize m.classicDeleteSecurityGroup _ id = reply2
      obtain ⟨result2, response2, err2⟩ := reply2
      cases err2 <;> simp [VendorCall.client]

theorem sgExists_frame (m : ClientSession) (s : St) (id : String) :
    (sgExists m s id).1.lookups = s.lookups ∧ ServedBy [.vpc] s (sgExists m s id).1 := by
  unfold sgExists ServedBy issued
  generalize m.getSecurityGroup s.calls id = reply
  obtain ⟨result, response, err⟩ := reply
  cases m.vpcClient with
  | some e => simp
  | none =>
    cases err with
    | some e => by_cases h : isNotFound response = true <;> simp [h, VendorCall.client]
    | none => simp [VendorCall.client]

theorem classicSgExists_frame (m : ClientSession) (s : St) (id : String) :
    (classicSgExists m s id).1.lookups = s.lookups ∧
    ServedBy [.classicVpc, .resourceManagement] s (classicSgExists m s id).1 := by
  unfold classicSgExists ServedBy issued
  generalize m.classicGetSecurityGroup s.calls id = reply
  obtain ⟨result, response, err⟩ := reply
  cases m.classicVpcClient with
  | some e => simp
  | none =>
    cases err with
    | some e => by_cases h : isNotFound response = true <;> simp [h, VendorCall.client]
    | none => simp [VendorCall.client]

theorem read_frame (m : ClientSession) (s : St) :
    (resourceIBMISSecurityGroupRead m s).1.lookups = s.lookups + 1 ∧
    ∀ userDetails, m.BluemixUserDetails = .ok userDetails →
      ServedBy (clientsOf userDetails.generation) s (resourceIBMISSecurityGroupRead m s).1 := by
  unfold resourceIBMISSecurityGroupRead
  cases hs : m.BluemixUserDetails with
  | error e => exact ⟨rfl, fun u hu => by cases hu⟩
  | ok userDetails =>
    by_cases hgen : userDetails.generation = 1
    · simp only [hgen, if_true]
      refine ⟨by rw [classicSgGet_lookups]; rfl, fun u hu => ?_⟩
      cases hu
      have hclients : clientsOf userDetails.generation = [.classicVpc, .resourceManagement] := by
        simp [clientsOf, hgen]
      rw [hclients]
      exact servedBy_of_calls_eq _ s s.sessionLookup _ rfl (classicSgGet_served m _ _)
    · simp only [hgen, if_false]
      refine ⟨by rw [sgGet_lookups]; rfl, fun u hu => ?_⟩
      cases hu
      have hclients : clientsOf userDetails.generation = [.vpc] := by simp [clientsOf, hgen]
      rw [hclients]
      exact servedBy_of_calls_eq _ s s.sessionLookup _ rfl (sgGet_served m _ _)

theorem create_frame (m : ClientSession) (s : St) :
    ((resourceIBMISSecurityGroupCreate m s).1.lookups = s.lookups + 1 ∨
      (resourceIBMISSecurityGroupCreate m s).1.lookups = s.lookups + 2) ∧
    ((resourceIBMISSecurityGroupCreate m s).2 = .ret none →
      (resourceIBMISSecurityGroupCreate m s).1.lookups = s.lookups + 2) ∧
    ∀ userDetails, m.BluemixUserDetails = .ok userDetails →
      ServedBy (clientsOf userDetails.generation) s (resourceIBMISSecurityGroupCreate m s).1 := by
  unfold resourceIBMISSecurityGroupCreate
  cases hs : m.BluemixUserDetails with
  | error e => exact ⟨Or.inl rfl, fun h => (by cases h), fun u hu => (by cases hu)⟩
  | ok userDetails =>
    by_cases hgen : userDetails.generation = 1
    · simp only [hgen, if_true]
      have hclients : clientsOf userDetails.generation = [.classicVpc, .resourceManagement] := by
        simp [clientsOf, hgen]
      obtain ⟨hl, hserved⟩ := classicSgCreate_frame m s.sessionLookup
        (s.sessionLookup.d.Get .isSecurityGroupVPC)
      rcases hsub : classicSgCreate m s.sessionLookup (s.sessionLookup.d.Get .isSecurityGroupVPC)
        with ⟨s1, r⟩
      rw [hsub] at hl hserved
      have hserved' : ServedBy (clientsOf userDetails.generation) s s1 := by
        rw [hclients]
        exact servedBy_of_calls_eq _ s s.sessionLookup _ rfl hserved
      rcases r with (_ | e) | msg
      · dsimp only
        obtain ⟨hrl, hrs⟩ := read_frame m s1
        have hl2 : (resourceIBMISSecurityGroupRead m s1).1.lookups = s.lookups + 2 := by
          rw [hrl]; simp only at hl; rw [hl]; rfl
        exact ⟨Or.inr hl2, fun _ => hl2, fun u hu => by
          cases hu
          exact servedBy_trans _ s s1 _ hserved' (hrs userDetails hs)⟩
      · exact ⟨Or.inl hl, fun h => (by cases h), fun u hu => (by cases hu; exact hserved')⟩
      · exact ⟨Or.inl hl, fun h => (by cases h), fun u hu => (by cases hu; exact hserved')⟩
    · simp only [hgen, if_false]
      have hclients : clientsOf userDetails.generation = [.vpc] := by simp [clientsOf, hgen]
      obtain ⟨hl, hserved⟩ := sgCreate_frame m s.sessionLookup
        (s.sessionLookup.d.Get .isSecurityGroupVPC)
      rcases hsub : sgCreate m s.sessionLookup (s.sessionLookup.d.Get .isSecurityGroupVPC)
        with ⟨s1, r⟩
      rw [hsub] at hl hserved
      have hserved' : ServedBy (clientsOf userDetails.generation) s s1 := by
        rw [hclients]
        exact servedBy_of_calls_eq _ s s.sessionLookup _ rfl hserved
      rcases r with (_ | e) | msg
      · dsimp only
        obtain ⟨hrl, hrs⟩ := read_frame m s1
        have hl2 : (resourceIBMISSecurityGroupRead m s1).1.lookups = s.lookups + 2 := by
          rw [hrl]; simp only at hl; rw [hl]; rfl
        exact ⟨Or.inr hl2, fun _ => hl2, fun u hu => by
          cases hu
          exact servedBy_trans _ s s1 _ hserved' (hrs userDetails hs)⟩
      · exact ⟨Or.inl hl, fun h => (by cases h), fun u hu => (by cases hu; exact hserved')⟩
      · exact ⟨Or.inl hl, fun h => (by cases h), fun u hu => (by cases hu; exact hserved')⟩

theorem update_frame (m : ClientSession) (s : St) :
    ((resourceIBMISSecurityGroupUpdate m s).1.lookups = s.lookups + 1 ∨
      (resourceIBMISSecurityGroupUpdate m s).1.lookups = s.lookups + 2) ∧
    ((resourceIBMISSecurityGroupUpdate m s).2 = .ret none →
      (resourceIBMISSecurityGroupUpdate m s).1.lookups = s.lookups + 2) ∧
    ∀ userDetails, m.BluemixUserDetails = .ok userDetails →
      ServedBy (clientsOf userDetails.generation) s (resourceIBMISSecurityGroupUpdate m s).1 := by
  unfold resourceIBMISSecurityGroupUpdate
  cases hs : m.BluemixUserDetails with
  | error e => exact ⟨Or.inl rfl, fun h => (by cases h), fun u hu => (by cases hu)⟩
  | ok userDetails =>
    have hread : ∀ s1 : St, s1.lookups = s.lookups + 1 →
        ServedBy (clientsOf userDetails.generation) s s1 →
        ((resourceIBMISSecurityGroupRead m s1).1.lookups = s.lookups + 1 ∨
          (resourceIBMISSecurityGroupRead m s1).1.lookups = s.lookups + 2) ∧
        ((resourceIBMISSecurityGroupRead m s1).2 = .ret none →
          (resourceIBMISSecurityGroupRead m s1).1.lookups = s.lookups + 2) ∧
        ∀ u, (Except.ok userDetails : Except GoError UserDetails) = Except.ok u →
          ServedBy (clientsOf u.generation) s (resourceIBMISSecurityGroupRead m s1).1 := by
      intro s1 hl hserved
      obtain ⟨hrl, hrs⟩ := read_frame m s1
      have hl2 : (resourceIBMISSecurityGroupRead m s1).1.lookups = s.lookups + 2 := by
        rw [hrl, hl]
      exact ⟨Or.inr hl2, fun _ => hl2, fun u hu => (by
        cases hu
        exact servedBy_trans _ s s1 _ hserved (hrs userDetails hs))⟩
    by_cases hch : s.sessionLookup.d.HasChange .isSecurityGroupName = true
    · simp only [hch, if_true]
      by_cases hgen : userDetails.generation = 1
      · simp only [hgen, if_true]
        have hclients : clientsOf userDetails.generation = [.classicVpc, .resourceManagement] := by
          simp [clientsOf, hgen]
        obtain ⟨hl, hserved⟩ := classicSgUpdate_frame m s.sessionLookup s.sessionLookup.d.id
          (s.sessionLookup.d.Get .isSecurityGroupName) true
        rcases hsub : classicSgUpdate m s.sessionLookup s.sessionLookup.d.id
          (s.sessionLookup.d.Get .isSecurityGroupName) true with ⟨s1, r⟩
        rw [hsub] at hl hserved
        have hserved' : ServedBy (clientsOf userDetails.generation) s s1 := by
          rw [hclients]
          exact servedBy_of_calls_eq _ s s.sessionLookup _ rfl hserved
        rcases r with (_ | e) | msg
        · exact hread s1 hl hserved'
        · exact ⟨Or.inl hl, fun h => (by cases h), fun u hu => (by cases hu; exact hserved')⟩
        · exact ⟨Or.inl hl, fun h => (by cases h), fun u hu => (by cases hu; exact hserved')⟩
      · simp only [hgen, if_false]
        have hclients : clientsOf userDetails.generation = [.vpc] := by simp [clientsOf, hgen]
        obtain ⟨hl, hserved⟩ := sgUpdate_frame m s.sessionLookup s.sessionLookup.d.id
          (s.sessionLookup.d.Get .isSecurityGroupName) true
        rcases hsub : sgUpdate m s.sessionLookup s.sessionLookup.d.id
          (s.sessionLookup.d.Get .isSecurityGroupName) true with ⟨s1, r⟩
        rw [hsub] at hl hserved
        have hserved' : ServedBy (clientsOf userDetails.generation) s s1 := by
          rw [hclients]
          exact servedBy_of_calls_eq _ s s.sessionLookup _ rfl hserved
        rcases r with (_ | e) | msg
        · exact hread s1 hl hserved'
        · exact ⟨Or.inl hl, fun h => (by cases h), fun u hu => (by cases hu; exact hserved')⟩
        · exact ⟨Or.inl hl, fun h => (by cases h), fun u hu => (by cases hu; exact hserved')⟩
    · simp only [hch]
      exact hread s.sessionLookup rfl
        (servedBy_of_calls_eq _ s s.sessionLookup _ rfl (servedBy_refl _ _))

theorem delete_frame (m : ClientSession) (s : St) :
    (resourceIBMISSecurityGroupDelete m s).1.lookups = s.lookups + 1 ∧
    ∀ userDetails, m.BluemixUserDetails = .ok userDetails →
      ServedBy (clientsOf userDetails.generation) s (resourceIBMISSecurityGroupDelete m s).1 := by
  unfold resourceIBMISSecurityGroupDelete
  cases hs : m.BluemixUserDetails with
  | error e => exact ⟨rfl, fun u hu => (by cases hu)⟩
  | ok userDetails =>
    by_cases hgen : userDetails.generation = 1
    · simp only [hgen, if_true]
      have hclients : clientsOf userDetails.generation = [.classicVpc, .resourceManagement] := by
        simp [clientsOf, hgen]
      obtain ⟨hl, hserved⟩ := classicSgDelete_frame m s.sessionLookup s.sessionLookup.d.id
      rcases hsub : classicSgDelete m s.sessionLookup s.sessionLookup.d.id with ⟨s1, r⟩
      rw [hsub] at hl hserved
      have hserved' : ServedBy (clientsOf userDetails.generation) s s1 := by
        rw [hclients]
        exact servedBy_of_calls_eq _ s s.sessionLookup _ rfl hserved
      rcases r with (_ | e) | msg
      · exact ⟨hl, fun u hu => (by
          cases hu
          exact servedBy_of_eq_calls _ s s1 _ rfl hserved')⟩
      · exact ⟨hl, fun u hu => (by cases hu; exact hserved')⟩
      · exact ⟨hl, fun u hu => (by cases hu; exact hserved')⟩
    · simp only [hgen, if_false]
      have hclients : clientsOf userDetails.generation = [.vpc] := by simp [clientsOf, hgen]
      obtain ⟨hl, hserved⟩ := sgDelete_frame m s.sessionLookup s.sessionLookup.d.id
      rcases hsub : sgDelete m s.sessionLookup s.sessionLookup.d.id with ⟨s1, r⟩
      rw [hsub] at hl hserved
      have hserved' : ServedBy (clientsOf userDetails.generation) s s1 := by
        rw [hclients]
        exact servedBy_of_calls_eq _ s s.sessionLookup _ rfl hserved
      rcases r with (_ | e) | msg
      · exact ⟨hl, fun u hu => (by
          cases hu
          exact servedBy_of_eq_calls _ s s1 _ rfl hserved')⟩
      · exact ⟨hl, fun u hu => (by cases hu; exact hserved')⟩
      · exact ⟨hl, fun u hu => (by cases hu; exact hserved')⟩

theorem exists_frame (m : ClientSession) (s : St) :
    (resourceIBMISSecurityGroupExists m s).1.lookups = s.lookups + 1 ∧
    ∀ userDetails, m.BluemixUserDetails = .ok userDetails →
      ServedBy (clientsOf userDetails.generation) s (resourceIBMISSecurityGroupExists m s).1 := by
  unfold resourceIBMISSecurityGroupExists
  cases hs : m.BluemixUserDetails with
  | error e => exact ⟨rfl, fun u hu => (by cases hu)⟩
  | ok userDetails =>
    by_cases hgen : userDetails.generation = 1
    · simp only [hgen, if_true]
      have hclients : clientsOf userDetails.generation = [.classicVpc, .resourceManagement] := by
        simp [clientsOf, hgen]
      obtain ⟨hl, hserved⟩ := classicSgExists_frame m s.sessionLookup s.sessionLookup.d.id
      refine ⟨hl, fun u hu => ?_⟩
      cases hu
      rw [hclients]
      exact servedBy_of_calls_eq _ s s.sessionLookup _ rfl hserved
    · simp only [hgen, if_false]
      have hclients : clientsOf userDetails.generation = [.vpc] := by simp [clientsOf, hgen]
      obtain ⟨hl, hserved⟩ := sgExists_frame m s.sessionLookup s.sessionLookup.d.id
      refine ⟨hl, fun u hu => ?_⟩
      cases hu
      rw [hclients]
      exact servedBy_of_calls_eq _ s s.sessionLookup _ rfl hserved

/-- C13, counterexample: a Create that succeeds reads the generation from the session
twice, at the top of the entry point and again in the Read it ends with; so
does an Update, here one without a change. -/
theorem create_reads_generation_twice :
    (resourceIBMISSecurityGroupCreate creatingSession (stateWithId "")).2 = .ret none ∧
    (resourceIBMISSecurityGroupCreate creatingSession (stateWithId "")).1.lookups = 2 ∧
    (resourceIBMISSecurityGroupUpdate storedGroupSession (stateWithId "sg-abc")).2 = .ret none ∧
    (resourceIBMISSecurityGroupUpdate storedGroupSession (stateWithId "sg-abc")).1.lookups = 2 := by
  decide

/-- C13, amended: Read, Delete and Exists obtain the generation from the session
exactly once, at the top of the entry point. Create and Update obtain it at the
top and a second time in the `resourceIBMISSecurityGroupRead` they end with:
once or twice, and twice whenever they return success. The session giving the
same user details each time, every call of the operation goes to the VPC client
of that one generation (classic when the generation is 1, current otherwise),
apart from the resource-group lookup of the classic Read. -/
theorem generation_read_and_client_chosen (m : ClientSession) (s : St)
    (userDetails : UserDetails) (hsession : m.BluemixUserDetails = .ok userDetails) :
    ((resourceIBMISSecurityGroupRead m s).1.lookups = s.lookups + 1 ∧
      (resourceIBMISSecurityGroupDelete m s).1.lookups = s.lookups + 1 ∧
      (resourceIBMISSecurityGroupExists m s).1.lookups = s.lookups + 1) ∧
    (((resourceIBMISSecurityGroupCreate m s).1.lookups = s.lookups + 1 ∨
        (resourceIBMISSecurityGroupCreate m s).1.lookups = s.lookups + 2) ∧
      ((resourceIBMISSecurityGroupCreate m s).2 = .ret none →
        (resourceIBMISSecurityGroupCreate m s).1.lookups = s.lookups + 2)) ∧
    (((resourceIBMISSecurityGroupUpdate m s).1.lookups = s.lookups + 1 ∨
        (resourceIBMISSecurityGroupUpdate m s).1.lookups = s.lookups + 2) ∧
      ((resourceIBMISSecurityGroupUpdate m s).2 = .ret none →
        (resourceIBMISSecurityGroupUpdate m s).1.lookups = s.lookups + 2)) ∧
    (ServedBy (clientsOf userDetails.generation) s (resourceIBMISSecurityGroupCreate m s).1 ∧
      ServedBy (clientsOf userDetails.generation) s (resourceIBMISSecurityGroupRead m s).1 ∧
      ServedBy (clientsOf userDetails.generation) s (resourceIBMISSecurityGroupUpdate m s).1 ∧
      ServedBy (clientsOf userDetails.generation) s (resourceIBMISSecurityGroupDelete m s).1 ∧
      ServedBy (clientsOf userDetails.generation) s (resourceIBMISSecurityGroupExists m s).1) := by
  obtain ⟨hr, hrs⟩ := read_frame m s
  obtain ⟨hd, hds⟩ := delete_frame m s
  obtain ⟨he, hes⟩ := exists_frame m s
  obtain ⟨hc, hc2, hcs⟩ := create_frame m s
  obtain ⟨hu, hu2, hus⟩ := update_frame m s
  exact ⟨⟨hr, hd, he⟩, ⟨hc, hc2⟩, ⟨hu, hu2⟩, hcs _ hsession, hrs _ hsession, hus _ hsession,
    hds _ hsession, hes _ hsession⟩

/-- Witness of C13: a Delete in the current generation against a vendor that stores the
group. -/
theorem generation_read_and_client_chosen_witness :
    (resourceIBMISSecurityGroupDelete storedGroupSession (stateWithId "sg-abc")).1.lookups = 1 ∧
    ServedBy [.vpc] (stateWithId "sg-abc")
      (resourceIBMISSecurityGroupDelete storedGroupSession (stateWithId "sg-abc")).1 := by
  have h := generation_read_and_client_chosen storedGroupSession (stateWithId "sg-abc")
    { generation := 2 } rfl
  exact ⟨h.1.2.1, h.2.2.2.2.2.2.1⟩

end Ibm
